import Mathlib

/-!
# Starlink NDF quality masking and quality reset

A shallow embedding of `ndf1Qma` (libraries/ndf/ndf1Qma.c) and `ndf1Qrst`
(libraries/ndf/ndf1Qrst.c), with the properties of the quality masking engine
and of the inherited-status convention proved about the embedding.

Conventions of the embedding:

* C `int` values (`status`, `npntr`, `bad`, the flags of the control blocks)
  are `Int`; `size_t` and `unsigned char` values are `Nat`.
* A C string is a `String`, one character per byte; `strlen` is `String.length`
  and `strcmp(a,b) == 0` is `a = b`.
* A pointer to a numeric buffer is `Option Nat`: `none` is `NULL`, `some a` is the
  buffer stored at position `a` of the heap (a list of buffers).  A store outside
  a buffer, or through a pointer that addresses no buffer, is dropped.
* A read outside the quality array gives 0.
* Calls that leave the translated function are recorded in a log of events.
-/

namespace Starlink

/-! ## Constants taken from headers that are not part of the sources -/

/-- Values of the header constants used by the NDF functions (`sae_par.h`,
`ndf_err.h`, `ndf1.h`); the headers are not among the sources, so the values
are parameters of the embedding. -/
structure NdfPar where
  /-- The "no error" status value. -/
  SAI__OK : Int
  /-- The "fatal internal error" status value. -/
  NDF__FATIN : Int
  /-- The "component is mapped" status value. -/
  NDF__ISMAP : Int
  /-- The maximum length of a numeric type string. -/
  NDF__SZTYP : Nat
deriving DecidableEq, Repr

/-- One assignment of the header constants, used to evaluate the embedding on
concrete inputs. -/
def stdPar : NdfPar :=
  { SAI__OK := 0, NDF__FATIN := 232950202, NDF__ISMAP := 232950226, NDF__SZTYP := 8 }

/-- The masking routines `ndf1Qma<T>` that `ndf1Qma` can call, named by their
suffix: `ndf1QmaB`, `ndf1QmaUB`, `ndf1QmaD`, `ndf1QmaI`, `ndf1QmaF`, `ndf1QmaW`,
`ndf1QmaUW`, `ndf1QmaK`. -/
inductive QmaType where
  | B | UB | D | I | F | W | UW | K
deriving DecidableEq, Repr

/-- Calls that leave the translated functions, in the order they are made. -/
inductive Event where
  /-- A call of the masking routine `ndf1Qma<T>`. -/
  | qma (t : QmaType)
  /-- The call `msgSetc( token, value )`. -/
  | msgSetc (token value : String)
  /-- The call `errRep( " ", text, status )`. -/
  | errRep (text : String)
  /-- The call `ndf1Trace( routine, status )`. -/
  | ndf1Trace (routine : String)
  /-- The call `ndf1Amsg( token, acb )`. -/
  | ndf1Amsg (token : String)
  /-- The call `ndf1Dmsg( token, dcb )`. -/
  | ndf1Dmsg (token : String)
  /-- The call `ndf1Qimp( acb, status )`. -/
  | ndf1Qimp
  /-- The call `aryValid( dcb->qid, status )`. -/
  | aryValid
  /-- The call `aryForm( dcb->qid, dcb->qfrm, status )`. -/
  | aryForm
  /-- The call `aryDelet( &dcb->qid, status )`. -/
  | aryDelet
  /-- The expansion of `NDF_INIT( status )`. -/
  | NDF_INIT
  /-- The call `errMark()`. -/
  | errMark
  /-- The call `ndf1Imppl( *place, &pcb, status )`, with the value of `*place`. -/
  | ndf1Imppl (place : Int)
  /-- The call `ndf1Chftp( ftype, type, sizeof( type ), &cmplx, status )`. -/
  | ndf1Chftp
  /-- The call `ndf1Vbnd( ndim, lbnd, ubnd, status )`. -/
  | ndf1Vbnd
  /-- The call `ndf1Dcre( ftype, ndim, lbnd, ubnd, pcb, &acb, status )`. -/
  | ndf1Dcre
  /-- The call `ndf1Expid( ( NdfObject * ) acb, status )`. -/
  | ndf1Expid
  /-- The call `ndf1Anl( &acb, status )`, with the value of `acb`. -/
  | ndf1Anl (acb : Option Nat)
  /-- The call `ndf1Annpl( erase, &pcb, status )`, with the value of `erase`. -/
  | ndf1Annpl (erase : Bool)
  /-- The call `errAnnul( status )`. -/
  | errAnnul
  /-- The call `errRlse()`. -/
  | errRlse
  /-- The expansion of `NDF_FINAL`. -/
  | NDF_FINAL
deriving DecidableEq, Repr

/-! ## Quality masking: `ndf1Qma` -/

/-- The memory `ndf1Qma` works on: the caller's `pntr` array, the numeric
buffers, the quality array (read only: it is a `const` argument, held apart from
the numeric buffers), and the `*bad` and `*status` cells. -/
structure QmaState (α : Type) where
  /-- The array `pntr[]` of the caller. -/
  pntr : List (Option Nat)
  /-- The numeric buffers, by address. -/
  heap : List (List α)
  /-- The array `qual[]`. -/
  qual : List Nat
  /-- The cell `*bad`. -/
  bad : Int
  /-- The cell `*status`. -/
  status : Int
  /-- The calls made so far. -/
  log : List Event

/-- The buffer at address `a` (empty when `a` addresses no buffer). -/
def bufAt {α : Type} (heap : List (List α)) (a : Nat) : List α :=
  heap.getD a []

/-- Element `i` of the buffer at address `a`, if there is one. -/
def cell {α : Type} (heap : List (List α)) (a i : Nat) : Option α :=
  (bufAt heap a)[i]?

/-- The store `pntr[ i ] = v`; a store at a negative index or past the end of the
array is outside the array and is dropped. -/
def storePntr (pntr : List (Option Nat)) (i : Int) (v : Option Nat) : List (Option Nat) :=
  if 0 ≤ i then pntr.set i.toNat v else pntr

/-- The loop `for( i = npntr; i < 4; i++ ) pntr[ i ] = NULL;`, started at `i`;
the first argument bounds the number of iterations (`4 - i` are enough). -/
def clearPntr : Nat → List (Option Nat) → Int → List (Option Nat)
  | 0, pntr, _ => pntr
  | fuel + 1, pntr, i =>
    if i < 4 then clearPntr fuel (storePntr pntr i none) (i + 1) else pntr

/-- Modelled from the spec: `astChrCase( in, out, upper, blen )` of the AST
library, whose source is not among the files.  After the words of ndf1Qma.c
("case insensitive", "convert it to upper case"): the characters of `in` are
copied, each converted to upper case (or to lower case when `upper` is false),
into a buffer of `blen` characters including the terminator. -/
def astChrCase (inStr : String) (upper : Bool) (blen : Nat) : String :=
  String.mk ((inStr.data.map (fun c => if upper then c.toUpper else c.toLower)).take (blen - 1))

/-- Whether element `i` of the quality array has a bit of `badbit` set. -/
def flagged (qual : List Nat) (badbit : Nat) (i : Nat) : Bool :=
  (qual.getD i 0) &&& badbit != 0

/-- The buffers a masking routine is given: the first `npntr` of the four
pointers, without the absent ones. -/
def supplied (npntr : Int) (ps : List (Option Nat)) : List Nat :=
  (ps.take npntr.toNat).filterMap id

/-- The store `buffer_a[ i ] = badval`. -/
def maskCell {α : Type} (badval : α) (i : Nat) (heap : List (List α)) (a : Nat) :
    List (List α) :=
  heap.set a ((bufAt heap a).set i badval)

/-- One cell of the masking pass: when `qual[i] & badbit` is not zero the sentinel
is stored at index `i` of every supplied buffer and the pass has masked a cell. -/
def maskStep {α : Type} (badval : α) (qual : List Nat) (badbit : Nat) (bufs : List Nat)
    (hb : List (List α) × Bool) (i : Nat) : List (List α) × Bool :=
  if flagged qual badbit i then (bufs.foldl (maskCell badval i) hb.1, true) else hb

/-- The masking pass over the cells `0 .. el-1`; the result is the new heap and
whether a cell was masked. -/
def maskPass {α : Type} (badval : α) (qual : List Nat) (badbit : Nat) (bufs : List Nat)
    (el : Nat) (heap : List (List α)) : List (List α) × Bool :=
  (List.range el).foldl (maskStep badval qual badbit bufs) (heap, false)

/-- Modelled from the spec: the masking routine `ndf1Qma<T>` (`ndf1QmaB`, ...,
`ndf1QmaK`), whose source is not among the files.  "For every cell index i: if
`quality_buffer[i] & badbits != 0`, set `buffers[k][i] = Sentinel(dtype)` for
every supplied buffer k (1 to 4 buffers may be supplied; absent buffer slots are
skipped); otherwise leave `buffers[k][i]` untouched.  Returns true iff at least
one cell was masked across the whole pass."  Like every operation it does nothing
when the status is already set, and it does nothing when `npntr` is not in the
range 1 to 4.  The call itself is logged. -/
def ndf1QmaT {α : Type} (P : NdfPar) (t : QmaType) (badval : α) (el : Nat) (badbit : Nat)
    (npntr : Int) (pntr1 pntr2 pntr3 pntr4 : Option Nat) (st : QmaState α) : QmaState α :=
  let st := { st with log := st.log ++ [Event.qma t] }
  if st.status ≠ P.SAI__OK then st
  else if npntr < 1 ∨ 4 < npntr then st
  else
    let r := maskPass badval st.qual badbit (supplied npntr [pntr1, pntr2, pntr3, pntr4]) el
      st.heap
    { st with heap := r.1, bad := if r.2 then 1 else 0 }

/-- The text of the error report of `ndf1Qma`. -/
def qmaErrText : String :=
  "Function ^ROUTINE called with an invalid TYPE parameter of '^BADTYPE' (internal programming error)."

/-- The function `ndf1Qma( el, qual, badbit, type, npntr, pntr, bad, status )`.
`VAL__BAD` gives the bad value each masking routine stores (the constants
`VAL__BADB`, ... of `prm_par.h`, a header that is not among the sources). -/
def ndf1Qma {α : Type} (P : NdfPar) (VAL__BAD : QmaType → α) (el : Nat) (badbit : Nat)
    (type : String) (npntr : Int) (st : QmaState α) : QmaState α :=
  -- Check inherited global status.
  if st.status ≠ P.SAI__OK then st
  else
    -- Ensure elements of "pntr" that are not of interest contain safe values.
    let st := { st with pntr := clearPntr (4 - npntr).toNat st.pntr npntr }
    -- If the supplied string is not too long, convert it to upper case.
    let typok : Bool := decide (type.length < P.NDF__SZTYP + 1)
    let call := fun (t : QmaType) =>
      ndf1QmaT P t (VAL__BAD t) el badbit npntr (st.pntr.getD 0 none) (st.pntr.getD 1 none)
        (st.pntr.getD 2 none) (st.pntr.getD 3 none) st
    let r : Bool × QmaState α :=
      if typok then
        let utype := astChrCase type true (P.NDF__SZTYP + 1)
        if utype = "_BYTE" then (typok, call QmaType.B)
        else if utype = "_UBYTE" then (typok, call QmaType.UB)
        else if utype = "_DOUBLE" then (typok, call QmaType.D)
        else if utype = "_INTEGER" then (typok, call QmaType.I)
        else if utype = "_REAL" then (typok, call QmaType.F)
        else if utype = "_WORD" then (typok, call QmaType.W)
        else if utype = "_UWORD" then (typok, call QmaType.UW)
        else if utype = "_INT64" then (typok, call QmaType.K)
        else (false, st)
      else (typok, st)
    -- If the "type" parameter is not valid, then report an error.
    let st := r.2
    let st :=
      if st.status = P.SAI__OK then
        if !r.1 then
          { st with
            status := P.NDF__FATIN
            log := st.log ++ [Event.msgSetc "ROUTINE" "ndf1Qma", Event.msgSetc "BADTYPE" type,
              Event.errRep qmaErrText] }
        else st
      else st
    -- Call error tracing function and exit.
    if st.status ≠ P.SAI__OK then { st with log := st.log ++ [Event.ndf1Trace "ndf1Qma"] }
    else st

/-! ## Quality reset: `ndf1Qrst` -/

/-- The fields of the data control block entry that `ndf1Qrst` uses. -/
structure NdfDCB where
  /-- Number of current mappings of the quality component, over all identifiers. -/
  nqmap : Int
  /-- The quality array identifier (`none` is `NULL`). -/
  qid : Option Nat
  /-- The storage form used if the quality array is created again. -/
  qfrm : String
deriving DecidableEq, Repr

/-- The fields of the access control block entry that `ndf1Qrst` uses; the entry
`acb->dcb` it points to is held next to it in the state. -/
structure NdfACB where
  /-- Whether the quality component is mapped through this entry. -/
  qmap : Int
  /-- Whether this entry describes a section (not a base NDF). -/
  cut : Int
deriving DecidableEq, Repr

/-- The memory `ndf1Qrst` works on; `store` is the state of the array system
behind the identifiers. -/
structure QrstState (σ : Type) where
  /-- The entry `*acb`. -/
  acb : NdfACB
  /-- The entry `*acb->dcb`. -/
  dcb : NdfDCB
  /-- The state of the array system. -/
  store : σ
  /-- The cell `*status`. -/
  status : Int
  /-- The calls made so far. -/
  log : List Event

/-- The functions `ndf1Qrst` calls whose source is not among the files; each may
change the control blocks, the array system and the status. -/
structure QrstExt (σ : Type) where
  /-- The effect of `ndf1Qimp( acb, status )`. -/
  ndf1Qimp : QrstState σ → QrstState σ
  /-- The value and the effect of `aryValid( dcb->qid, status )`. -/
  aryValid : QrstState σ → Int × QrstState σ
  /-- The effect of `aryForm( dcb->qid, dcb->qfrm, status )`. -/
  aryForm : QrstState σ → QrstState σ
  /-- The effect of `aryDelet( &dcb->qid, status )`. -/
  aryDelet : QrstState σ → QrstState σ

/-- The text of the first error report of `ndf1Qrst`. -/
def qrstErrText1 : String :=
  "The quality component in the NDF structure ^NDF is already mapped for access through the specified identifier (possible programming error)."

/-- The text of the second error report of `ndf1Qrst`. -/
def qrstErrText2 : String :=
  "The quality component in the NDF structure ^NDF is already mapped for access through another identifier (possible programming error)."

/-- Adds an event to the log. -/
def QrstState.note {σ : Type} (st : QrstState σ) (e : Event) : QrstState σ :=
  { st with log := st.log ++ [e] }

/-- The function `ndf1Qrst( acb, status )`. -/
def ndf1Qrst {σ : Type} (P : NdfPar) (X : QrstExt σ) (st : QrstState σ) : QrstState σ :=
  -- Check inherited global status.
  if st.status ≠ P.SAI__OK then st
  else
    -- Ensure that quality information is available in the DCB and ACB.
    let st := X.ndf1Qimp (st.note Event.ndf1Qimp)
    let st :=
      if st.status = P.SAI__OK then
        -- Check that the quality component is not mapped through the current ACB entry.
        if st.acb.qmap ≠ 0 then
          { st with
            status := P.NDF__ISMAP
            log := st.log ++ [Event.ndf1Amsg "NDF", Event.errRep qrstErrText1] }
        -- Only take further action if this is a base NDF.
        else if st.acb.cut = 0 then
          if st.dcb.nqmap ≠ 0 then
            { st with
              status := P.NDF__ISMAP
              log := st.log ++ [Event.ndf1Dmsg "NDF", Event.errRep qrstErrText2] }
          else
            -- See if the DCB quality array identifier is valid.
            let v := X.aryValid (st.note Event.aryValid)
            let valid := v.1
            let st := v.2
            if st.status = P.SAI__OK then
              if valid ≠ 0 then
                -- Save the storage form, then delete the quality array.
                let st := X.aryForm (st.note Event.aryForm)
                X.aryDelet (st.note Event.aryDelet)
              else st
            else st
        else st
      else st
    -- Call error tracing function and exit.
    if st.status ≠ P.SAI__OK then st.note (Event.ndf1Trace "ndf1Qrst") else st


/-- Modelled from the spec: the array system behind the quality identifier, with
the interface of the underlying store (`store.valid`, `store.get_form`,
`store.delete`); its source is not among the files.  The state is the list of the
live array identifiers, each with its storage form.  `ndf1Qimp` finds the quality
information already imported; `aryValid` tells whether the identifier is live;
`aryForm` stores the form of a live array in `dcb->qfrm`; `aryDelet` deletes the
array, so that the identifier is no longer live, and resets `dcb->qid`. -/
def aryStore : QrstExt (List (Nat × String)) where
  ndf1Qimp := fun st => st
  aryValid := fun st =>
    (if ((st.dcb.qid.bind st.store.lookup).isSome) then 1 else 0, st)
  aryForm := fun st =>
    match st.dcb.qid.bind st.store.lookup with
    | some form => { st with dcb := { st.dcb with qfrm := form } }
    | none => st
  aryDelet := fun st =>
    { st with
      store := st.store.filter (fun e => some e.1 != st.dcb.qid)
      dcb := { st.dcb with qid := none } }

/-! ## Creation of a new NDF: `ndfNew` -/

/-- Values of the constants of `ndf.h` used by `ndfNew`; the header is not among
the sources, so the values are parameters of the embedding. -/
structure NdfIds where
  /-- The null NDF identifier. -/
  NDF__NOID : Int
  /-- The null placeholder. -/
  NDF__NOPL : Int
deriving DecidableEq, Repr

/-- One assignment of the constants of `ndf.h`, used to evaluate the embedding on
concrete inputs. -/
def stdIds : NdfIds :=
  { NDF__NOID := 0, NDF__NOPL := 0 }

/-- What the functions called by `ndfNew` work on besides their arguments: the
control block tables of the library and the cell `*status`. -/
structure NdfSys (σ : Type) where
  /-- The placeholder, data and access control block tables. -/
  tab : σ
  /-- The cell `*status`. -/
  status : Int

/-- The macro and the functions `ndfNew` uses whose source is not among the
files.  Each is given the tables and the status and returns them, next to the
values it returns through its pointer arguments. -/
structure NewExt (σ : Type) where
  /-- The effect of `NDF_INIT( status )`. -/
  NDF_INIT : NdfSys σ → NdfSys σ
  /-- The effect of `ndf1Imppl( place, &pcb, status )` entered with `pcb = NULL`;
  the first result is `pcb`. -/
  ndf1Imppl : Int → NdfSys σ → Option Nat × NdfSys σ
  /-- The effect of `ndf1Chftp( ftype, type, sizeof( type ), &cmplx, status )`; the
  values of `type` and `cmplx` are not used by `ndfNew`. -/
  ndf1Chftp : String → NdfSys σ → NdfSys σ
  /-- The effect of `ndf1Vbnd( ndim, lbnd, ubnd, status )`. -/
  ndf1Vbnd : Int → List Int → List Int → NdfSys σ → NdfSys σ
  /-- The effect of `ndf1Dcre( ftype, ndim, lbnd, ubnd, pcb, &acb, status )`; the
  first result is `acb`. -/
  ndf1Dcre : String → Int → List Int → List Int → Option Nat → NdfSys σ
    → Option Nat × NdfSys σ
  /-- The value and the effect of `ndf1Expid( acb, status )`. -/
  ndf1Expid : Option Nat → NdfSys σ → Int × NdfSys σ
  /-- The effect of `ndf1Anl( &acb, status )`. -/
  ndf1Anl : Option Nat → NdfSys σ → NdfSys σ
  /-- The effect of `ndf1Annpl( erase, &pcb, status )`. -/
  ndf1Annpl : Bool → Option Nat → NdfSys σ → NdfSys σ

/-- The memory `ndfNew` works on: the cells `*place` and `*indf`, the tables and
the status, and the calls made so far. -/
structure NewState (σ : Type) where
  /-- The cell `*place`. -/
  place : Int
  /-- The cell `*indf`. -/
  indf : Int
  /-- The tables and the cell `*status`. -/
  sys : NdfSys σ
  /-- The calls made so far. -/
  log : List Event

/-- The local variables of `ndfNew` that live across its three parts. -/
structure NewLocals where
  /-- The saved entry status `tstat`. -/
  tstat : Int
  /-- The pointer `pcb` to the placeholder entry (`none` is `NULL`). -/
  pcb : Option Nat
deriving DecidableEq, Repr

/-- The text of the error report of `ndfNew`. -/
def newErrText : String :=
  "ndfNew: Error creating a new simple NDF."

/-- First part of `ndfNew` (lines 99 to 112): initialise, preset `*indf`, save the
status, and import the placeholder with the status reset to `SAI__OK`. -/
def ndfNewImport {σ : Type} (P : NdfPar) (I : NdfIds) (X : NewExt σ) (st : NewState σ) :
    NewLocals × NewState σ :=
  -- Ensure the NDF library has been initialised.
  let sys := X.NDF_INIT st.sys
  -- Save the "status" value and mark the error stack.
  let tstat := sys.status
  -- Import the NDF placeholder, converting it to a PCB index.
  let r := X.ndf1Imppl st.place { sys with status := P.SAI__OK }
  ({ tstat := tstat, pcb := r.1 },
    { st with
      indf := I.NDF__NOID
      sys := r.2
      log := st.log ++ [Event.NDF_INIT, Event.errMark, Event.ndf1Imppl st.place] })

/-- Second part of `ndfNew` (lines 114 to 132): check the type and the bounds,
create the NDF and export an identifier for it. -/
def ndfNewCreate {σ : Type} (P : NdfPar) (X : NewExt σ) (ftype : String) (ndim : Int)
    (lbnd ubnd : List Int) (loc : NewLocals) (st : NewState σ) : NewState σ :=
  -- If there has been no error at all so far, check the data type and bounds.
  if st.sys.status = P.SAI__OK ∧ loc.tstat = P.SAI__OK then
    let sys := X.ndf1Vbnd ndim lbnd ubnd (X.ndf1Chftp ftype st.sys)
    let st := { st with sys := sys, log := st.log ++ [Event.ndf1Chftp, Event.ndf1Vbnd] }
    if st.sys.status = P.SAI__OK then
      -- Create a new simple NDF in place of the placeholder object.
      let d := X.ndf1Dcre ftype ndim lbnd ubnd loc.pcb st.sys
      -- Export an identifier for the NDF.
      let e := X.ndf1Expid d.1 d.2
      let st :=
        { st with indf := e.1, sys := e.2, log := st.log ++ [Event.ndf1Dcre, Event.ndf1Expid] }
      -- If an error occurred, annul any ACB entry which may have been acquired.
      if st.sys.status ≠ P.SAI__OK then
        { st with sys := X.ndf1Anl d.1 st.sys, log := st.log ++ [Event.ndf1Anl d.1] }
      else st
    else st
  else st

/-- Third part of `ndfNew` (lines 134 to 166): annul the placeholder, reset
`*place`, and settle the status. -/
def ndfNewCleanup {σ : Type} (P : NdfPar) (I : NdfIds) (X : NewExt σ) (loc : NewLocals)
    (st : NewState σ) : NewState σ :=
  -- Annul the placeholder, erasing the associated object if any error has occurred.
  let st :=
    match loc.pcb with
    | some p =>
      let erase : Bool := decide (st.sys.status ≠ P.SAI__OK ∨ loc.tstat ≠ P.SAI__OK)
      { st with
        sys := X.ndf1Annpl erase (some p) st.sys
        log := st.log ++ [Event.ndf1Annpl erase] }
    | none => st
  -- Reset the "place" parameter.
  let st := { st with place := I.NDF__NOPL }
  let st :=
    if st.sys.status ≠ P.SAI__OK then
      if loc.tstat ≠ P.SAI__OK then
        -- Annul any error if "status" was previously bad.
        { st with
          sys := { st.sys with status := loc.tstat }
          log := st.log ++ [Event.errAnnul] }
      else
        -- Report the error context and call the error tracing function.
        { st with
          indf := I.NDF__NOID
          log := st.log ++ [Event.errRep newErrText, Event.ndf1Trace "ndfNew"] }
    else { st with sys := { st.sys with status := loc.tstat } }
  -- Release error stack and restore the AST status pointer.
  { st with log := st.log ++ [Event.errRlse, Event.NDF_FINAL] }

/-- The function `ndfNew_( ftype, ndim, lbnd, ubnd, place, indf, status )`. -/
def ndfNew {σ : Type} (P : NdfPar) (I : NdfIds) (X : NewExt σ) (ftype : String) (ndim : Int)
    (lbnd ubnd : List Int) (st : NewState σ) : NewState σ :=
  let r := ndfNewImport P I X st
  ndfNewCleanup P I X r.1 (ndfNewCreate P X ftype ndim lbnd ubnd r.1 r.2)

/-! ## Example inputs -/

/-- An example memory for `ndf1Qma`: four buffers of three integers, all four
pointers set, the quality array `[0, 1, 2]`, good status. -/
def exState : QmaState Int :=
  { pntr := [some 0, some 1, some 2, some 3]
    heap := [[1, 2, 3], [4, 5, 6], [7, 8, 9], [10, 11, 12]]
    qual := [0, 1, 2]
    bad := 7
    status := 0
    log := [] }

/-- The example memory with a quality array of zeros. -/
def exZero : QmaState Int :=
  { exState with qual := [0, 0, 0] }

/-- The example memory with the status set on entry. -/
def exFailed : QmaState Int :=
  { exState with status := 232950226 }

/-- An example memory for `ndf1Qrst`: a base NDF with a live, unmapped quality
array, entered with the status set. -/
def exQrstFailed : QrstState (List (Nat × String)) :=
  { acb := { qmap := 0, cut := 0 }
    dcb := { nqmap := 0, qid := some 5, qfrm := "PRIMITIVE" }
    store := [(5, "SIMPLE")]
    status := 232950202
    log := [] }

/-! ## Vocabulary of the statements -/

/-- The type string each masking routine is selected by. -/
def qmaName : QmaType → String
  | QmaType.B => "_BYTE"
  | QmaType.UB => "_UBYTE"
  | QmaType.D => "_DOUBLE"
  | QmaType.I => "_INTEGER"
  | QmaType.F => "_REAL"
  | QmaType.W => "_WORD"
  | QmaType.UW => "_UWORD"
  | QmaType.K => "_INT64"

/-- The upper-cased form of a type string. -/
def upperCase (s : String) : String :=
  String.mk (s.data.map Char.toUpper)

/-- The seven element types the specification lists as supported: signed byte,
unsigned byte, signed 16-bit, unsigned 16-bit, 32-bit integer, 32-bit float and
64-bit float. -/
def sevenNames : List String :=
  ["_BYTE", "_UBYTE", "_WORD", "_UWORD", "_INTEGER", "_REAL", "_DOUBLE"]

/-- The type strings compared against in `ndf1Qma`, in the order of the source. -/
def qmaNames : List String :=
  ["_BYTE", "_UBYTE", "_DOUBLE", "_INTEGER", "_REAL", "_WORD", "_UWORD", "_INT64"]

/-- The events a call added to the log. -/
def newEvents (before after : List Event) : List Event :=
  after.drop before.length

/-- Bad values for evaluating the embedding on integers: the most negative value
of each signed type, the largest of each unsigned type, and the most negative
finite value of the two floating types. -/
def stdBad : QmaType → Int
  | QmaType.B => -128
  | QmaType.UB => 255
  | QmaType.D => -(2 ^ 1024 - 2 ^ 971)
  | QmaType.I => -2147483648
  | QmaType.F => -(2 ^ 128 - 2 ^ 104)
  | QmaType.W => -32768
  | QmaType.UW => 65535
  | QmaType.K => -9223372036854775808

/-! ## The collaborators of `ndfNew`, from the specification -/

/-- Modelled from the spec: the placeholder import `ndf1Imppl`, whose source is
not among the files, as far as the null placeholder goes.  "Validate the
placeholder is still live and unconsumed"; "the placeholder is unusable afterward
(a second `create` on it fails `NotFound`)": entered with good status and the
null placeholder `NDF__NOPL`, the import delivers no PCB entry and sets the
status. -/
def RejectsNoPlace {σ : Type} (P : NdfPar) (I : NdfIds) (X : NewExt σ) : Prop :=
  ∀ sys : NdfSys σ, sys.status = P.SAI__OK →
    (X.ndf1Imppl I.NDF__NOPL sys).1 = none ∧
      (X.ndf1Imppl I.NDF__NOPL sys).2.status ≠ P.SAI__OK

/-- Modelled from the spec: the status handling of the annulling functions
`ndf1Anl` and `ndf1Annpl`, whose source is not among the files.  An operation
"returns that condition unchanged" when it is entered with the status set: the
two functions never turn a set status back into `SAI__OK`. -/
def KeepsError {σ : Type} (P : NdfPar) (X : NewExt σ) : Prop :=
  ∀ sys : NdfSys σ, sys.status ≠ P.SAI__OK →
    (∀ a, (X.ndf1Anl a sys).status ≠ P.SAI__OK) ∧
      (∀ e p, (X.ndf1Annpl e p sys).status ≠ P.SAI__OK)

/-- Modelled from the spec: the tables and the store of the creation protocol
(section 4.3), whose source is not among the files: the live placeholders, the
live handles, the placeholders at which an object has been created, and whether
the store refuses to create an object. -/
structure NdfTab where
  /-- The live placeholders. -/
  pcb : List Nat
  /-- The live handles. -/
  acb : List Nat
  /-- The objects in the store, named by the placeholder they were created at. -/
  objs : List Nat
  /-- Whether the store refuses to create an object. -/
  full : Bool
deriving DecidableEq, Repr

/-- Modelled from the spec: the steps of the creation protocol (section 4.3) on the
tables `NdfTab`, with `SAI__OK = 0` and the error kinds `NotFound` (1),
`UnsupportedType` (2), `InvalidBounds` (3) and a failure of the store (4).
Every step does nothing when the status is set, except the two annulling
functions, which do their work and leave the status as it is.  (1) The import
checks that the placeholder is live.  (2) The type must be one of the supported
types, and the bounds must have `1 <= ndim <= 7` and `lower[i] <= upper[i]` on
every axis.  (3) The object is created in the store.  (4) A handle is allocated
and returned.  Annulling a handle removes it; annulling a placeholder removes it,
and with `erase` removes the object created at it. -/
def ndfTables : NewExt NdfTab where
  NDF_INIT := fun sys => sys
  ndf1Imppl := fun place sys =>
    if sys.status = 0 then
      if 0 < place ∧ place.toNat ∈ sys.tab.pcb then (some place.toNat, sys)
      else (none, { sys with status := 1 })
    else (none, sys)
  ndf1Chftp := fun ftype sys =>
    if sys.status = 0 then
      if upperCase ftype ∈ qmaNames then sys else { sys with status := 2 }
    else sys
  ndf1Vbnd := fun ndim lbnd ubnd sys =>
    if sys.status = 0 then
      if 1 ≤ ndim ∧ ndim ≤ 7 ∧ lbnd.length = ndim.toNat ∧ ubnd.length = ndim.toNat
          ∧ (List.zip lbnd ubnd).all (fun b => decide (b.1 ≤ b.2)) = true then sys
      else { sys with status := 3 }
    else sys
  ndf1Dcre := fun _ _ _ _ pcb sys =>
    if sys.status = 0 then
      match pcb with
      | some p =>
        if sys.tab.full then (none, { sys with status := 4 })
        else
          let h := sys.tab.acb.foldl max 0 + 1
          (some h, { sys with tab := { sys.tab with objs := p :: sys.tab.objs,
                                                    acb := h :: sys.tab.acb } })
      | none => (none, { sys with status := 1 })
    else (none, sys)
  ndf1Expid := fun acb sys =>
    if sys.status = 0 then
      match acb with
      | some h => ((h : Int), sys)
      | none => (0, { sys with status := 1 })
    else (0, sys)
  ndf1Anl := fun acb sys =>
    match acb with
    | some h => { sys with tab := { sys.tab with acb := sys.tab.acb.erase h } }
    | none => sys
  ndf1Annpl := fun erase pcb sys =>
    match pcb with
    | some p =>
      { sys with tab := { sys.tab with pcb := sys.tab.pcb.erase p,
                                       objs := if erase then sys.tab.objs.erase p
                                         else sys.tab.objs } }
    | none => sys

/-- An example memory for `ndfNew`: the live placeholder 3, no handle and no
object yet, good status. -/
def exNew : NewState NdfTab :=
  { place := 3
    indf := 99
    sys := { tab := { pcb := [3], acb := [], objs := [], full := false }, status := 0 }
    log := [] }

/-- The example memory for `ndfNew` with the status set on entry. -/
def exNewFailed : NewState NdfTab :=
  { exNew with sys := { exNew.sys with status := 232950226 } }

/-- The example memory for `ndfNew` with a store that refuses to create. -/
def exNewFull : NewState NdfTab :=
  { exNew with sys := { exNew.sys with tab := { exNew.sys.tab with full := true } } }

/-- The example memory for `ndfNew` with a placeholder that is not live. -/
def exNewStale : NewState NdfTab :=
  { exNew with place := 5 }

/-- The example memory for `ndfNew` with the status set on entry and a placeholder
that is not live. -/
def exNewFailedStale : NewState NdfTab :=
  { exNewFailed with place := 5 }

/-- Example upper bounds for `ndfNew` that are not valid with the lower bounds
`[1, 1]`: the upper bound of the first axis lies below the lower bound. -/
def exBadUbnd : List Int :=
  [0, 32]

/-- Whether an event is a call of `ndf1Annpl`. -/
def isAnnpl : Event → Bool
  | Event.ndf1Annpl _ => true
  | _ => false

/-- Whether an event is one of the creation steps of `ndfNew`: the import of the
placeholder, the type check, the bounds check, the creation and the export. -/
def isStep : Event → Bool
  | Event.ndf1Imppl _ => true
  | Event.ndf1Chftp => true
  | Event.ndf1Vbnd => true
  | Event.ndf1Dcre => true
  | Event.ndf1Expid => true
  | _ => false

/-- The tables and the status that the type check and the bounds check of `ndfNew`
leave, when they are run after the import. -/
def newChecked {σ : Type} (P : NdfPar) (I : NdfIds) (X : NewExt σ) (ftype : String)
    (ndim : Int) (lbnd ubnd : List Int) (st : NewState σ) : NdfSys σ :=
  X.ndf1Vbnd ndim lbnd ubnd (X.ndf1Chftp ftype (ndfNewImport P I X st).2.sys)

/-- The ACB entry, the tables and the status that `ndf1Dcre` leaves, when it is run
after the checks. -/
def newCreated {σ : Type} (P : NdfPar) (I : NdfIds) (X : NewExt σ) (ftype : String)
    (ndim : Int) (lbnd ubnd : List Int) (st : NewState σ) : Option Nat × NdfSys σ :=
  X.ndf1Dcre ftype ndim lbnd ubnd (ndfNewImport P I X st).1.pcb
    (newChecked P I X ftype ndim lbnd ubnd st)

/-- The identifier, the tables and the status that `ndf1Expid` leaves, when it is
run after `ndf1Dcre`. -/
def newExported {σ : Type} (P : NdfPar) (I : NdfIds) (X : NewExt σ) (ftype : String)
    (ndim : Int) (lbnd ubnd : List Int) (st : NewState σ) : Int × NdfSys σ :=
  X.ndf1Expid (newCreated P I X ftype ndim lbnd ubnd st).1
    (newCreated P I X ftype ndim lbnd ubnd st).2

/-- An example memory for `ndf1Qrst`: a base NDF with a live, unmapped quality
array of form `SIMPLE`, good status. -/
def exQrst : QrstState (List (Nat × String)) :=
  { acb := { qmap := 0, cut := 0 }
    dcb := { nqmap := 0, qid := some 5, qfrm := "PRIMITIVE" }
    store := [(5, "SIMPLE")]
    status := 0
    log := [] }

/-- The example memory for `ndf1Qrst` with the quality component mapped twice
through other identifiers. -/
def exQrstMapped : QrstState (List (Nat × String)) :=
  { exQrst with dcb := { exQrst.dcb with nqmap := 2 } }

/-- The example memory for `ndf1Qrst` seen through a section that does not map the
quality component itself, while another identifier does. -/
def exQrstSection : QrstState (List (Nat × String)) :=
  { exQrst with acb := { qmap := 0, cut := 1 }, dcb := { exQrst.dcb with nqmap := 1 } }

/-- The example memory for `ndf1Qrst` with no quality array. -/
def exQrstUndefined : QrstState (List (Nat × String)) :=
  { exQrst with dcb := { exQrst.dcb with qid := none }, store := [] }

/-- The memory that `ndf1Qimp` leaves when `ndf1Qrst` calls it. -/
def qrstImported {σ : Type} (X : QrstExt σ) (st : QrstState σ) : QrstState σ :=
  X.ndf1Qimp (st.note Event.ndf1Qimp)

/-! ## Array order of a smfData: `smf_dataOrder` -/

/-- Values of the constants used by `smf_dataOrder` (`sae_par.h`, `smf_err.h`,
`smf.h`); the headers are not among the sources, so the values are parameters of
the embedding. -/
structure SmfPar where
  /-- The "no error" status value. -/
  SAI__OK : Int
  /-- The general error status value. -/
  SAI__ERROR : Int
  /-- The "wrong dimensions" status value. -/
  SMF__WDIM : Int
  /-- The data type code of quality arrays. -/
  SMF__QUALTYPE : Int
  /-- The data type code of integer arrays. -/
  SMF__INTEGER : Int
deriving DecidableEq, Repr

/-- One assignment of the constants of `smf_dataOrder`, used to evaluate the
embedding on concrete inputs. -/
def stdSmf : SmfPar :=
  { SAI__OK := 0, SAI__ERROR := 148013867, SMF__WDIM := 235176002, SMF__QUALTYPE := 6,
    SMF__INTEGER := 1 }

/-- The fields of a `smfFile` that `smf_dataOrder` tests. -/
structure SmfFile where
  /-- The file descriptor `fd`. -/
  fd : Int
  /-- The NDF identifier `ndfid`. -/
  ndfid : Int
deriving DecidableEq, Repr

/-- The fields of one `smfData` that `smf_dataOrder` uses, without the link
`sidequal`; `A` is the type of an array pointer with what it points to. -/
structure SmfHead (A : Type) where
  /-- The flag `isTordered`. -/
  isTordered : Int
  /-- The number of dimensions `ndims`. -/
  ndims : Int
  /-- The array `dims`. -/
  dims : List Int
  /-- The array `lbnd`. -/
  lbnd : List Int
  /-- The pointer `pntr[0]` (data). -/
  pntr0 : A
  /-- The pointer `pntr[1]` (variance). -/
  pntr1 : A
  /-- The pointer `qual`. -/
  qual : A
  /-- The pointer `lut`. -/
  lut : A
  /-- The data type `dtype`. -/
  dtype : Int
  /-- The pointer `file` (`none` is `NULL`). -/
  file : Option SmfFile
deriving DecidableEq, Repr

/-- The values `smf_get_dims` returns through its pointer arguments. -/
structure SmfDims where
  /-- Number of bolometers. -/
  nbolo : Nat
  /-- Number of time slices. -/
  ntslice : Nat
  /-- Number of data points. -/
  ndata : Nat
  /-- Bolometer index stride. -/
  bstr1 : Nat
  /-- Time index stride. -/
  tstr1 : Nat
deriving DecidableEq, Repr

/-- The functions `smf_dataOrder` calls whose source is not among the files.  Each
is given the status and returns it next to its results. -/
structure SmfExt (A : Type) where
  /-- The effect of `smf_get_dims( data, NULL, NULL, &nbolo, &ntslice, &ndata,
  &bstr1, &tstr1, status )`. -/
  smf_get_dims : SmfHead A → Int → SmfDims × Int
  /-- The value and the effect of `smf_dataOrder_array( oldbuf, dtype, ndata,
  ntslice, nbolo, tstr1, bstr1, tstr2, bstr2, inPlace, freeOld, status )`. -/
  smf_dataOrder_array : A → Int → Nat → Nat → Nat → Nat → Nat → Nat → Nat → Int → Int → Int
    → A × Int

/-- A `smfData *`: the chain made of the `smfData` pointed to, the one its
`sidequal` points to, and so on; the empty chain is `NULL`. -/
abbrev SmfChain (A : Type) : Type := List (SmfHead A)

/-- The store `memcpy( dst, src, 3*sizeof(*src) )` into an array. -/
def copy3 (dst : List Int) (a b c : Int) : List Int :=
  ((dst.set 0 a).set 1 b).set 2 c

/-- Lines 185 to 247 of `smf_dataOrder`: the re-ordering of the arrays of one
`smfData` whose order differs from the requested one, and the update of its
dimensions, pixel origin and flag when the status is still good. -/
def smfReorder {A : Type} (P : SmfPar) (X : SmfExt A) (d : SmfHead A) (isTordered : Int)
    (status : Int) : SmfHead A × Int :=
  -- inPlace=1 if smfData was mapped!
  let inPlace : Int :=
    match d.file with
    | some f => if f.fd ≠ 0 ∨ f.ndfid ≠ 0 then 1 else 0
    | none => 0
  -- Calculate input data dimensions (before changing order)
  let g := X.smf_get_dims d status
  let n := g.1
  let status := g.2
  -- What will the dimensions/strides be in the newly-ordered array?
  let newdims : Int × Int × Int :=
    if isTordered ≠ 0 then (d.dims.getD 1 0, d.dims.getD 2 0, d.dims.getD 0 0)
    else (d.dims.getD 2 0, d.dims.getD 0 0, d.dims.getD 1 0)
  let newlbnd : Int × Int × Int :=
    if isTordered ≠ 0 then (d.lbnd.getD 1 0, d.lbnd.getD 2 0, d.lbnd.getD 0 0)
    else (d.lbnd.getD 2 0, d.lbnd.getD 0 0, d.lbnd.getD 1 0)
  let bstr2 : Nat := if isTordered ≠ 0 then 1 else n.ntslice
  let tstr2 : Nat := if isTordered ≠ 0 then n.nbolo else 1
  -- Loop over elements of data->ptr and re-form arrays
  let r0 := X.smf_dataOrder_array d.pntr0 d.dtype n.ndata n.ntslice n.nbolo n.tstr1 n.bstr1
    tstr2 bstr2 inPlace 1 status
  let r1 := X.smf_dataOrder_array d.pntr1 d.dtype n.ndata n.ntslice n.nbolo n.tstr1 n.bstr1
    tstr2 bstr2 inPlace 1 r0.2
  -- And Quality
  let rq := X.smf_dataOrder_array d.qual P.SMF__QUALTYPE n.ndata n.ntslice n.nbolo n.tstr1
    n.bstr1 tstr2 bstr2 inPlace 1 r1.2
  -- If there is a LUT re-order it here
  let rl := X.smf_dataOrder_array d.lut P.SMF__INTEGER n.ndata n.ntslice n.nbolo n.tstr1
    n.bstr1 tstr2 bstr2 inPlace 1 rq.2
  let d := { d with pntr0 := r0.1, pntr1 := r1.1, qual := rq.1, lut := rl.1 }
  -- Set the new dimensions in the smfData
  if rl.2 = P.SAI__OK then
    ({ d with
        dims := copy3 d.dims newdims.1 newdims.2.1 newdims.2.2
        lbnd := copy3 d.lbnd newlbnd.1 newlbnd.2.1 newlbnd.2.2
        isTordered := isTordered }, rl.2)
  else (d, rl.2)

/-- The body of `smf_dataOrder` for a `data` pointer that is not `NULL`: `d` is the
`smfData` pointed to, `sidequal` the chain its `sidequal` points to, and
`recur s` the result of the call `smf_dataOrder( data->sidequal, isTordered,
status )` made with the status `s`.  The result is the returned value
`waschanged`, the chain as the call leaves it, and the status. -/
def smfOrderBody {A : Type} (P : SmfPar) (X : SmfExt A) (d : SmfHead A)
    (sidequal : SmfChain A) (isTordered status : Int)
    (recur : Int → Int × SmfChain A × Int) : Int × SmfChain A × Int :=
  if status ≠ P.SAI__OK then (0, d :: sidequal, status)
  -- Check for valid isTordered
  else if isTordered ≠ 0 ∧ isTordered ≠ 1 then (0, d :: sidequal, P.SAI__ERROR)
  -- If value of isTordered matches current value in smfData return
  else if d.isTordered = isTordered then (0, d :: sidequal, status)
  -- Make sure we're looking at 3-dimensions of bolo data
  else if d.ndims ≠ 3 then (0, d :: sidequal, P.SMF__WDIM)
  else
    -- we are going to change
    let r := smfReorder P X d isTordered status
    -- Force any external quality to same ordering
    if sidequal.isEmpty then (1, [r.1], r.2)
    else
      let c := recur r.2
      -- and indicate if we changed anything (but not if we did not)
      (if c.1 ≠ 0 then c.1 else 1, r.1 :: c.2.1, c.2.2)

/-- The function `smf_dataOrder( data, isTordered, status )`; the result is the
returned value `waschanged`, the chain as the call leaves it, and the status.
The message and error reports (`msgSeti`, `errRep`, `msgOutif`) leave the data and
the status as they are and are not part of the embedding. -/
def smf_dataOrder {A : Type} (P : SmfPar) (X : SmfExt A) :
    SmfChain A → Int → Int → Int × SmfChain A × Int
  | [], isTordered, status =>
    if status ≠ P.SAI__OK then (0, [], status)
    -- Check for valid isTordered
    else if isTordered ≠ 0 ∧ isTordered ≠ 1 then (0, [], P.SAI__ERROR)
    -- Check for a valid data
    else (0, [], P.SAI__ERROR)
  | d :: sidequal, isTordered, status =>
    smfOrderBody P X d sidequal isTordered status
      (fun s => smf_dataOrder P X sidequal isTordered s)

/-- The flag `isTordered` of the `smfData` a pointer points to, if it is not
`NULL`. -/
def orderOf {A : Type} (data : SmfChain A) : Option Int :=
  data.head?.map (fun d => d.isTordered)

/-- Modelled from the spec: the two array helpers of the pipeline that
`smf_dataOrder` calls, whose source is not among the files; the specification
leaves the array re-ordering to the pipeline, and the model follows the
description in smf_dataOrder.c, with `SAI__OK = 0`.  Time-ordered data has the
dimensions (columns, rows, time slices) and the bolometer index runs fastest;
bolometer-ordered data has the dimensions (time slices, columns, rows) and the
time index runs fastest.  `smf_dataOrder_array` returns the buffer with the
element of time slice `t` and bolometer `b` moved from `t*tstr1 + b*bstr1` to
`t*tstr2 + b*bstr2`; a `NULL` buffer (empty list) stays `NULL`.  Both helpers do
nothing when the status is set; with `fail`, the re-ordering fails with status 1
and leaves the buffer. -/
def smfArrays (fail : Bool) : SmfExt (List Int) where
  smf_get_dims := fun d status =>
    if status ≠ 0 then ({ nbolo := 0, ntslice := 0, ndata := 0, bstr1 := 0, tstr1 := 0 }, status)
    else if d.isTordered ≠ 0 then
      let nbolo := (d.dims.getD 0 0 * d.dims.getD 1 0).toNat
      let ntslice := (d.dims.getD 2 0).toNat
      ({ nbolo := nbolo, ntslice := ntslice, ndata := nbolo * ntslice, bstr1 := 1,
         tstr1 := nbolo }, status)
    else
      let nbolo := (d.dims.getD 1 0 * d.dims.getD 2 0).toNat
      let ntslice := (d.dims.getD 0 0).toNat
      ({ nbolo := nbolo, ntslice := ntslice, ndata := nbolo * ntslice, bstr1 := ntslice,
         tstr1 := 1 }, status)
  smf_dataOrder_array := fun old _ ndata ntslice nbolo tstr1 bstr1 tstr2 _ _ _ status =>
    if status ≠ 0 then (old, status)
    else if fail then (old, 1)
    else if old = [] then ([], status)
    else
      ((List.range ndata).map (fun k =>
        if tstr2 = 1 then old.getD ((k % ntslice) * tstr1 + (k / ntslice) * bstr1) 0
        else old.getD ((k / nbolo) * tstr1 + (k % nbolo) * bstr1) 0), status)

/-- An example `smfData`: time-ordered data of 2 bolometers and 3 time slices,
not associated with a file. -/
def exSmfT : SmfHead (List Int) :=
  { isTordered := 1, ndims := 3, dims := [2, 1, 3], lbnd := [1, 1, 1],
    pntr0 := [10, 20, 11, 21, 12, 22], pntr1 := [], qual := [0, 0, 0, 1, 0, 0], lut := [],
    dtype := 4, file := none }

/-- The same data in bolometer order. -/
def exSmfB : SmfHead (List Int) :=
  { isTordered := 0, ndims := 3, dims := [3, 2, 1], lbnd := [1, 1, 1],
    pntr0 := [10, 11, 12, 20, 21, 22], pntr1 := [], qual := [0, 0, 0, 0, 1, 0], lut := [],
    dtype := 4, file := none }

/-! ## GAIA array utilities: `gaiaArray.c` -/

/-- The enumeration of data types of `gaiaArray.h` (the header is not among the
sources). -/
inductive HdsType where
  | HDS_UNKNOWN | HDS_UBYTE | HDS_BYTE | HDS_UWORD | HDS_WORD | HDS_INTEGER | HDS_REAL
  | HDS_DOUBLE
deriving DecidableEq, Repr

/-- The character `s[ i ]` of a C string; the terminating null stands at its end
(and is read further on). -/
def cstrAt (s : String) (i : Nat) : Char :=
  s.data.getD i (Char.ofNat 0)

/-- The function `gaiaArrayHDSType( typePtr )`. -/
def gaiaArrayHDSType (typePtr : String) : HdsType :=
  if cstrAt typePtr 0 = '_' then
    if cstrAt typePtr 1 = 'u' ∨ cstrAt typePtr 1 = 'U' then
      if cstrAt typePtr 2 = 'b' ∨ cstrAt typePtr 2 = 'B' then HdsType.HDS_UBYTE
      else if cstrAt typePtr 2 = 'w' ∨ cstrAt typePtr 2 = 'W' then HdsType.HDS_UWORD
      else HdsType.HDS_UNKNOWN
    else if cstrAt typePtr 1 = 'b' ∨ cstrAt typePtr 1 = 'B' then HdsType.HDS_BYTE
    else if cstrAt typePtr 1 = 'w' ∨ cstrAt typePtr 1 = 'W' then HdsType.HDS_WORD
    else if cstrAt typePtr 1 = 'i' ∨ cstrAt typePtr 1 = 'I' then HdsType.HDS_INTEGER
    else if cstrAt typePtr 1 = 'r' ∨ cstrAt typePtr 1 = 'R' then HdsType.HDS_REAL
    else if cstrAt typePtr 1 = 'd' ∨ cstrAt typePtr 1 = 'D' then HdsType.HDS_DOUBLE
    else HdsType.HDS_UNKNOWN
  else HdsType.HDS_UNKNOWN

/-- The value an `int` holds after an arithmetic result `x` is stored in it: `x`
reduced to the 32-bit two's complement range. -/
def wrapInt (x : Int) : Int :=
  (x + 2147483648) % 4294967296 - 2147483648

/-- The loop of `gaiaArrayGetStrides`, started at index `i` with the running
product `count`; the first argument is the number of iterations left. -/
def stridesLoop : Nat → Nat → Int → List Int → List Int → List Int
  | 0, _, _, _, strides => strides
  | fuel + 1, i, count, dims, strides =>
    stridesLoop fuel (i + 1) (wrapInt (count * dims.getD i 0)) dims (strides.set i count)

/-- The function `gaiaArrayGetStrides( ndims, dims, strides )`; the result is the
array `strides`. -/
def gaiaArrayGetStrides (ndims : Int) (dims strides : List Int) : List Int :=
  stridesLoop ndims.toNat 0 1 dims strides

/-- The bad values of `prm_par.h` (the header is not among the sources), as
values of the numeric type `R` of the embedding. -/
structure PrmPar (R : Type) where
  /-- The bad value of `double`. -/
  VAL__BADD : R
  /-- The bad value of `float`. -/
  VAL__BADR : R
  /-- The bad value of `int`. -/
  VAL__BADI : R
  /-- The bad value of `short`. -/
  VAL__BADW : R
  /-- The bad value of `unsigned short`. -/
  VAL__BADUW : R
  /-- The bad value of signed bytes. -/
  VAL__BADB : R
  /-- The bad value of `unsigned char`. -/
  VAL__BADUB : R

/-- The loop of the macro `CONVERT_AND_COPY(type,badFlag)`, at index `i`; the first
argument is the number of iterations left.  The elements are numeric values of a
type `R` that holds every value of the C types involved, so that the conversions
between them keep the value; `char` is taken as a signed byte.  A read past the
end of the input is dropped. -/
def convertLoop {R : Type} [DecidableEq R] (badFlag badValue : R) (inPtr : List R) :
    Nat → Nat → List R → List R
  | 0, _, outPtr => outPtr
  | fuel + 1, i, outPtr =>
    match inPtr[i]? with
    | some value =>
      convertLoop badFlag badValue inPtr fuel (i + 1)
        (outPtr.set i (if value = badFlag then badValue else value))
    | none => convertLoop badFlag badValue inPtr fuel (i + 1) outPtr

/-- The macro `CONVERT_AND_COPY(type,badFlag)` for `nel` elements. -/
def convertAndCopy {R : Type} [DecidableEq R] (badFlag badValue : R) (inPtr : List R)
    (nel : Int) (outPtr : List R) : List R :=
  convertLoop badFlag badValue inPtr nel.toNat 0 outPtr

/-- The function `gaiaArrayToDouble( inPtr, nel, type, badValue, outPtr )`; the
result is the array `outPtr`. -/
def gaiaArrayToDouble {R : Type} [DecidableEq R] (V : PrmPar R) (inPtr : List R) (nel : Int)
    (type : HdsType) (badValue : R) (outPtr : List R) : List R :=
  match type with
  | HdsType.HDS_DOUBLE => convertAndCopy V.VAL__BADD badValue inPtr nel outPtr
  | HdsType.HDS_REAL => convertAndCopy V.VAL__BADD badValue inPtr nel outPtr
  | HdsType.HDS_INTEGER => convertAndCopy V.VAL__BADI badValue inPtr nel outPtr
  | HdsType.HDS_WORD => convertAndCopy V.VAL__BADW badValue inPtr nel outPtr
  | HdsType.HDS_UWORD => convertAndCopy V.VAL__BADUW badValue inPtr nel outPtr
  | HdsType.HDS_BYTE => convertAndCopy V.VAL__BADB badValue inPtr nel outPtr
  | HdsType.HDS_UBYTE => convertAndCopy V.VAL__BADUB badValue inPtr nel outPtr
  | HdsType.HDS_UNKNOWN => outPtr

/-- The bad values as integers, for evaluating the embedding: the most negative
value of each signed type, the largest of each unsigned type, and the most
negative finite value of the two floating types. -/
def stdPrm : PrmPar Int :=
  { VAL__BADD := -(2 ^ 1024 - 2 ^ 971), VAL__BADR := -(2 ^ 128 - 2 ^ 104),
    VAL__BADI := -2147483648, VAL__BADW := -32768, VAL__BADUW := 65535, VAL__BADB := -128,
    VAL__BADUB := 255 }

/-- The bad value of each data type of integers. -/
def badOf {R : Type} (V : PrmPar R) : HdsType → R
  | HdsType.HDS_DOUBLE => V.VAL__BADD
  | HdsType.HDS_REAL => V.VAL__BADR
  | HdsType.HDS_INTEGER => V.VAL__BADI
  | HdsType.HDS_WORD => V.VAL__BADW
  | HdsType.HDS_UWORD => V.VAL__BADUW
  | HdsType.HDS_BYTE => V.VAL__BADB
  | HdsType.HDS_UBYTE => V.VAL__BADUB
  | HdsType.HDS_UNKNOWN => V.VAL__BADD

/-- The name of each data type (none for `HDS_UNKNOWN`). -/
def hdsName : HdsType → String
  | HdsType.HDS_UBYTE => "_UBYTE"
  | HdsType.HDS_BYTE => "_BYTE"
  | HdsType.HDS_UWORD => "_UWORD"
  | HdsType.HDS_WORD => "_WORD"
  | HdsType.HDS_INTEGER => "_INTEGER"
  | HdsType.HDS_REAL => "_REAL"
  | HdsType.HDS_DOUBLE => "_DOUBLE"
  | HdsType.HDS_UNKNOWN => ""

/-- The shortest truncation of the name of each data type that no other name
begins with. -/
def hdsKey : HdsType → String
  | HdsType.HDS_UBYTE => "_UB"
  | HdsType.HDS_BYTE => "_B"
  | HdsType.HDS_UWORD => "_UW"
  | HdsType.HDS_WORD => "_W"
  | HdsType.HDS_INTEGER => "_I"
  | HdsType.HDS_REAL => "_R"
  | HdsType.HDS_DOUBLE => "_D"
  | HdsType.HDS_UNKNOWN => ""

/-- The string `s` is an upper or lower case spelling of the name of the data
type `t`, or of a truncation of it that is still unique: upper-cased, `s` begins
the name of `t` and the name of no other data type. -/
def Spells (s : String) (t : HdsType) : Prop :=
  t ≠ HdsType.HDS_UNKNOWN ∧ (upperCase s).data <+: (hdsName t).data ∧
    ∀ u, u ≠ HdsType.HDS_UNKNOWN → (upperCase s).data <+: (hdsName u).data → u = t

/-- Whether `x` is a value of the type `int`. -/
def inInt (x : Int) : Prop :=
  -2147483648 ≤ x ∧ x < 2147483648

instance (x : Int) : Decidable (inInt x) := by
  unfold inInt
  infer_instance

/-- The function `gaiaArraySizeOf( type )`, with the sizes of the C types on the
platforms the library is built for: `double` 8 bytes, `float` and `int` 4, `short`
2, `char` 1.  Every value that is none of the six cases gets the size of
`unsigned char`. -/
def gaiaArraySizeOf (type : HdsType) : Nat :=
  match type with
  | HdsType.HDS_DOUBLE => 8
  | HdsType.HDS_REAL => 4
  | HdsType.HDS_INTEGER => 4
  | HdsType.HDS_WORD => 2
  | HdsType.HDS_UWORD => 2
  | HdsType.HDS_BYTE => 1
  | _ => 1

/-- The conversion `(size_t) x` of an `int`, `size_t` being 64 bits wide. -/
def sizeT (x : Int) : Nat :=
  (x % 18446744073709551616).toNat

/-- The value a `size_t` holds after an arithmetic result `x` is stored in it. -/
def wrapSizeT (x : Nat) : Nat :=
  x % 18446744073709551616

/-- A block of memory obtained from `malloc` or `cnfMalloc`: which of the two
allocated it, and its bytes, `none` being a byte whose value is indeterminate
(never written, or copied from outside the source array). -/
structure ImageBlock where
  /-- Whether the block was allocated by `cnfMalloc`. -/
  cnf : Bool
  /-- The bytes of the block. -/
  bytes : List (Option Nat)
deriving DecidableEq, Repr

/-- The read `fromPtr[ offset ]` of an element of `size` bytes from the array of
bytes `fromPtr`: the bytes of the element. -/
def loadElem (size : Nat) (fromPtr : List Nat) (offset : Int) : List (Option Nat) :=
  (List.range size).map (fun b => if offset < 0 then none else fromPtr[offset.toNat * size + b]?)

/-- The store `toPtr[ k ] = value` of an element of `size` bytes into the block
`toPtr`; a store outside the block is dropped. -/
def storeElem (size : Nat) (toPtr : List (Option Nat)) (k : Int) (value : List (Option Nat)) :
    List (Option Nat) :=
  if k < 0 then toPtr
  else (List.range size).foldl (fun m b => m.set (k.toNat * size + b) (value.getD b none)) toPtr

/-- The innermost loop of `EXTRACT_AND_COPY`: `offset = 0; for ( l = 0; l < 3; l++ )
offset += strides[l] * indices[l];` in the arithmetic of `int`. -/
def pixelOffset (strides indices : List Int) : Int :=
  (List.range 3).foldl
    (fun offset l => wrapInt (offset + wrapInt (strides.getD l 0 * indices.getD l 0))) 0

/-- The macro `EXTRACT_AND_COPY(type)` of `gaiaArrayImageFromCube` for a type of
`size` bytes: the two loops over the kept axes, with the array `indices` and the
block `toPtr` as state.  The variable `k` is set to 0 before the loops and is not
assigned again. -/
def extractAndCopy (size : Nat) (fromPtr : List Nat) (dims strides : List Int)
    (axis1 axis2 : Nat) (indices : List Int) (toPtr : List (Option Nat)) :
    List Int × List (Option Nat) :=
  let k : Int := 0
  (List.range (dims.getD axis2 0).toNat).foldl
    (fun st i =>
      (List.range (dims.getD axis1 0).toNat).foldl
        (fun st j =>
          let indices := st.1.set axis1 (j : Int)
          let offset := pixelOffset strides indices
          (indices, storeElem size st.2 k (loadElem size fromPtr offset)))
        (st.1.set axis2 (i : Int), st.2))
    (indices, toPtr)

/-- The function `gaiaArrayImageFromCube( inPtr, type, dims, axis, index, outPtr,
cnfmalloc )`; the cube `inPtr` is an array of bytes and the result is the block
`*outPtr`.  The allocation is taken to succeed.  The local arrays `indices` and
`strides` start as zeros: each of their entries is assigned before it is read.  An
`axis` that is none of 0, 1 and 2 makes the function store outside `indices`; the
result is then `none`. -/
def gaiaArrayImageFromCube (inPtr : List Nat) (type : HdsType) (dims : List Int)
    (axis index cnfmalloc : Int) : Option ImageBlock :=
  if axis = 2 then
    -- If we're losing the last dimension, then this is just a memcpy.
    let nel := wrapSizeT (sizeT (dims.getD 0 0) * sizeT (dims.getD 1 0))
    let length := wrapSizeT (nel * gaiaArraySizeOf type)
    -- Get the offset into cube of first pixel
    let offset := wrapSizeT (wrapSizeT (sizeT index * sizeT (dims.getD 0 0)) * sizeT (dims.getD 1 0))
    -- And copy the memory
    some { cnf := decide (cnfmalloc = 1),
           bytes := (List.range length).map (fun b => inPtr[offset + b]?) }
  else if axis = 0 ∨ axis = 1 then
    -- Pick out axes we're keeping and set the index of the image to pick out
    let indices : List Int := [0, 0, 0].set axis.toNat index
    let axis1 : Nat := if axis = 0 then 1 else 0
    let axis2 : Nat := 2
    -- Allocate the memory
    let nel := wrapSizeT (sizeT (dims.getD axis1 0) * sizeT (dims.getD axis2 0))
    let length := wrapSizeT (nel * gaiaArraySizeOf type)
    let block : List (Option Nat) := List.replicate length none
    -- Get the strides for stepping around dimensions
    let strides := gaiaArrayGetStrides 3 dims [0, 0, 0]
    -- Copy the image
    match type with
    | HdsType.HDS_UNKNOWN => some { cnf := decide (cnfmalloc = 1), bytes := block }
    | _ =>
      some { cnf := decide (cnfmalloc = 1),
             bytes := (extractAndCopy (gaiaArraySizeOf type) inPtr dims strides axis1 axis2
               indices block).2 }
  else none

/-- The image section the description of `gaiaArrayImageFromCube` asks for, for a
cube of elements of one byte: the element `j + dims[axis1]*i` of the image is the
element of the cube whose index along `axis` is `index`, along `axis1` is `j` and
along `axis2` is `i`. -/
def imageSection (cube : List Nat) (dims : List Int) (axis index : Int) : List (Option Nat) :=
  let axis1 : Nat := if axis = 0 then 1 else 0
  let n1 := (dims.getD axis1 0).toNat
  let n2 := (dims.getD 2 0).toNat
  (List.range (n1 * n2)).map (fun e =>
    let j := e % n1
    let i := e / n1
    let pos : List Int := (([0, 0, 0].set axis.toNat index).set axis1 (j : Int)).set 2 (i : Int)
    cube[(pos.getD 0 0 + dims.getD 0 0 * (pos.getD 1 0 + dims.getD 1 0 * pos.getD 2 0)).toNat]?)

/-- Modelled from the spec: the array system behind the quality identifier, as
`aryStore`, with failures of the external operations, "treated as atomic external
operations whose failure this layer must surface": an operation that fails sets
the status and does nothing else.  `F` gives, for `ndf1Qimp`, `aryValid`,
`aryForm` and `aryDelet`, the status it fails with, if it fails.  As every
operation, `aryForm` and `aryDelet` do nothing when the status is not `ok` on
entry. -/
structure AryFaults where
  /-- The failure of `ndf1Qimp`. -/
  qimp : Option Int
  /-- The failure of `aryValid`. -/
  valid : Option Int
  /-- The failure of `aryForm`. -/
  form : Option Int
  /-- The failure of `aryDelet`. -/
  delet : Option Int
deriving DecidableEq, Repr

/-- Modelled from the spec: the array system `aryStore` with the failures `F` (see
`AryFaults`); `ok` is the value of `SAI__OK`. -/
def aryFaulty (ok : Int) (F : AryFaults) : QrstExt (List (Nat × String)) where
  ndf1Qimp := fun st =>
    match F.qimp with
    | some e => { st with status := e }
    | none => aryStore.ndf1Qimp st
  aryValid := fun st =>
    match F.valid with
    | some e => (0, { st with status := e })
    | none => aryStore.aryValid st
  aryForm := fun st =>
    if st.status ≠ ok then st
    else
      match F.form with
      | some e => { st with status := e }
      | none => aryStore.aryForm st
  aryDelet := fun st =>
    if st.status ≠ ok then st
    else
      match F.delet with
      | some e => { st with status := e }
      | none => aryStore.aryDelet st

/-- The failure of the deletion of the array alone, with status 7. -/
def deletFails : AryFaults :=
  { qimp := none, valid := none, form := none, delet := some 7 }

/-- The example memory for `ndf1Qrst` seen through a section through which the
quality component is mapped. -/
def exQrstSectionMapped : QrstState (List (Nat × String)) :=
  { exQrst with acb := { qmap := 1, cut := 1 }, dcb := { exQrst.dcb with nqmap := 1 } }

/-! ## Lemmas on the heap and the masking pass -/

theorem bufAt_set {α : Type} (heap : List (List α)) (a b : Nat) (l : List α) :
    bufAt (heap.set a l) b = if a = b ∧ a < heap.length then l else bufAt heap b := by
  unfold bufAt
  simp only [List.getD_eq_getElem?_getD, List.getElem?_set]
  by_cases hab : a = b
  · subst hab
    by_cases hlt : a < heap.length
    · simp [hlt]
    · simp [hlt, List.getElem?_eq_none (Nat.le_of_not_lt hlt)]
  · simp [hab]

theorem cell_maskCell {α : Type} (bv : α) (i : Nat) (heap : List (List α)) (b a j : Nat) :
    cell (maskCell bv i heap b) a j
      = if b = a ∧ i = j ∧ (cell heap a j).isSome then some bv else cell heap a j := by
  unfold cell maskCell
  rw [bufAt_set]
  by_cases hab : b = a
  · subst hab
    by_cases hlt : b < heap.length
    · simp only [hlt, and_self, if_true, true_and, List.getElem?_set]
      by_cases hij : i = j
      · subst hij
        by_cases hi : i < (bufAt heap b).length
        · simp [hi]
        · simp [hi, List.getElem?_eq_none (Nat.le_of_not_lt hi)]
      · simp [hij]
    · have hnil : bufAt heap b = [] := by
        unfold bufAt
        simp [List.getD_eq_getElem?_getD, List.getElem?_eq_none (Nat.le_of_not_lt hlt)]
      simp [hlt, hnil]
  · simp [hab]

theorem length_maskCell {α : Type} (bv : α) (i : Nat) (heap : List (List α)) (b : Nat) :
    (maskCell bv i heap b).length = heap.length := by
  simp [maskCell]

theorem cell_foldl_maskCell {α : Type} (bv : α) (i : Nat) (bufs : List Nat)
    (heap : List (List α)) (a j : Nat) :
    cell (bufs.foldl (maskCell bv i) heap) a j
      = if a ∈ bufs ∧ i = j ∧ (cell heap a j).isSome then some bv else cell heap a j := by
  induction bufs generalizing heap with
  | nil => simp
  | cons b bs ih =>
    rw [List.foldl_cons, ih, cell_maskCell]
    by_cases hij : i = j
    · by_cases hs : (cell heap a j).isSome
      · by_cases hb : b = a
        · simp [hij, hs, hb]
        · have hb2 : ¬ a = b := fun h => hb h.symm
          simp [hij, hs, hb, hb2]
      · simp [hij, hs]
    · simp [hij]

theorem length_foldl_maskCell {α : Type} (bv : α) (i : Nat) (bufs : List Nat)
    (heap : List (List α)) :
    (bufs.foldl (maskCell bv i) heap).length = heap.length := by
  induction bufs generalizing heap with
  | nil => rfl
  | cons b bs ih => rw [List.foldl_cons, ih, length_maskCell]

theorem maskPass_succ {α : Type} (bv : α) (qual : List Nat) (badbit : Nat) (bufs : List Nat)
    (el : Nat) (heap : List (List α)) :
    maskPass bv qual badbit bufs (el + 1) heap
      = maskStep bv qual badbit bufs (maskPass bv qual badbit bufs el heap) el := by
  simp [maskPass, List.range_succ, List.foldl_append]

theorem cell_maskPass {α : Type} (bv : α) (qual : List Nat) (badbit : Nat) (bufs : List Nat)
    (el : Nat) (heap : List (List α)) (a j : Nat) :
    cell (maskPass bv qual badbit bufs el heap).1 a j
      = if a ∈ bufs ∧ j < el ∧ flagged qual badbit j = true ∧ (cell heap a j).isSome
        then some bv else cell heap a j := by
  induction el with
  | zero => simp [maskPass]
  | succ n ih =>
    rw [maskPass_succ]
    unfold maskStep
    by_cases hf : flagged qual badbit n = true
    · simp only [hf, if_true]
      rw [cell_foldl_maskCell, ih]
      by_cases hnj : n = j
      · subst hnj
        by_cases ha : a ∈ bufs
        · by_cases hs : (cell heap a n).isSome
          · simp [ha, hs, hf]
          · simp [ha, hs, hf]
        · simp [ha]
      · have h1 : (j < n + 1) = (j < n) := by
          apply propext
          omega
        simp only [hnj, h1, false_and, and_false, if_false]
    · have h1 : ∀ (h : j < n + 1), flagged qual badbit j = true → j < n := by
        intro h hj
        rcases Nat.lt_succ_iff_lt_or_eq.mp h with h2 | h2
        · exact h2
        · subst h2
          exact absurd hj hf
      simp only [hf, Bool.false_eq_true, if_false]
      rw [ih]
      by_cases hc : a ∈ bufs ∧ j < n ∧ flagged qual badbit j = true ∧ (cell heap a j).isSome
      · have hc2 : a ∈ bufs ∧ j < n + 1 ∧ flagged qual badbit j = true
            ∧ (cell heap a j).isSome := ⟨hc.1, by omega, hc.2.2.1, hc.2.2.2⟩
        rw [if_pos hc, if_pos hc2]
      · have hc2 : ¬ (a ∈ bufs ∧ j < n + 1 ∧ flagged qual badbit j = true
            ∧ (cell heap a j).isSome) := by
          intro h
          exact hc ⟨h.1, h1 h.2.1 h.2.2.1, h.2.2.1, h.2.2.2⟩
        rw [if_neg hc, if_neg hc2]

theorem length_maskPass {α : Type} (bv : α) (qual : List Nat) (badbit : Nat) (bufs : List Nat)
    (el : Nat) (heap : List (List α)) :
    (maskPass bv qual badbit bufs el heap).1.length = heap.length := by
  induction el with
  | zero => simp [maskPass]
  | succ n ih =>
    rw [maskPass_succ]
    unfold maskStep
    split
    · simp only [length_foldl_maskCell, ih]
    · exact ih

theorem snd_maskPass {α : Type} (bv : α) (qual : List Nat) (badbit : Nat) (bufs : List Nat)
    (el : Nat) (heap : List (List α)) :
    (maskPass bv qual badbit bufs el heap).2 = true ↔ ∃ i, i < el ∧ flagged qual badbit i = true := by
  induction el with
  | zero => simp [maskPass]
  | succ n ih =>
    rw [maskPass_succ]
    unfold maskStep
    by_cases hf : flagged qual badbit n = true
    · simp only [hf, if_true, true_iff]
      exact ⟨n, Nat.lt_succ_self n, hf⟩
    · simp only [hf, Bool.false_eq_true, if_false]
      rw [ih]
      constructor
      · rintro ⟨i, hi, hfi⟩
        exact ⟨i, by omega, hfi⟩
      · rintro ⟨i, hi, hfi⟩
        rcases Nat.lt_succ_iff_lt_or_eq.mp hi with h2 | h2
        · exact ⟨i, h2, hfi⟩
        · subst h2
          exact absurd hfi hf

theorem heap_ext {α : Type} (h1 h2 : List (List α)) (hlen : h1.length = h2.length)
    (hcell : ∀ a j, cell h1 a j = cell h2 a j) : h1 = h2 := by
  apply List.ext_getElem? 
  intro a
  have hb : bufAt h1 a = bufAt h2 a := by
    apply List.ext_getElem?
    intro j
    exact hcell a j
  unfold bufAt at hb
  simp only [List.getD_eq_getElem?_getD] at hb
  by_cases hlt : a < h1.length
  · have hlt2 : a < h2.length := hlen ▸ hlt
    rw [List.getElem?_eq_getElem hlt, List.getElem?_eq_getElem hlt2] at hb ⊢
    simpa using hb
  · rw [List.getElem?_eq_none (Nat.le_of_not_lt hlt),
      List.getElem?_eq_none (hlen ▸ Nat.le_of_not_lt hlt)]

/-! ## Lemmas on the pointer array and the type string -/

theorem getElem?_storePntr_ne (pntr : List (Option Nat)) (i : Int) (v : Option Nat) (k : Nat)
    (hk : (k : Int) ≠ i) : (storePntr pntr i v)[k]? = pntr[k]? := by
  unfold storePntr
  split
  · rename_i h0
    have hne : i.toNat ≠ k := by omega
    simp [List.getElem?_set, hne]
  · rfl

theorem getElem?_clearPntr_below (fuel : Nat) (pntr : List (Option Nat)) (i : Int) (k : Nat)
    (hk : (k : Int) < i) : (clearPntr fuel pntr i)[k]? = pntr[k]? := by
  induction fuel generalizing pntr i with
  | zero => rfl
  | succ n ih =>
    unfold clearPntr
    split
    · rw [ih _ _ (by omega), getElem?_storePntr_ne _ _ _ _ (by omega)]
    · rfl

theorem length_upperCase (s : String) : (upperCase s).length = s.length := by
  unfold upperCase
  rw [String.length_mk, List.length_map]
  rfl

theorem astChrCase_upper (s : String) (n : Nat) (h : s.length ≤ n) :
    astChrCase s true (n + 1) = upperCase s := by
  unfold astChrCase upperCase
  congr 1
  simp only [if_true, Nat.add_sub_cancel]
  apply List.take_of_length_le
  rw [List.length_map]
  exact h

theorem length_qmaName_le (t : QmaType) : (qmaName t).length ≤ 8 := by
  cases t <;> decide

theorem mem_supplied (npntr : Int) (ps : List (Option Nat)) (k a : Nat)
    (hk : (k : Int) < npntr) (hp : ps[k]? = some (some a)) : a ∈ supplied npntr ps := by
  unfold supplied
  rw [List.mem_filterMap]
  refine ⟨some a, ?_, rfl⟩
  rw [List.mem_iff_getElem?]
  refine ⟨k, ?_⟩
  have hk2 : k < npntr.toNat := by omega
  rw [List.getElem?_take]
  simp [hk2, hp]

/-! ## Lemmas on `ndf1Qma` -/

theorem status_ndf1QmaT {α : Type} (P : NdfPar) (t : QmaType) (bv : α) (el badbit : Nat)
    (npntr : Int) (p1 p2 p3 p4 : Option Nat) (st : QmaState α) :
    (ndf1QmaT P t bv el badbit npntr p1 p2 p3 p4 st).status = st.status := by
  unfold ndf1QmaT
  simp only
  split
  · rfl
  · split <;> rfl

theorem ndf1Qma_valid {α : Type} (P : NdfPar) (VAL__BAD : QmaType → α) (el badbit : Nat)
    (type : String) (npntr : Int) (st : QmaState α) (t : QmaType)
    (hst : st.status = P.SAI__OK) (hlen : type.length ≤ P.NDF__SZTYP)
    (hty : upperCase type = qmaName t) :
    ndf1Qma P VAL__BAD el badbit type npntr st
      = ndf1QmaT P t (VAL__BAD t) el badbit npntr
          ((clearPntr (4 - npntr).toNat st.pntr npntr).getD 0 none)
          ((clearPntr (4 - npntr).toNat st.pntr npntr).getD 1 none)
          ((clearPntr (4 - npntr).toNat st.pntr npntr).getD 2 none)
          ((clearPntr (4 - npntr).toNat st.pntr npntr).getD 3 none)
          { st with pntr := clearPntr (4 - npntr).toNat st.pntr npntr } := by
  have hlt : type.length < P.NDF__SZTYP + 1 := Nat.lt_succ_of_le hlen
  unfold ndf1Qma
  simp only [hst, ne_eq, not_true_eq_false, if_false, hlt, decide_True, if_true,
    astChrCase_upper type _ hlen, hty]
  cases t <;>
    simp [qmaName, status_ndf1QmaT, hst]

theorem mem_qmaNames (s : String) : s ∈ qmaNames ↔ ∃ t, s = qmaName t := by
  constructor
  · intro h
    simp only [qmaNames, List.mem_cons, List.mem_singleton, List.not_mem_nil, or_false] at h
    rcases h with h | h | h | h | h | h | h | h
    · exact ⟨QmaType.B, h⟩
    · exact ⟨QmaType.UB, h⟩
    · exact ⟨QmaType.D, h⟩
    · exact ⟨QmaType.I, h⟩
    · exact ⟨QmaType.F, h⟩
    · exact ⟨QmaType.W, h⟩
    · exact ⟨QmaType.UW, h⟩
    · exact ⟨QmaType.K, h⟩
  · rintro ⟨t, rfl⟩
    cases t <;> simp [qmaNames, qmaName]

theorem ndf1Qma_set {α : Type} (P : NdfPar) (VAL__BAD : QmaType → α) (el badbit : Nat)
    (type : String) (npntr : Int) (st : QmaState α) (hst : st.status ≠ P.SAI__OK) :
    ndf1Qma P VAL__BAD el badbit type npntr st = st := by
  unfold ndf1Qma
  simp [hst]

theorem ndf1Qma_invalid {α : Type} (P : NdfPar) (VAL__BAD : QmaType → α) (el badbit : Nat)
    (type : String) (npntr : Int) (st : QmaState α) (hst : st.status = P.SAI__OK)
    (hbad : P.NDF__SZTYP < type.length ∨ upperCase type ∉ qmaNames) :
    ndf1Qma P VAL__BAD el badbit type npntr st
      = { st with
          pntr := clearPntr (4 - npntr).toNat st.pntr npntr
          status := P.NDF__FATIN
          log := (st.log ++ [Event.msgSetc "ROUTINE" "ndf1Qma", Event.msgSetc "BADTYPE" type,
              Event.errRep qmaErrText])
            ++ (if P.NDF__FATIN ≠ P.SAI__OK then [Event.ndf1Trace "ndf1Qma"] else []) } := by
  unfold ndf1Qma
  by_cases hlt : type.length < P.NDF__SZTYP + 1
  · have hlen : type.length ≤ P.NDF__SZTYP := Nat.le_of_lt_succ hlt
    have hnot : upperCase type ∉ qmaNames := by
      rcases hbad with h | h
      · omega
      · exact h
    simp only [qmaNames, List.mem_cons, List.mem_singleton, List.not_mem_nil, or_false,
      not_or] at hnot
    obtain ⟨h1, h2, h3, h4, h5, h6, h7, h8⟩ := hnot
    simp only [hst, ne_eq, not_true_eq_false, if_false, hlt, decide_True, if_true,
      astChrCase_upper type _ hlen, h1, h2, h3, h4, h5, h6, h7, h8, Bool.not_false]
    by_cases hf : P.NDF__FATIN = P.SAI__OK
    · simp [hf]
    · simp [hf]
  · simp only [hst, ne_eq, not_true_eq_false, if_false, hlt, decide_False, Bool.false_eq_true,
      Bool.not_false, if_true]
    by_cases hf : P.NDF__FATIN = P.SAI__OK
    · simp [hf]
    · simp [hf]

theorem ndf1Qma_type_cases (P : NdfPar) (type : String) :
    (type.length ≤ P.NDF__SZTYP ∧ ∃ t, upperCase type = qmaName t)
      ∨ (P.NDF__SZTYP < type.length ∨ upperCase type ∉ qmaNames) := by
  by_cases hlen : type.length ≤ P.NDF__SZTYP
  · by_cases hm : upperCase type ∈ qmaNames
    · exact Or.inl ⟨hlen, (mem_qmaNames _).mp hm⟩
    · exact Or.inr (Or.inr hm)
  · exact Or.inr (Or.inl (by omega))

theorem maskPass_idem {α : Type} (bv : α) (qual : List Nat) (badbit : Nat) (bufs : List Nat)
    (el : Nat) (heap : List (List α)) :
    maskPass bv qual badbit bufs el (maskPass bv qual badbit bufs el heap).1
      = maskPass bv qual badbit bufs el heap := by
  apply Prod.ext
  · apply heap_ext
    · rw [length_maskPass]
    · intro a j
      rw [cell_maskPass, cell_maskPass]
      by_cases hc : a ∈ bufs ∧ j < el ∧ flagged qual badbit j = true
      · by_cases hs : (cell heap a j).isSome
        · simp [hc, hs]
        · simp [hc, hs]
      · have hn : ∀ (p : Prop), ¬ (a ∈ bufs ∧ j < el ∧ flagged qual badbit j = true ∧ p) :=
          fun p h => hc ⟨h.1, h.2.1, h.2.2.1⟩
        rw [if_neg (hn _), if_neg (hn _)]
  · have h1 := snd_maskPass bv qual badbit bufs el (maskPass bv qual badbit bufs el heap).1
    have h2 := snd_maskPass bv qual badbit bufs el heap
    rw [Bool.eq_iff_iff, h1, h2]

theorem maskPass_unflagged {α : Type} (bv : α) (qual : List Nat) (badbit : Nat)
    (bufs : List Nat) (el : Nat) (heap : List (List α))
    (h0 : ∀ i, i < el → flagged qual badbit i = false) :
    maskPass bv qual badbit bufs el heap = (heap, false) := by
  apply Prod.ext
  · apply heap_ext
    · rw [length_maskPass]
    · intro a j
      rw [cell_maskPass]
      by_cases hj : j < el
      · simp [h0 j hj]
      · simp [hj]
  · have h2 := snd_maskPass bv qual badbit bufs el heap
    cases hb : (maskPass bv qual badbit bufs el heap).2
    · rfl
    · obtain ⟨i, hi, hf⟩ := h2.mp hb
      rw [h0 i hi] at hf
      exact absurd hf (by decide)

theorem getElem?_four (l : List (Option Nat)) (k : Nat) (hk : k < 4) :
    [l.getD 0 none, l.getD 1 none, l.getD 2 none, l.getD 3 none][k]? = some (l.getD k none) := by
  interval_cases k <;> rfl

theorem supplied_congr (npntr : Int) (l m : List (Option Nat)) (h1 : 1 ≤ npntr)
    (h4 : npntr ≤ 4) (h : ∀ k : Nat, (k : Int) < npntr → l[k]? = m[k]?) :
    supplied npntr [l.getD 0 none, l.getD 1 none, l.getD 2 none, l.getD 3 none]
      = supplied npntr [m.getD 0 none, m.getD 1 none, m.getD 2 none, m.getD 3 none] := by
  unfold supplied
  obtain ⟨n, rfl⟩ : ∃ n : Nat, npntr = (n : Int) := ⟨npntr.toNat, by omega⟩
  have hn1 : 1 ≤ n := by omega
  have hn4 : n ≤ 4 := by omega
  simp only [Int.toNat_ofNat]
  interval_cases n
  · simp [h 0 (by norm_num)]
  · simp [h 0 (by norm_num), h 1 (by norm_num)]
  · simp [h 0 (by norm_num), h 1 (by norm_num), h 2 (by norm_num)]
  · simp [h 0 (by norm_num), h 1 (by norm_num), h 2 (by norm_num), h 3 (by norm_num)]

theorem ndf1QmaT_range {α : Type} (P : NdfPar) (t : QmaType) (bv : α) (el badbit : Nat)
    (npntr : Int) (p1 p2 p3 p4 : Option Nat) (st : QmaState α)
    (hst : st.status = P.SAI__OK) (h1 : 1 ≤ npntr) (h4 : npntr ≤ 4) :
    ndf1QmaT P t bv el badbit npntr p1 p2 p3 p4 st
      = { st with
          log := st.log ++ [Event.qma t]
          heap := (maskPass bv st.qual badbit (supplied npntr [p1, p2, p3, p4]) el st.heap).1
          bad := if (maskPass bv st.qual badbit (supplied npntr [p1, p2, p3, p4]) el
            st.heap).2 then 1 else 0 } := by
  unfold ndf1QmaT
  have hr : ¬ (npntr < 1 ∨ 4 < npntr) := by omega
  simp [hst, hr]

theorem ndf1QmaT_outside {α : Type} (P : NdfPar) (t : QmaType) (bv : α) (el badbit : Nat)
    (npntr : Int) (p1 p2 p3 p4 : Option Nat) (st : QmaState α)
    (hst : st.status = P.SAI__OK) (hr : npntr < 1 ∨ 4 < npntr) :
    ndf1QmaT P t bv el badbit npntr p1 p2 p3 p4 st
      = { st with log := st.log ++ [Event.qma t] } := by
  unfold ndf1QmaT
  simp [hst, hr]

theorem ndf1Qma_masked {α : Type} (P : NdfPar) (VAL__BAD : QmaType → α) (el badbit : Nat)
    (type : String) (npntr : Int) (st : QmaState α) (t : QmaType)
    (hst : st.status = P.SAI__OK) (hlen : type.length ≤ P.NDF__SZTYP)
    (hty : upperCase type = qmaName t) (h1 : 1 ≤ npntr) (h4 : npntr ≤ 4) :
    ndf1Qma P VAL__BAD el badbit type npntr st
      = { pntr := clearPntr (4 - npntr).toNat st.pntr npntr
          heap := (maskPass (VAL__BAD t) st.qual badbit
            (supplied npntr
              [(clearPntr (4 - npntr).toNat st.pntr npntr).getD 0 none,
                (clearPntr (4 - npntr).toNat st.pntr npntr).getD 1 none,
                (clearPntr (4 - npntr).toNat st.pntr npntr).getD 2 none,
                (clearPntr (4 - npntr).toNat st.pntr npntr).getD 3 none]) el st.heap).1
          qual := st.qual
          bad := if (maskPass (VAL__BAD t) st.qual badbit
            (supplied npntr
              [(clearPntr (4 - npntr).toNat st.pntr npntr).getD 0 none,
                (clearPntr (4 - npntr).toNat st.pntr npntr).getD 1 none,
                (clearPntr (4 - npntr).toNat st.pntr npntr).getD 2 none,
                (clearPntr (4 - npntr).toNat st.pntr npntr).getD 3 none]) el st.heap).2
            then 1 else 0
          status := st.status
          log := st.log ++ [Event.qma t] } := by
  have hst2 : ({ st with pntr := clearPntr (4 - npntr).toNat st.pntr npntr } :
      QmaState α).status = P.SAI__OK := hst
  rw [ndf1Qma_valid P VAL__BAD el badbit type npntr st t hst hlen hty,
    ndf1QmaT_range P t _ el badbit npntr _ _ _ _ _ hst2 h1 h4]

theorem ndf1Qma_skipped {α : Type} (P : NdfPar) (VAL__BAD : QmaType → α) (el badbit : Nat)
    (type : String) (npntr : Int) (st : QmaState α) (t : QmaType)
    (hst : st.status = P.SAI__OK) (hlen : type.length ≤ P.NDF__SZTYP)
    (hty : upperCase type = qmaName t) (hr : npntr < 1 ∨ 4 < npntr) :
    ndf1Qma P VAL__BAD el badbit type npntr st
      = { pntr := clearPntr (4 - npntr).toNat st.pntr npntr
          heap := st.heap
          qual := st.qual
          bad := st.bad
          status := st.status
          log := st.log ++ [Event.qma t] } := by
  have hst2 : ({ st with pntr := clearPntr (4 - npntr).toNat st.pntr npntr } :
      QmaState α).status = P.SAI__OK := hst
  rw [ndf1Qma_valid P VAL__BAD el badbit type npntr st t hst hlen hty,
    ndf1QmaT_outside P t _ el badbit npntr _ _ _ _ _ hst2 hr]

theorem flagged_iff (qual : List Nat) (badbit i : Nat) :
    flagged qual badbit i = true ↔ qual.getD i 0 &&& badbit ≠ 0 := by
  simp [flagged]

/-! ## The quality masking engine -/

/-- C1: quality masking inserts the sentinel.  For every masking type `t`, badbit
mask, element count `el`, quality array of length `el` and `1 ≤ npntr ≤ 4`, a call
of `ndf1Qma` with good status and a type string naming `t` returns with good
status, and every index `i < el` whose quality has a bit of the mask set holds the
bad value of `t` in each supplied buffer of length `el` (pointer `k < npntr`). -/
theorem ndf1Qma_inserts_bad {α : Type} (P : NdfPar) (VAL__BAD : QmaType → α)
    (el badbit : Nat) (type : String) (npntr : Int) (st : QmaState α) (t : QmaType)
    (hst : st.status = P.SAI__OK) (hsz : 8 ≤ P.NDF__SZTYP)
    (hty : upperCase type = qmaName t) (hn : 1 ≤ npntr ∧ npntr ≤ 4)
    (hq : st.qual.length = el) (k a : Nat) (hk : (k : Int) < npntr)
    (hp : st.pntr[k]? = some (some a)) (hb : (bufAt st.heap a).length = el)
    (i : Nat) (hi : i < el) (hf : st.qual.getD i 0 &&& badbit ≠ 0) :
    (ndf1Qma P VAL__BAD el badbit type npntr st).status = P.SAI__OK ∧
      cell (ndf1Qma P VAL__BAD el badbit type npntr st).heap a i = some (VAL__BAD t) := by
  have hlen : type.length ≤ P.NDF__SZTYP := by
    have h1 := length_upperCase type
    rw [hty] at h1
    have h2 := length_qmaName_le t
    omega
  have hqi : i < st.qual.length := hq ▸ hi
  have hst2 : ({ st with pntr := clearPntr (4 - npntr).toNat st.pntr npntr } :
      QmaState α).status = P.SAI__OK := hst
  rw [ndf1Qma_valid P VAL__BAD el badbit type npntr st t hst hlen hty,
    ndf1QmaT_range P t _ el badbit npntr _ _ _ _ _ hst2 hn.1 hn.2]
  refine ⟨hst, ?_⟩
  simp only
  rw [cell_maskPass]
  have hk4 : k < 4 := by omega
  have hcl : (clearPntr (4 - npntr).toNat st.pntr npntr).getD k none = some a := by
    rw [List.getD_eq_getElem?_getD, getElem?_clearPntr_below _ _ _ _ hk, hp]
    rfl
  have hmem := mem_supplied npntr _ k a hk
    ((getElem?_four (clearPntr (4 - npntr).toNat st.pntr npntr) k hk4).trans
      (congrArg some hcl))
  have hsome : (cell st.heap a i).isSome = true := by
    unfold cell
    rw [List.getElem?_eq_getElem (hb ▸ hi)]
    rfl
  rw [if_pos ⟨hmem, hi, (flagged_iff _ _ _).mpr hf, hsome⟩]

/-- C2: quality masking leaves everything else untouched.  For every call of
`ndf1Qma`, an index `i` whose quality has no bit of the mask set holds the same
value as before the call in every buffer, and the quality array is unchanged. -/
theorem ndf1Qma_frame {α : Type} (P : NdfPar) (VAL__BAD : QmaType → α)
    (el badbit : Nat) (type : String) (npntr : Int) (st : QmaState α) (a i : Nat)
    (hf : st.qual.getD i 0 &&& badbit = 0) :
    cell (ndf1Qma P VAL__BAD el badbit type npntr st).heap a i = cell st.heap a i ∧
      (ndf1Qma P VAL__BAD el badbit type npntr st).qual = st.qual := by
  by_cases hst : st.status = P.SAI__OK
  · rcases ndf1Qma_type_cases P type with ⟨hlen, t, hty⟩ | hbad
    · have hst2 : ({ st with pntr := clearPntr (4 - npntr).toNat st.pntr npntr } :
          QmaState α).status = P.SAI__OK := hst
      rw [ndf1Qma_valid P VAL__BAD el badbit type npntr st t hst hlen hty]
      by_cases hr : npntr < 1 ∨ 4 < npntr
      · rw [ndf1QmaT_outside P t _ el badbit npntr _ _ _ _ _ hst2 hr]
        exact ⟨rfl, rfl⟩
      · rw [ndf1QmaT_range P t _ el badbit npntr _ _ _ _ _ hst2 (by omega) (by omega)]
        refine ⟨?_, rfl⟩
        simp only
        rw [cell_maskPass]
        have hnf : ¬ (flagged st.qual badbit i = true) := by
          rw [flagged_iff]
          exact fun h => h hf
        rw [if_neg (fun h => hnf h.2.2.1)]
    · rw [ndf1Qma_invalid P VAL__BAD el badbit type npntr st hst hbad]
      exact ⟨rfl, rfl⟩
  · rw [ndf1Qma_set P VAL__BAD el badbit type npntr st hst]
    exact ⟨rfl, rfl⟩

/-- C3: the bad flag.  For every masking type `t` and `1 ≤ npntr ≤ 4`, a call of
`ndf1Qma` with good status and a type string naming `t` returns `*bad` true
(non-zero) if and only if at least one index `i < el` has a bit of the mask set in
its quality. -/
theorem ndf1Qma_bad_iff {α : Type} (P : NdfPar) (VAL__BAD : QmaType → α)
    (el badbit : Nat) (type : String) (npntr : Int) (st : QmaState α) (t : QmaType)
    (hst : st.status = P.SAI__OK) (hsz : 8 ≤ P.NDF__SZTYP)
    (hty : upperCase type = qmaName t) (hn : 1 ≤ npntr ∧ npntr ≤ 4) :
    (ndf1Qma P VAL__BAD el badbit type npntr st).bad ≠ 0
      ↔ ∃ i, i < el ∧ st.qual.getD i 0 &&& badbit ≠ 0 := by
  have hlen : type.length ≤ P.NDF__SZTYP := by
    have h1 := length_upperCase type
    rw [hty] at h1
    have h2 := length_qmaName_le t
    omega
  have hst2 : ({ st with pntr := clearPntr (4 - npntr).toNat st.pntr npntr } :
      QmaState α).status = P.SAI__OK := hst
  rw [ndf1Qma_valid P VAL__BAD el badbit type npntr st t hst hlen hty,
    ndf1QmaT_range P t _ el badbit npntr _ _ _ _ _ hst2 hn.1 hn.2]
  simp only
  have hs := snd_maskPass (VAL__BAD t) st.qual badbit
    (supplied npntr
      [(clearPntr (4 - npntr).toNat st.pntr npntr).getD 0 none,
        (clearPntr (4 - npntr).toNat st.pntr npntr).getD 1 none,
        (clearPntr (4 - npntr).toNat st.pntr npntr).getD 2 none,
        (clearPntr (4 - npntr).toNat st.pntr npntr).getD 3 none]) el st.heap
  simp only [flagged_iff] at hs
  rw [← hs]
  split <;> simp_all

/-- C4: a quality array of zeros.  For every masking type `t`, badbit mask and
`1 ≤ npntr ≤ 4`, a call of `ndf1Qma` with good status on a quality array whose
every byte is 0 leaves every numeric buffer unchanged and returns `*bad` false. -/
theorem ndf1Qma_zero_quality {α : Type} (P : NdfPar) (VAL__BAD : QmaType → α)
    (el badbit : Nat) (type : String) (npntr : Int) (st : QmaState α) (t : QmaType)
    (hst : st.status = P.SAI__OK) (hsz : 8 ≤ P.NDF__SZTYP)
    (hty : upperCase type = qmaName t) (hn : 1 ≤ npntr ∧ npntr ≤ 4)
    (hz : ∀ q, q ∈ st.qual → q = 0) :
    (ndf1Qma P VAL__BAD el badbit type npntr st).heap = st.heap ∧
      (ndf1Qma P VAL__BAD el badbit type npntr st).bad = 0 := by
  have hlen : type.length ≤ P.NDF__SZTYP := by
    have h1 := length_upperCase type
    rw [hty] at h1
    have h2 := length_qmaName_le t
    omega
  have hst2 : ({ st with pntr := clearPntr (4 - npntr).toNat st.pntr npntr } :
      QmaState α).status = P.SAI__OK := hst
  have h0 : ∀ i, i < el → flagged st.qual badbit i = false := by
    intro i _
    have hq : st.qual.getD i 0 = 0 := by
      rw [List.getD_eq_getElem?_getD]
      by_cases hi : i < st.qual.length
      · rw [List.getElem?_eq_getElem hi]
        exact hz _ (List.getElem_mem hi)
      · rw [List.getElem?_eq_none (Nat.le_of_not_lt hi)]
        rfl
    unfold flagged
    rw [hq]
    simp
  rw [ndf1Qma_valid P VAL__BAD el badbit type npntr st t hst hlen hty,
    ndf1QmaT_range P t _ el badbit npntr _ _ _ _ _ hst2 hn.1 hn.2]
  simp only
  rw [maskPass_unflagged _ _ _ _ _ _ h0]
  exact ⟨rfl, rfl⟩

/-- C5: masking is idempotent.  A second call of `ndf1Qma` with the same arguments,
made on the memory the first call left, leaves the buffers and the bad flag as the
first call left them. -/
theorem ndf1Qma_idempotent {α : Type} (P : NdfPar) (VAL__BAD : QmaType → α)
    (el badbit : Nat) (type : String) (npntr : Int) (st : QmaState α) :
    (ndf1Qma P VAL__BAD el badbit type npntr
        (ndf1Qma P VAL__BAD el badbit type npntr st)).heap
      = (ndf1Qma P VAL__BAD el badbit type npntr st).heap ∧
    (ndf1Qma P VAL__BAD el badbit type npntr
        (ndf1Qma P VAL__BAD el badbit type npntr st)).bad
      = (ndf1Qma P VAL__BAD el badbit type npntr st).bad := by
  by_cases hst : st.status = P.SAI__OK
  · rcases ndf1Qma_type_cases P type with ⟨hlen, t, hty⟩ | hbad
    · by_cases hr : npntr < 1 ∨ 4 < npntr
      · have e1 := ndf1Qma_skipped P VAL__BAD el badbit type npntr st t hst hlen hty hr
        have hst1 : (ndf1Qma P VAL__BAD el badbit type npntr st).status = P.SAI__OK := by
          rw [e1]
          exact hst
        rw [ndf1Qma_skipped P VAL__BAD el badbit type npntr _ t hst1 hlen hty hr]
        exact ⟨rfl, rfl⟩
      · have h1 : 1 ≤ npntr := by omega
        have h4 : npntr ≤ 4 := by omega
        have e1 := ndf1Qma_masked P VAL__BAD el badbit type npntr st t hst hlen hty h1 h4
        have hst1 : (ndf1Qma P VAL__BAD el badbit type npntr st).status = P.SAI__OK := by
          rw [e1]
          exact hst
        rw [ndf1Qma_masked P VAL__BAD el badbit type npntr _ t hst1 hlen hty h1 h4]
        simp only
        rw [e1]
        simp only
        rw [supplied_congr npntr
          (clearPntr (4 - npntr).toNat (clearPntr (4 - npntr).toNat st.pntr npntr) npntr)
          (clearPntr (4 - npntr).toNat st.pntr npntr) h1 h4
          (fun k hk => getElem?_clearPntr_below _ _ _ _ hk)]
        rw [maskPass_idem]
        exact ⟨rfl, rfl⟩
    · have e1 := ndf1Qma_invalid P VAL__BAD el badbit type npntr st hst hbad
      by_cases hf : P.NDF__FATIN = P.SAI__OK
      · have hst1 : (ndf1Qma P VAL__BAD el badbit type npntr st).status = P.SAI__OK := by
          rw [e1]
          exact hf
        rw [ndf1Qma_invalid P VAL__BAD el badbit type npntr _ hst1 hbad]
        exact ⟨rfl, rfl⟩
      · have hst1 : (ndf1Qma P VAL__BAD el badbit type npntr st).status ≠ P.SAI__OK := by
          rw [e1]
          exact hf
        rw [ndf1Qma_set P VAL__BAD el badbit type npntr _ hst1]
        exact ⟨rfl, rfl⟩
  · rw [ndf1Qma_set P VAL__BAD el badbit type npntr st hst,
      ndf1Qma_set P VAL__BAD el badbit type npntr st hst]
    exact ⟨rfl, rfl⟩

/-! ## Type dispatch of `ndf1Qma` -/

theorem toUpper_toUpper (c : Char) : c.toUpper.toUpper = c.toUpper := by
  by_cases h : 97 ≤ c.toNat ∧ c.toNat ≤ 122
  · have e : c.toUpper = Char.ofNat (c.toNat - 32) := by
      unfold Char.toUpper
      simp only [ge_iff_le, h, and_self, if_true]
    rw [e]
    obtain ⟨h1, h2⟩ := h
    generalize c.toNat = n at h1 h2
    interval_cases n <;> rfl
  · have e : c.toUpper = c := by
      unfold Char.toUpper
      simp only [ge_iff_le, h, if_false]
    rw [e, e]

theorem upperCase_upperCase (s : String) : upperCase (upperCase s) = upperCase s := by
  unfold upperCase
  congr 1
  rw [List.map_map]
  apply List.map_congr_left
  intro c _
  exact toUpper_toUpper c

theorem newEvents_append (l x : List Event) : newEvents l (l ++ x) = x := by
  unfold newEvents
  exact List.drop_left l x

theorem qmaName_injective (t u : QmaType) (h : qmaName t = qmaName u) : t = u := by
  cases t <;> cases u <;> first | rfl | (exact absurd h (by decide))

/-- C6 (as stated, refuted): the type string `_INT64` is not one of the seven
listed type names, yet `ndf1Qma` selects a masking routine for it (`ndf1QmaK`) and
returns with good status. -/
theorem ndf1Qma_int64_selected :
    upperCase "_INT64" ∉ sevenNames ∧
      Event.qma QmaType.K ∈ (ndf1Qma stdPar stdBad 3 1 "_INT64" 1 exState).log ∧
      (ndf1Qma stdPar stdBad 3 1 "_INT64" 1 exState).status = stdPar.SAI__OK := by
  decide

/-- C6 (amended): the type dispatch of `ndf1Qma` covers exactly eight element
types, the seven listed ones and the 64-bit integer.  Called with good status (and
`NDF__SZTYP` at least 8, the length of `_INTEGER`), `ndf1Qma` calls the masking
routine `t` if and only if the upper-cased type string is the name of `t`, and
every type string that is none of the eight names gives the status `NDF__FATIN`. -/
theorem ndf1Qma_dispatch_eight {α : Type} (P : NdfPar) (VAL__BAD : QmaType → α)
    (el badbit : Nat) (type : String) (npntr : Int) (st : QmaState α)
    (hst : st.status = P.SAI__OK) (hsz : 8 ≤ P.NDF__SZTYP) :
    (∀ t, Event.qma t ∈ newEvents st.log (ndf1Qma P VAL__BAD el badbit type npntr st).log
        ↔ upperCase type = qmaName t) ∧
      (upperCase type ∉ qmaNames →
        (ndf1Qma P VAL__BAD el badbit type npntr st).status = P.NDF__FATIN) := by
  rcases ndf1Qma_type_cases P type with ⟨hlen, u, hty⟩ | hbad
  · have hlog : (ndf1Qma P VAL__BAD el badbit type npntr st).log = st.log ++ [Event.qma u] := by
      by_cases hr : npntr < 1 ∨ 4 < npntr
      · rw [ndf1Qma_skipped P VAL__BAD el badbit type npntr st u hst hlen hty hr]
      · rw [ndf1Qma_masked P VAL__BAD el badbit type npntr st u hst hlen hty (by omega)
          (by omega)]
    constructor
    · intro t
      rw [hlog, newEvents_append, hty]
      constructor
      · intro h
        simp only [List.mem_singleton, Event.qma.injEq] at h
        rw [h]
      · intro h
        rw [qmaName_injective u t h]
        exact List.mem_singleton_self _
    · intro hnot
      exact absurd ((mem_qmaNames _).mpr ⟨u, hty⟩) hnot
  · have hnot : upperCase type ∉ qmaNames := by
      rcases hbad with h | h
      · intro hm
        obtain ⟨t, ht⟩ := (mem_qmaNames _).mp hm
        have h1 := length_upperCase type
        rw [ht] at h1
        have h2 := length_qmaName_le t
        omega
      · exact h
    rw [ndf1Qma_invalid P VAL__BAD el badbit type npntr st hst hbad]
    constructor
    · intro t
      simp only
      rw [List.append_assoc, newEvents_append]
      constructor
      · intro h
        exfalso
        by_cases hf : P.NDF__FATIN = P.SAI__OK
        · simp [hf] at h
        · simp [hf] at h
      · intro h
        exact absurd ((mem_qmaNames _).mpr ⟨t, h⟩) hnot
    · intro _
      rfl

/-- C7: an unrecognised type string.  For every type string that is longer than
`NDF__SZTYP` characters or whose upper-cased form is none of the type names,
`ndf1Qma` called with good status exits with the status `NDF__FATIN`, reports the
offending type string (token `BADTYPE`, then the error report), calls no masking
routine and leaves every numeric buffer (and `*bad`) as it was. -/
theorem ndf1Qma_unrecognised {α : Type} (P : NdfPar) (VAL__BAD : QmaType → α)
    (el badbit : Nat) (type : String) (npntr : Int) (st : QmaState α)
    (hst : st.status = P.SAI__OK)
    (hbad : P.NDF__SZTYP < type.length ∨ upperCase type ∉ qmaNames) :
    (ndf1Qma P VAL__BAD el badbit type npntr st).status = P.NDF__FATIN ∧
      Event.msgSetc "BADTYPE" type
        ∈ newEvents st.log (ndf1Qma P VAL__BAD el badbit type npntr st).log ∧
      Event.errRep qmaErrText
        ∈ newEvents st.log (ndf1Qma P VAL__BAD el badbit type npntr st).log ∧
      (∀ t, Event.qma t ∉ newEvents st.log (ndf1Qma P VAL__BAD el badbit type npntr st).log) ∧
      (ndf1Qma P VAL__BAD el badbit type npntr st).heap = st.heap ∧
      (ndf1Qma P VAL__BAD el badbit type npntr st).bad = st.bad := by
  rw [ndf1Qma_invalid P VAL__BAD el badbit type npntr st hst hbad]
  simp only
  rw [List.append_assoc, newEvents_append]
  refine ⟨trivial, by simp, by simp, ?_, trivial, trivial⟩
  intro t h
  by_cases hf : P.NDF__FATIN = P.SAI__OK
  · simp [hf] at h
  · simp [hf] at h

/-- C8: the type argument is case insensitive.  For every type string `s`,
`ndf1Qma` with the type `s` and `ndf1Qma` with the upper-cased `s` leave the same
status, pointers, buffers and bad flag, and call the same masking routines; and
`_real`, `_Real` and `_REAL` all select the real-type routine `ndf1QmaF`. -/
theorem ndf1Qma_case_insensitive {α : Type} (P : NdfPar) (VAL__BAD : QmaType → α)
    (el badbit : Nat) (s : String) (npntr : Int) (st : QmaState α) :
    ((ndf1Qma P VAL__BAD el badbit s npntr st).status
        = (ndf1Qma P VAL__BAD el badbit (upperCase s) npntr st).status ∧
      (ndf1Qma P VAL__BAD el badbit s npntr st).pntr
        = (ndf1Qma P VAL__BAD el badbit (upperCase s) npntr st).pntr ∧
      (ndf1Qma P VAL__BAD el badbit s npntr st).heap
        = (ndf1Qma P VAL__BAD el badbit (upperCase s) npntr st).heap ∧
      (ndf1Qma P VAL__BAD el badbit s npntr st).bad
        = (ndf1Qma P VAL__BAD el badbit (upperCase s) npntr st).bad ∧
      (newEvents st.log (ndf1Qma P VAL__BAD el badbit s npntr st).log).filter
          (fun e => e matches Event.qma _)
        = (newEvents st.log (ndf1Qma P VAL__BAD el badbit (upperCase s) npntr st).log).filter
          (fun e => e matches Event.qma _)) ∧
      newEvents exState.log (ndf1Qma stdPar stdBad 3 1 "_real" 1 exState).log
        = [Event.qma QmaType.F] ∧
      newEvents exState.log (ndf1Qma stdPar stdBad 3 1 "_Real" 1 exState).log
        = [Event.qma QmaType.F] ∧
      newEvents exState.log (ndf1Qma stdPar stdBad 3 1 "_REAL" 1 exState).log
        = [Event.qma QmaType.F] := by
  refine ⟨?_, by decide, by decide, by decide⟩
  by_cases hst : st.status = P.SAI__OK
  · rcases ndf1Qma_type_cases P s with ⟨hlen, t, hty⟩ | hbad
    · have hlen2 : (upperCase s).length ≤ P.NDF__SZTYP := by
        rw [length_upperCase]
        exact hlen
      have hty2 : upperCase (upperCase s) = qmaName t := by
        rw [upperCase_upperCase]
        exact hty
      rw [ndf1Qma_valid P VAL__BAD el badbit s npntr st t hst hlen hty,
        ndf1Qma_valid P VAL__BAD el badbit (upperCase s) npntr st t hst hlen2 hty2]
      exact ⟨rfl, rfl, rfl, rfl, rfl⟩
    · have hbad2 : P.NDF__SZTYP < (upperCase s).length
          ∨ upperCase (upperCase s) ∉ qmaNames := by
        rw [length_upperCase, upperCase_upperCase]
        exact hbad
      rw [ndf1Qma_invalid P VAL__BAD el badbit s npntr st hst hbad,
        ndf1Qma_invalid P VAL__BAD el badbit (upperCase s) npntr st hst hbad2]
      simp only
      rw [List.append_assoc, newEvents_append, List.append_assoc, newEvents_append]
      refine ⟨trivial, trivial, trivial, trivial, ?_⟩
      by_cases hf : P.NDF__FATIN = P.SAI__OK
      · simp [hf]
      · simp [hf]
  · rw [ndf1Qma_set P VAL__BAD el badbit s npntr st hst,
      ndf1Qma_set P VAL__BAD el badbit (upperCase s) npntr st hst]
    exact ⟨rfl, rfl, rfl, rfl, rfl⟩

/-! ## Arguments out of range and the inherited status -/

/-- C9 (the code at the failing input): with `npntr = 0`, a value outside the
range 1 to 4, `ndf1Qma` does not return without action: it overwrites all four
elements of the caller's `pntr` array with `NULL` and calls a masking routine. -/
theorem ndf1Qma_npntr_zero_clears_pntr :
    exState.pntr = [some 0, some 1, some 2, some 3] ∧
      (ndf1Qma stdPar stdBad 3 1 "_REAL" 0 exState).pntr = [none, none, none, none] ∧
      newEvents exState.log (ndf1Qma stdPar stdBad 3 1 "_REAL" 0 exState).log
        = [Event.qma QmaType.F] := by
  decide

/-- C10: failure passthrough.  When the status is not `SAI__OK` on entry, `ndf1Qma`
and `ndf1Qrst` return the memory as they found it: `ndf1Qma` changes neither
`pntr`, the buffers nor `*bad`; `ndf1Qrst` changes no field of the control blocks
and of the array system and calls none of `ndf1Qimp`, `aryValid`, `aryForm`,
`aryDelet` (nothing is added to the log); and the status on exit is the status on
entry. -/
theorem inherited_status_passthrough {α σ : Type} (P : NdfPar) (VAL__BAD : QmaType → α)
    (el badbit : Nat) (type : String) (npntr : Int) (st : QmaState α) (X : QrstExt σ)
    (qs : QrstState σ) (h1 : st.status ≠ P.SAI__OK) (h2 : qs.status ≠ P.SAI__OK) :
    ndf1Qma P VAL__BAD el badbit type npntr st = st ∧
      (ndf1Qma P VAL__BAD el badbit type npntr st).status = st.status ∧
      ndf1Qrst P X qs = qs ∧
      (ndf1Qrst P X qs).status = qs.status ∧
      newEvents qs.log (ndf1Qrst P X qs).log = [] := by
  have e1 : ndf1Qma P VAL__BAD el badbit type npntr st = st :=
    ndf1Qma_set P VAL__BAD el badbit type npntr st h1
  have e2 : ndf1Qrst P X qs = qs := by
    unfold ndf1Qrst
    simp [h2]
  rw [e1, e2]
  refine ⟨rfl, rfl, rfl, rfl, ?_⟩
  simp [newEvents]

/-! ## The statements at concrete inputs -/

/-- C1 at a concrete input: masking two buffers of type `_word` with the mask 1
puts the bad value at index 1 of the second buffer. -/
theorem ndf1Qma_inserts_bad_witness :
    (ndf1Qma stdPar stdBad 3 1 "_word" 2 exState).status = stdPar.SAI__OK ∧
      cell (ndf1Qma stdPar stdBad 3 1 "_word" 2 exState).heap 1 1
        = some (stdBad QmaType.W) :=
  ndf1Qma_inserts_bad stdPar stdBad 3 1 "_word" 2 exState QmaType.W (by decide) (by decide)
    (by decide) (by decide) (by decide) 1 1 (by decide) (by decide) (by decide) 1 (by decide)
    (by decide)

/-- C2 at a concrete input: index 0 has quality 0 and keeps its value. -/
theorem ndf1Qma_frame_witness :
    cell (ndf1Qma stdPar stdBad 3 1 "_word" 2 exState).heap 0 0 = cell exState.heap 0 0 ∧
      (ndf1Qma stdPar stdBad 3 1 "_word" 2 exState).qual = exState.qual :=
  ndf1Qma_frame stdPar stdBad 3 1 "_word" 2 exState 0 0 (by decide)

/-- C3 at a concrete input: index 1 has quality 1, so the mask 1 gives a true bad
flag. -/
theorem ndf1Qma_bad_iff_witness :
    (ndf1Qma stdPar stdBad 3 1 "_word" 2 exState).bad ≠ 0 :=
  (ndf1Qma_bad_iff stdPar stdBad 3 1 "_word" 2 exState QmaType.W (by decide) (by decide)
    (by decide) (by decide)).mpr ⟨1, by decide, by decide⟩

/-- C4 at a concrete input: a quality array of three zeros. -/
theorem ndf1Qma_zero_quality_witness :
    (ndf1Qma stdPar stdBad 3 255 "_double" 4 exZero).heap = exZero.heap ∧
      (ndf1Qma stdPar stdBad 3 255 "_double" 4 exZero).bad = 0 :=
  ndf1Qma_zero_quality stdPar stdBad 3 255 "_double" 4 exZero QmaType.D (by decide)
    (by decide) (by decide) (by decide) (by decide)

/-- C6 (amended) at a concrete input: `_Int64` selects `ndf1QmaK`. -/
theorem ndf1Qma_dispatch_eight_witness :
    Event.qma QmaType.K ∈ newEvents exState.log (ndf1Qma stdPar stdBad 3 1 "_Int64" 1 exState).log
      ↔ upperCase "_Int64" = qmaName QmaType.K :=
  (ndf1Qma_dispatch_eight stdPar stdBad 3 1 "_Int64" 1 exState (by decide) (by decide)).1
    QmaType.K

/-- C7 at a concrete input: the type string `_INTEGERS` has nine characters. -/
theorem ndf1Qma_unrecognised_witness :
    (ndf1Qma stdPar stdBad 3 1 "_INTEGERS" 1 exState).status = stdPar.NDF__FATIN ∧
      Event.msgSetc "BADTYPE" "_INTEGERS"
        ∈ newEvents exState.log (ndf1Qma stdPar stdBad 3 1 "_INTEGERS" 1 exState).log ∧
      (ndf1Qma stdPar stdBad 3 1 "_INTEGERS" 1 exState).heap = exState.heap :=
  have h := ndf1Qma_unrecognised stdPar stdBad 3 1 "_INTEGERS" 1 exState (by decide)
    (Or.inl (by decide))
  ⟨h.1, h.2.1, h.2.2.2.2.1⟩

/-- C10 at a concrete input: both functions entered with the status set. -/
theorem inherited_status_passthrough_witness :
    ndf1Qma stdPar stdBad 3 1 "_REAL" 1 exFailed = exFailed ∧
      ndf1Qrst stdPar aryStore exQrstFailed = exQrstFailed :=
  have h := inherited_status_passthrough stdPar stdBad 3 1 "_REAL" 1 exFailed aryStore
    exQrstFailed (by decide) (by decide)
  ⟨h.1, h.2.2.1⟩

/-! ## Lemmas on `ndfNew` -/

theorem ndfNew_entry_bad {σ : Type} (P : NdfPar) (I : NdfIds) (X : NewExt σ) (ftype : String)
    (ndim : Int) (lbnd ubnd : List Int) (st : NewState σ)
    (ht : (ndfNewImport P I X st).1.tstat ≠ P.SAI__OK) :
    ndfNew P I X ftype ndim lbnd ubnd st
      = ndfNewCleanup P I X (ndfNewImport P I X st).1 (ndfNewImport P I X st).2 := by
  unfold ndfNew ndfNewCreate
  simp [ht]

theorem status_ndfNewCleanup_bad {σ : Type} (P : NdfPar) (I : NdfIds) (X : NewExt σ)
    (loc : NewLocals) (st : NewState σ) (ht : loc.tstat ≠ P.SAI__OK) :
    (ndfNewCleanup P I X loc st).sys.status = loc.tstat := by
  unfold ndfNewCleanup
  simp only [ht]
  split <;> simp

/-- C11: a status set on entry is preserved.  For every entry status other than
`SAI__OK` that the initialisation macro leaves as it is, and every behaviour of
the placeholder import and of the annulling of the placeholder, the status on
return from `ndfNew` is the entry status. -/
theorem ndfNew_preserves_status {σ : Type} (P : NdfPar) (I : NdfIds) (X : NewExt σ)
    (ftype : String) (ndim : Int) (lbnd ubnd : List Int) (st : NewState σ)
    (hs : st.sys.status ≠ P.SAI__OK)
    (hinit : (X.NDF_INIT st.sys).status = st.sys.status) :
    (ndfNew P I X ftype ndim lbnd ubnd st).sys.status = st.sys.status := by
  have ht : (ndfNewImport P I X st).1.tstat ≠ P.SAI__OK := by
    show (X.NDF_INIT st.sys).status ≠ P.SAI__OK
    rw [hinit]
    exact hs
  rw [ndfNew_entry_bad P I X ftype ndim lbnd ubnd st ht,
    status_ndfNewCleanup_bad P I X _ _ ht]
  exact hinit

theorem newEvents_append_append (l x y : List Event) : newEvents l (l ++ x ++ y) = x ++ y := by
  rw [List.append_assoc]
  exact newEvents_append l (x ++ y)

/-- C12 (as stated, refuted): `ndfNew` entered with the status set and a
placeholder that is not live.  The import delivers no PCB entry and `ndf1Annpl` is
not called: nothing is annulled, and the placeholders of the table are those of
before the call. -/
theorem ndfNew_status_set_not_annulled :
    exNewFailedStale.sys.status ≠ stdPar.SAI__OK ∧
      (newEvents exNewFailedStale.log
        (ndfNew stdPar stdIds ndfTables "_REAL" 2 [1, 1] [40, 32] exNewFailedStale).log).filter
          isAnnpl = [] ∧
      (ndfNew stdPar stdIds ndfTables "_REAL" 2 [1, 1] [40, 32] exNewFailedStale).sys.tab.pcb
        = exNewFailedStale.sys.tab.pcb := by
  decide

/-- C12 (amended): a call with the status set.  When `ndfNew` is entered with a
status other than `SAI__OK` (which the initialisation macro leaves as it is), no
further processing occurs: none of `ndf1Chftp`, `ndf1Vbnd`, `ndf1Dcre`, `ndf1Expid`
is called; `*indf` is returned as `NDF__NOID` and `*place` as `NDF__NOPL`; and the
placeholder is annulled when the import delivers a PCB entry (`ndf1Annpl` is called
for it once, with the erase flag set), while `ndf1Annpl` is not called when no PCB
entry is delivered. -/
theorem ndfNew_status_set {σ : Type} (P : NdfPar) (I : NdfIds) (X : NewExt σ)
    (ftype : String) (ndim : Int) (lbnd ubnd : List Int) (st : NewState σ)
    (hs : st.sys.status ≠ P.SAI__OK)
    (hinit : (X.NDF_INIT st.sys).status = st.sys.status) :
    Event.ndf1Chftp ∉ newEvents st.log (ndfNew P I X ftype ndim lbnd ubnd st).log ∧
      Event.ndf1Vbnd ∉ newEvents st.log (ndfNew P I X ftype ndim lbnd ubnd st).log ∧
      Event.ndf1Dcre ∉ newEvents st.log (ndfNew P I X ftype ndim lbnd ubnd st).log ∧
      Event.ndf1Expid ∉ newEvents st.log (ndfNew P I X ftype ndim lbnd ubnd st).log ∧
      (ndfNew P I X ftype ndim lbnd ubnd st).indf = I.NDF__NOID ∧
      (ndfNew P I X ftype ndim lbnd ubnd st).place = I.NDF__NOPL ∧
      (newEvents st.log (ndfNew P I X ftype ndim lbnd ubnd st).log).filter isAnnpl
        = (if (ndfNewImport P I X st).1.pcb.isSome then [Event.ndf1Annpl true] else []) := by
  have ht : (ndfNewImport P I X st).1.tstat ≠ P.SAI__OK := by
    show (X.NDF_INIT st.sys).status ≠ P.SAI__OK
    rw [hinit]
    exact hs
  rw [ndfNew_entry_bad P I X ftype ndim lbnd ubnd st ht]
  unfold ndfNewCleanup
  simp only [ht]
  cases hp : (ndfNewImport P I X st).1.pcb with
  | none =>
    simp only []
    split <;>
      simp [ndfNewImport, newEvents, List.drop_left, isAnnpl]
  | some p =>
    have hi : ¬ (X.NDF_INIT st.sys).status = P.SAI__OK := by
      rw [hinit]
      exact hs
    simp only []
    split <;>
      simp [ndfNewImport, newEvents, List.drop_left, isAnnpl, hi]

theorem place_ndfNewCleanup {σ : Type} (P : NdfPar) (I : NdfIds) (X : NewExt σ)
    (loc : NewLocals) (st : NewState σ) :
    (ndfNewCleanup P I X loc st).place = I.NDF__NOPL := by
  unfold ndfNewCleanup
  simp only []
  split <;> split <;> rfl

theorem indf_ndfNewCleanup_bad {σ : Type} (P : NdfPar) (I : NdfIds) (X : NewExt σ)
    (loc : NewLocals) (st : NewState σ) (ht : loc.tstat ≠ P.SAI__OK) :
    (ndfNewCleanup P I X loc st).indf = st.indf := by
  unfold ndfNewCleanup
  simp only [ht]
  split <;> split <;> simp

theorem indf_ndfNewCleanup_good {σ : Type} (P : NdfPar) (I : NdfIds) (X : NewExt σ)
    (loc : NewLocals) (st : NewState σ) (ht : loc.tstat = P.SAI__OK)
    (hs : (ndfNewCleanup P I X loc st).sys.status ≠ P.SAI__OK) :
    (ndfNewCleanup P I X loc st).indf = I.NDF__NOID := by
  unfold ndfNewCleanup at hs ⊢
  simp only [ht] at hs ⊢
  split at hs <;> split at hs <;> simp_all

theorem ndfNew_null_place {σ : Type} (P : NdfPar) (I : NdfIds) (X : NewExt σ)
    (ftype : String) (ndim : Int) (lbnd ubnd : List Int) (st : NewState σ)
    (hrej : RejectsNoPlace P I X) (hp : st.place = I.NDF__NOPL) :
    (ndfNewImport P I X st).1.pcb = none ∧
      (ndfNew P I X ftype ndim lbnd ubnd st).indf = I.NDF__NOID ∧
      (ndfNew P I X ftype ndim lbnd ubnd st).sys.status ≠ P.SAI__OK := by
  obtain ⟨h1, h2⟩ := hrej { X.NDF_INIT st.sys with status := P.SAI__OK } rfl
  have hpcb : (ndfNewImport P I X st).1.pcb = none := by
    show (X.ndf1Imppl st.place { X.NDF_INIT st.sys with status := P.SAI__OK }).1 = none
    rw [hp]
    exact h1
  have hst : (ndfNewImport P I X st).2.sys.status ≠ P.SAI__OK := by
    show (X.ndf1Imppl st.place { X.NDF_INIT st.sys with status := P.SAI__OK }).2.status
      ≠ P.SAI__OK
    rw [hp]
    exact h2
  have hc : ndfNew P I X ftype ndim lbnd ubnd st
      = ndfNewCleanup P I X (ndfNewImport P I X st).1 (ndfNewImport P I X st).2 := by
    unfold ndfNew ndfNewCreate
    simp [hst]
  refine ⟨hpcb, ?_, ?_⟩
  · rw [hc]
    by_cases ht : (ndfNewImport P I X st).1.tstat = P.SAI__OK
    · apply indf_ndfNewCleanup_good P I X _ _ ht
      unfold ndfNewCleanup
      simp [hpcb, hst, ht]
    · rw [indf_ndfNewCleanup_bad P I X _ _ ht]
      rfl
  · rw [hc]
    unfold ndfNewCleanup
    by_cases ht : (ndfNewImport P I X st).1.tstat = P.SAI__OK
    · simp [hpcb, hst, ht]
    · simp [hpcb, hst, ht]

/-- C13: the placeholder is consumed by one creation attempt.  On every return
from `ndfNew` (success, failure, or status set on entry) `*place` is `NDF__NOPL`;
so a second `ndfNew` through the same placeholder variable imports no
placeholder and returns `NDF__NOID` with an error status, the import rejecting
the null placeholder. -/
theorem ndfNew_consumes_place {σ : Type} (P : NdfPar) (I : NdfIds) (X : NewExt σ)
    (ftype ftype2 : String) (ndim ndim2 : Int) (lbnd ubnd lbnd2 ubnd2 : List Int)
    (st : NewState σ) (hrej : RejectsNoPlace P I X) :
    (ndfNew P I X ftype ndim lbnd ubnd st).place = I.NDF__NOPL ∧
      (ndfNewImport P I X (ndfNew P I X ftype ndim lbnd ubnd st)).1.pcb = none ∧
      (ndfNew P I X ftype2 ndim2 lbnd2 ubnd2 (ndfNew P I X ftype ndim lbnd ubnd st)).indf
        = I.NDF__NOID ∧
      (ndfNew P I X ftype2 ndim2 lbnd2 ubnd2
        (ndfNew P I X ftype ndim lbnd ubnd st)).sys.status ≠ P.SAI__OK ∧
      (ndfNew P I X ftype2 ndim2 lbnd2 ubnd2 (ndfNew P I X ftype ndim lbnd ubnd st)).place
        = I.NDF__NOPL := by
  have hp : (ndfNew P I X ftype ndim lbnd ubnd st).place = I.NDF__NOPL :=
    place_ndfNewCleanup P I X _ _
  have h := ndfNew_null_place P I X ftype2 ndim2 lbnd2 ubnd2 _ hrej hp
  exact ⟨hp, h.1, h.2.1, h.2.2, place_ndfNewCleanup P I X _ _⟩

/-- C14: `NDF__NOID` on failure.  In every run of `ndfNew` that ends with a status
other than `SAI__OK`, `*indf` on exit is `NDF__NOID`. -/
theorem ndfNew_noid_on_failure {σ : Type} (P : NdfPar) (I : NdfIds) (X : NewExt σ)
    (ftype : String) (ndim : Int) (lbnd ubnd : List Int) (st : NewState σ)
    (hfail : (ndfNew P I X ftype ndim lbnd ubnd st).sys.status ≠ P.SAI__OK) :
    (ndfNew P I X ftype ndim lbnd ubnd st).indf = I.NDF__NOID := by
  by_cases ht : (ndfNewImport P I X st).1.tstat = P.SAI__OK
  · exact indf_ndfNewCleanup_good P I X _ _ ht hfail
  · rw [ndfNew_entry_bad P I X ftype ndim lbnd ubnd st ht,
      indf_ndfNewCleanup_bad P I X _ _ ht]
    rfl

theorem log_ndfNewCreate {σ : Type} (P : NdfPar) (X : NewExt σ) (ftype : String)
    (ndim : Int) (lbnd ubnd : List Int) (loc : NewLocals) (s : NewState σ) :
    ∃ x, (ndfNewCreate P X ftype ndim lbnd ubnd loc s).log = s.log ++ x ∧
      x.filter isAnnpl = [] ∧
      (x.filter isStep = [] ∨ x.filter isStep = [Event.ndf1Chftp, Event.ndf1Vbnd] ∨
        x.filter isStep
          = [Event.ndf1Chftp, Event.ndf1Vbnd, Event.ndf1Dcre, Event.ndf1Expid]) ∧
      (¬ (s.sys.status = P.SAI__OK ∧ loc.tstat = P.SAI__OK) → x = []) ∧
      ((X.ndf1Vbnd ndim lbnd ubnd (X.ndf1Chftp ftype s.sys)).status ≠ P.SAI__OK →
        Event.ndf1Dcre ∉ x ∧ Event.ndf1Expid ∉ x) := by
  unfold ndfNewCreate
  by_cases h1 : s.sys.status = P.SAI__OK ∧ loc.tstat = P.SAI__OK
  · by_cases h2 : (X.ndf1Vbnd ndim lbnd ubnd (X.ndf1Chftp ftype s.sys)).status = P.SAI__OK
    · by_cases h3 : (X.ndf1Expid
          (X.ndf1Dcre ftype ndim lbnd ubnd loc.pcb
            (X.ndf1Vbnd ndim lbnd ubnd (X.ndf1Chftp ftype s.sys))).1
          (X.ndf1Dcre ftype ndim lbnd ubnd loc.pcb
            (X.ndf1Vbnd ndim lbnd ubnd (X.ndf1Chftp ftype s.sys))).2).2.status = P.SAI__OK
      · refine ⟨[Event.ndf1Chftp, Event.ndf1Vbnd, Event.ndf1Dcre, Event.ndf1Expid], ?_, ?_, ?_,
          ?_, ?_⟩
        · simp [h1, h2, h3]
        · rfl
        · exact Or.inr (Or.inr rfl)
        · intro h
          exact absurd h1 h
        · intro h
          exact absurd h2 h
      · refine ⟨[Event.ndf1Chftp, Event.ndf1Vbnd, Event.ndf1Dcre, Event.ndf1Expid,
          Event.ndf1Anl (X.ndf1Dcre ftype ndim lbnd ubnd loc.pcb
            (X.ndf1Vbnd ndim lbnd ubnd (X.ndf1Chftp ftype s.sys))).1], ?_, ?_, ?_, ?_, ?_⟩
        · simp [h1, h2, h3]
        · rfl
        · exact Or.inr (Or.inr rfl)
        · intro h
          exact absurd h1 h
        · intro h
          exact absurd h2 h
    · refine ⟨[Event.ndf1Chftp, Event.ndf1Vbnd], ?_, ?_, ?_, ?_, ?_⟩
      · simp [h1, h2]
      · rfl
      · exact Or.inr (Or.inl rfl)
      · intro h
        exact absurd h1 h
      · intro _
        simp
  · refine ⟨[], ?_, ?_, ?_, ?_, ?_⟩
    · simp [h1]
    · rfl
    · exact Or.inl rfl
    · intro _
      rfl
    · intro _
      simp

theorem log_ndfNewCleanup {σ : Type} (P : NdfPar) (I : NdfIds) (X : NewExt σ)
    (loc : NewLocals) (s : NewState σ) :
    ∃ y, (ndfNewCleanup P I X loc s).log = s.log ++ y ∧
      y.filter isStep = [] ∧
      y.filter isAnnpl
        = (if loc.pcb.isSome then
            [Event.ndf1Annpl (decide (s.sys.status ≠ P.SAI__OK ∨ loc.tstat ≠ P.SAI__OK))]
          else []) ∧
      Event.errRlse ∈ y := by
  unfold ndfNewCleanup
  cases hp : loc.pcb with
  | none =>
    simp only []
    by_cases h1 : s.sys.status = P.SAI__OK
    · exact ⟨[Event.errRlse, Event.NDF_FINAL], by simp [h1], rfl, rfl, by simp⟩
    · by_cases h2 : loc.tstat = P.SAI__OK
      · exact ⟨[Event.errRep newErrText, Event.ndf1Trace "ndfNew", Event.errRlse,
          Event.NDF_FINAL], by simp [h1, h2], rfl, rfl, by simp⟩
      · exact ⟨[Event.errAnnul, Event.errRlse, Event.NDF_FINAL], by simp [h1, h2], rfl, rfl,
          by simp⟩
  | some p =>
    simp only []
    split
    · split
      · exact ⟨[Event.ndf1Annpl (decide (s.sys.status ≠ P.SAI__OK ∨ loc.tstat ≠ P.SAI__OK)),
          Event.errAnnul, Event.errRlse, Event.NDF_FINAL], by simp, rfl, rfl, by simp⟩
      · exact ⟨[Event.ndf1Annpl (decide (s.sys.status ≠ P.SAI__OK ∨ loc.tstat ≠ P.SAI__OK)),
          Event.errRep newErrText, Event.ndf1Trace "ndfNew", Event.errRlse, Event.NDF_FINAL],
          by simp, rfl, rfl, by simp⟩
    · exact ⟨[Event.ndf1Annpl (decide (s.sys.status ≠ P.SAI__OK ∨ loc.tstat ≠ P.SAI__OK)),
        Event.errRlse, Event.NDF_FINAL], by simp, rfl, rfl, by simp⟩

theorem not_mem_of_filter_nil (f : Event → Bool) (y : List Event) (e : Event)
    (hy : y.filter f = []) (he : f e = true) : e ∉ y := by
  intro hm
  have h : e ∈ y.filter f := List.mem_filter.mpr ⟨hm, he⟩
  rw [hy] at h
  exact List.not_mem_nil e h

theorem filter_or_left (f g : Event → Bool) (x : List Event) (hx : x.filter g = []) :
    x.filter (fun e => f e || g e) = x.filter f := by
  apply List.filter_congr
  intro e he
  have hg : g e = false := by
    cases h : g e
    · rfl
    · exact absurd he (not_mem_of_filter_nil g x e hx h)
  simp [hg]

theorem filter_or_right (f g : Event → Bool) (x : List Event) (hx : x.filter f = []) :
    x.filter (fun e => f e || g e) = x.filter g := by
  apply List.filter_congr
  intro e he
  have hf : f e = false := by
    cases h : f e
    · rfl
    · exact absurd he (not_mem_of_filter_nil f x e hx h)
  simp [hf]

theorem newEvents_ndfNew {σ : Type} (P : NdfPar) (I : NdfIds) (X : NewExt σ) (ftype : String)
    (ndim : Int) (lbnd ubnd : List Int) (st : NewState σ) :
    ∃ x y, (ndfNewCreate P X ftype ndim lbnd ubnd (ndfNewImport P I X st).1
          (ndfNewImport P I X st).2).log = (ndfNewImport P I X st).2.log ++ x ∧
      newEvents st.log (ndfNew P I X ftype ndim lbnd ubnd st).log
        = [Event.NDF_INIT, Event.errMark, Event.ndf1Imppl st.place] ++ x ++ y ∧
      x.filter isAnnpl = [] ∧
      (x.filter isStep = [] ∨ x.filter isStep = [Event.ndf1Chftp, Event.ndf1Vbnd] ∨
        x.filter isStep
          = [Event.ndf1Chftp, Event.ndf1Vbnd, Event.ndf1Dcre, Event.ndf1Expid]) ∧
      (¬ ((ndfNewImport P I X st).2.sys.status = P.SAI__OK
          ∧ (ndfNewImport P I X st).1.tstat = P.SAI__OK) → x = []) ∧
      ((newChecked P I X ftype ndim lbnd ubnd st).status ≠ P.SAI__OK →
        Event.ndf1Dcre ∉ x ∧ Event.ndf1Expid ∉ x) ∧
      y.filter isStep = [] ∧
      y.filter isAnnpl
        = (if (ndfNewImport P I X st).1.pcb.isSome then
            [Event.ndf1Annpl (decide
              ((ndfNewCreate P X ftype ndim lbnd ubnd (ndfNewImport P I X st).1
                (ndfNewImport P I X st).2).sys.status ≠ P.SAI__OK
              ∨ (ndfNewImport P I X st).1.tstat ≠ P.SAI__OK))]
          else []) ∧
      Event.errRlse ∈ y := by
  obtain ⟨x, hx, hx1, hx2, hx3, hx4⟩ := log_ndfNewCreate P X ftype ndim lbnd ubnd
    (ndfNewImport P I X st).1 (ndfNewImport P I X st).2
  obtain ⟨y, hy, hy1, hy2, hy3⟩ := log_ndfNewCleanup P I X (ndfNewImport P I X st).1
    (ndfNewCreate P X ftype ndim lbnd ubnd (ndfNewImport P I X st).1 (ndfNewImport P I X st).2)
  refine ⟨x, y, hx, ?_, hx1, hx2, hx3, hx4, hy1, hy2, hy3⟩
  have hl : (ndfNew P I X ftype ndim lbnd ubnd st).log
      = st.log ++ ([Event.NDF_INIT, Event.errMark, Event.ndf1Imppl st.place] ++ x ++ y) := by
    show (ndfNewCleanup P I X (ndfNewImport P I X st).1
      (ndfNewCreate P X ftype ndim lbnd ubnd (ndfNewImport P I X st).1
        (ndfNewImport P I X st).2)).log = _
    rw [hy, hx]
    show (st.log ++ [Event.NDF_INIT, Event.errMark, Event.ndf1Imppl st.place]) ++ x ++ y = _
    simp only [List.append_assoc]
  rw [hl, newEvents_append]

/-- C15 (as stated, refuted): a call of `ndfNew` with a placeholder that is not
live.  The placeholder validation (step 1) fails, and `ndf1Annpl` is not called:
the placeholder is neither annulled nor erased. -/
theorem ndfNew_stale_place_not_annulled :
    (ndfNewImport stdPar stdIds ndfTables exNewStale).2.sys.status ≠ stdPar.SAI__OK ∧
      (newEvents exNewStale.log
        (ndfNew stdPar stdIds ndfTables "_REAL" 2 [1, 1] [40, 32] exNewStale).log).filter
          isAnnpl = [] := by
  decide

/-- C15 (amended): in every call of `ndfNew` in which the placeholder import
delivers a PCB entry, `ndf1Annpl` is called exactly once; its erase flag is set if
the status is not `SAI__OK` when the creation steps are over or was not on entry,
and is clear otherwise (all the steps succeeded).  When the import delivers no PCB
entry, `ndf1Annpl` is not called. -/
theorem ndfNew_annuls_imported {σ : Type} (P : NdfPar) (I : NdfIds) (X : NewExt σ)
    (ftype : String) (ndim : Int) (lbnd ubnd : List Int) (st : NewState σ) :
    (newEvents st.log (ndfNew P I X ftype ndim lbnd ubnd st).log).filter isAnnpl
      = (if (ndfNewImport P I X st).1.pcb.isSome then
          [Event.ndf1Annpl (decide
            ((ndfNewCreate P X ftype ndim lbnd ubnd (ndfNewImport P I X st).1
              (ndfNewImport P I X st).2).sys.status ≠ P.SAI__OK
            ∨ (ndfNewImport P I X st).1.tstat ≠ P.SAI__OK))]
        else []) := by
  obtain ⟨x, y, -, hn, hx1, -, -, -, -, hy2, -⟩ :=
    newEvents_ndfNew P I X ftype ndim lbnd ubnd st
  rw [hn, List.filter_append, List.filter_append, hx1, hy2]
  rfl

theorem steps_ndfNewCreate {σ : Type} (P : NdfPar) (X : NewExt σ) (ftype : String)
    (ndim : Int) (lbnd ubnd : List Int) (loc : NewLocals) (s : NewState σ) (x : List Event)
    (hx : (ndfNewCreate P X ftype ndim lbnd ubnd loc s).log = s.log ++ x) :
    x.filter isStep
      = (if s.sys.status = P.SAI__OK ∧ loc.tstat = P.SAI__OK then
          [Event.ndf1Chftp, Event.ndf1Vbnd]
            ++ (if (X.ndf1Vbnd ndim lbnd ubnd (X.ndf1Chftp ftype s.sys)).status = P.SAI__OK
                then [Event.ndf1Dcre, Event.ndf1Expid] else [])
        else []) := by
  have hn : newEvents s.log (ndfNewCreate P X ftype ndim lbnd ubnd loc s).log = x := by
    rw [hx, newEvents_append]
  rw [← hn]
  unfold ndfNewCreate
  by_cases h1 : s.sys.status = P.SAI__OK ∧ loc.tstat = P.SAI__OK
  · by_cases h2 : (X.ndf1Vbnd ndim lbnd ubnd (X.ndf1Chftp ftype s.sys)).status = P.SAI__OK
    · by_cases h3 : (X.ndf1Expid
          (X.ndf1Dcre ftype ndim lbnd ubnd loc.pcb
            (X.ndf1Vbnd ndim lbnd ubnd (X.ndf1Chftp ftype s.sys))).1
          (X.ndf1Dcre ftype ndim lbnd ubnd loc.pcb
            (X.ndf1Vbnd ndim lbnd ubnd (X.ndf1Chftp ftype s.sys))).2).2.status = P.SAI__OK
      · simp [h1, h2, h3, newEvents, isStep]
      · simp [h1, h2, h3, newEvents, isStep]
    · simp [h1, h2, newEvents, isStep]
  · simp [h1, newEvents, isStep]

/-- C16: the creation steps run in order and a failure aborts the rest.  In every
call of `ndfNew` the steps that are called are exactly these, in this order: the
placeholder import; then, if the import succeeds (and the status was good on
entry), the type check and the bounds check; then, if the status is good after the
two checks, `ndf1Dcre` and `ndf1Expid`.  So if the placeholder import fails, none
of the type check, the bounds check, `ndf1Dcre` and `ndf1Expid` is called; if the
type check or the bounds check fails, `ndf1Dcre` and `ndf1Expid` are not called;
and the cleanup is always reached, after the steps: `*place` is reset, `ndf1Annpl`
is called once when a PCB entry was imported (and not otherwise), and the error
stack is released. -/
theorem ndfNew_steps_in_order {σ : Type} (P : NdfPar) (I : NdfIds) (X : NewExt σ)
    (ftype : String) (ndim : Int) (lbnd ubnd : List Int) (st : NewState σ) :
    (newEvents st.log (ndfNew P I X ftype ndim lbnd ubnd st).log).filter isStep
        = [Event.ndf1Imppl st.place]
          ++ (if (ndfNewImport P I X st).2.sys.status = P.SAI__OK
                ∧ (ndfNewImport P I X st).1.tstat = P.SAI__OK then
              [Event.ndf1Chftp, Event.ndf1Vbnd]
                ++ (if (newChecked P I X ftype ndim lbnd ubnd st).status = P.SAI__OK
                    then [Event.ndf1Dcre, Event.ndf1Expid] else [])
            else []) ∧
      ((ndfNewImport P I X st).2.sys.status ≠ P.SAI__OK →
        Event.ndf1Chftp ∉ newEvents st.log (ndfNew P I X ftype ndim lbnd ubnd st).log ∧
        Event.ndf1Vbnd ∉ newEvents st.log (ndfNew P I X ftype ndim lbnd ubnd st).log ∧
        Event.ndf1Dcre ∉ newEvents st.log (ndfNew P I X ftype ndim lbnd ubnd st).log ∧
        Event.ndf1Expid ∉ newEvents st.log (ndfNew P I X ftype ndim lbnd ubnd st).log) ∧
      ((newChecked P I X ftype ndim lbnd ubnd st).status ≠ P.SAI__OK →
        Event.ndf1Dcre ∉ newEvents st.log (ndfNew P I X ftype ndim lbnd ubnd st).log ∧
        Event.ndf1Expid ∉ newEvents st.log (ndfNew P I X ftype ndim lbnd ubnd st).log) ∧
      (newEvents st.log (ndfNew P I X ftype ndim lbnd ubnd st).log).filter isStep
        <+: [Event.ndf1Imppl st.place, Event.ndf1Chftp, Event.ndf1Vbnd, Event.ndf1Dcre,
          Event.ndf1Expid] ∧
      (newEvents st.log (ndfNew P I X ftype ndim lbnd ubnd st).log).filter
          (fun e => isStep e || isAnnpl e)
        = (newEvents st.log (ndfNew P I X ftype ndim lbnd ubnd st).log).filter isStep
          ++ (newEvents st.log (ndfNew P I X ftype ndim lbnd ubnd st).log).filter isAnnpl ∧
      (ndfNew P I X ftype ndim lbnd ubnd st).place = I.NDF__NOPL ∧
      ((newEvents st.log (ndfNew P I X ftype ndim lbnd ubnd st).log).filter isAnnpl).length
        = (if (ndfNewImport P I X st).1.pcb.isSome then 1 else 0) ∧
      Event.errRlse ∈ newEvents st.log (ndfNew P I X ftype ndim lbnd ubnd st).log := by
  obtain ⟨x, y, hxl, hn, hx1, hx2, hx3, hx4, hy1, hy2, hy3⟩ :=
    newEvents_ndfNew P I X ftype ndim lbnd ubnd st
  rw [hn]
  have hstepy : ∀ e, isStep e = true → e ∉ y := fun e he =>
    not_mem_of_filter_nil isStep y e hy1 he
  refine ⟨?_, ?_, ?_, ?_, ?_, place_ndfNewCleanup P I X _ _, ?_, ?_⟩
  · rw [List.filter_append, List.filter_append, hy1, List.append_nil,
      steps_ndfNewCreate P X ftype ndim lbnd ubnd _ _ x hxl]
    rfl
  · intro hf
    have hx0 : x = [] := hx3 (fun h => hf h.1)
    subst hx0
    have h1 := hstepy Event.ndf1Chftp rfl
    have h2 := hstepy Event.ndf1Vbnd rfl
    have h3 := hstepy Event.ndf1Dcre rfl
    have h4 := hstepy Event.ndf1Expid rfl
    simp [h1, h2, h3, h4]
  · intro hf
    obtain ⟨hd, he⟩ := hx4 hf
    have h3 := hstepy Event.ndf1Dcre rfl
    have h4 := hstepy Event.ndf1Expid rfl
    simp [hd, he, h3, h4]
  · rw [List.filter_append, List.filter_append, hy1]
    rcases hx2 with h | h | h
    · rw [h]
      exact ⟨[Event.ndf1Chftp, Event.ndf1Vbnd, Event.ndf1Dcre, Event.ndf1Expid], rfl⟩
    · rw [h]
      exact ⟨[Event.ndf1Dcre, Event.ndf1Expid], rfl⟩
    · rw [h]
      exact ⟨[], rfl⟩
  · simp only [List.filter_append]
    rw [filter_or_left isStep isAnnpl x hx1, filter_or_right isStep isAnnpl y hy1, hx1, hy1]
    simp [isStep, isAnnpl]
  · rw [List.filter_append, List.filter_append, hx1, hy2]
    split <;> rfl
  · simp [hy3]

/-- C17: a failed creation is rolled back.  When `ndfNew` is entered with good
status, the import delivers a PCB entry, the checks pass, and `ndf1Dcre` or
`ndf1Expid` fails (the status is set after the export), then the ACB entry that
`ndf1Dcre` returned is annulled by `ndf1Anl`, the placeholder is annulled with the
erase flag set, `*indf` is `NDF__NOID` and the error status is returned; the
annulling functions are taken to leave a set status set. -/
theorem ndfNew_failed_creation {σ : Type} (P : NdfPar) (I : NdfIds) (X : NewExt σ)
    (ftype : String) (ndim : Int) (lbnd ubnd : List Int) (st : NewState σ) (p : Nat)
    (hk : KeepsError P X) (hs : st.sys.status = P.SAI__OK)
    (hinit : (X.NDF_INIT st.sys).status = st.sys.status)
    (himp : (ndfNewImport P I X st).2.sys.status = P.SAI__OK)
    (hp : (ndfNewImport P I X st).1.pcb = some p)
    (hchk : (newChecked P I X ftype ndim lbnd ubnd st).status = P.SAI__OK)
    (hfail : (newExported P I X ftype ndim lbnd ubnd st).2.status ≠ P.SAI__OK) :
    newEvents st.log (ndfNew P I X ftype ndim lbnd ubnd st).log
        = [Event.NDF_INIT, Event.errMark, Event.ndf1Imppl st.place, Event.ndf1Chftp,
          Event.ndf1Vbnd, Event.ndf1Dcre, Event.ndf1Expid,
          Event.ndf1Anl (newCreated P I X ftype ndim lbnd ubnd st).1, Event.ndf1Annpl true,
          Event.errRep newErrText, Event.ndf1Trace "ndfNew", Event.errRlse, Event.NDF_FINAL] ∧
      (ndfNew P I X ftype ndim lbnd ubnd st).indf = I.NDF__NOID ∧
      (ndfNew P I X ftype ndim lbnd ubnd st).sys.status ≠ P.SAI__OK := by
  have ht : (ndfNewImport P I X st).1.tstat = P.SAI__OK := by
    show (X.NDF_INIT st.sys).status = P.SAI__OK
    rw [hinit]
    exact hs
  have hanl : (X.ndf1Anl (newCreated P I X ftype ndim lbnd ubnd st).1
      (newExported P I X ftype ndim lbnd ubnd st).2).status ≠ P.SAI__OK :=
    (hk _ hfail).1 _
  have hann : (X.ndf1Annpl true (some p)
      (X.ndf1Anl (newCreated P I X ftype ndim lbnd ubnd st).1
        (newExported P I X ftype ndim lbnd ubnd st).2)).status ≠ P.SAI__OK :=
    (hk _ hanl).2 _ _
  have hc : ndfNewCreate P X ftype ndim lbnd ubnd (ndfNewImport P I X st).1
      (ndfNewImport P I X st).2
      = { (ndfNewImport P I X st).2 with
          indf := (newExported P I X ftype ndim lbnd ubnd st).1
          sys := X.ndf1Anl (newCreated P I X ftype ndim lbnd ubnd st).1
            (newExported P I X ftype ndim lbnd ubnd st).2
          log := (ndfNewImport P I X st).2.log ++ [Event.ndf1Chftp, Event.ndf1Vbnd,
            Event.ndf1Dcre, Event.ndf1Expid,
            Event.ndf1Anl (newCreated P I X ftype ndim lbnd ubnd st).1] } := by
    unfold newExported newCreated newChecked at *
    unfold ndfNewCreate
    simp [himp, ht, hchk, hfail]
  have hr : ndfNew P I X ftype ndim lbnd ubnd st
      = { place := I.NDF__NOPL
          indf := I.NDF__NOID
          sys := X.ndf1Annpl true (some p)
            (X.ndf1Anl (newCreated P I X ftype ndim lbnd ubnd st).1
              (newExported P I X ftype ndim lbnd ubnd st).2)
          log := st.log ++ [Event.NDF_INIT, Event.errMark, Event.ndf1Imppl st.place,
            Event.ndf1Chftp, Event.ndf1Vbnd, Event.ndf1Dcre, Event.ndf1Expid,
            Event.ndf1Anl (newCreated P I X ftype ndim lbnd ubnd st).1, Event.ndf1Annpl true,
            Event.errRep newErrText, Event.ndf1Trace "ndfNew", Event.errRlse,
            Event.NDF_FINAL] } := by
    show ndfNewCleanup P I X (ndfNewImport P I X st).1
      (ndfNewCreate P X ftype ndim lbnd ubnd (ndfNewImport P I X st).1
        (ndfNewImport P I X st).2) = _
    rw [hc]
    unfold ndfNewCleanup
    simp only [hp, ht]
    simp [hanl, hann]
    have hl : (ndfNewImport P I X st).2.log
        = st.log ++ [Event.NDF_INIT, Event.errMark, Event.ndf1Imppl st.place] := rfl
    rw [hl]
    simp
  rw [hr]
  exact ⟨newEvents_append _ _, rfl, hann⟩

/-! ## Lemmas on `ndf1Qrst` -/

theorem ndf1Qrst_set {σ : Type} (P : NdfPar) (X : QrstExt σ) (st : QrstState σ)
    (hst : st.status ≠ P.SAI__OK) : ndf1Qrst P X st = st := by
  unfold ndf1Qrst
  simp [hst]

theorem ndf1Qrst_own_map {σ : Type} (P : NdfPar) (X : QrstExt σ) (st : QrstState σ)
    (hst : st.status = P.SAI__OK) (hi : (qrstImported X st).status = P.SAI__OK)
    (hq : (qrstImported X st).acb.qmap ≠ 0) :
    ndf1Qrst P X st
      = { qrstImported X st with
          status := P.NDF__ISMAP
          log := ((qrstImported X st).log ++ [Event.ndf1Amsg "NDF", Event.errRep qrstErrText1])
            ++ (if P.NDF__ISMAP ≠ P.SAI__OK then [Event.ndf1Trace "ndf1Qrst"] else []) } := by
  unfold qrstImported at *
  unfold ndf1Qrst
  simp only [hst, hi, hq, ne_eq, not_true_eq_false, not_false_eq_true, if_true, if_false]
  by_cases hm : P.NDF__ISMAP = P.SAI__OK
  · simp [hm, QrstState.note]
  · simp [hm, QrstState.note]

theorem ndf1Qrst_other_map {σ : Type} (P : NdfPar) (X : QrstExt σ) (st : QrstState σ)
    (hst : st.status = P.SAI__OK) (hi : (qrstImported X st).status = P.SAI__OK)
    (hq : (qrstImported X st).acb.qmap = 0) (hc : (qrstImported X st).acb.cut = 0)
    (hn : (qrstImported X st).dcb.nqmap ≠ 0) :
    ndf1Qrst P X st
      = { qrstImported X st with
          status := P.NDF__ISMAP
          log := ((qrstImported X st).log ++ [Event.ndf1Dmsg "NDF", Event.errRep qrstErrText2])
            ++ (if P.NDF__ISMAP ≠ P.SAI__OK then [Event.ndf1Trace "ndf1Qrst"] else []) } := by
  unfold qrstImported at *
  unfold ndf1Qrst
  simp only [hst, hi, hq, hc, hn, ne_eq, not_true_eq_false, not_false_eq_true, if_true,
    if_false]
  by_cases hm : P.NDF__ISMAP = P.SAI__OK
  · simp [hm, QrstState.note]
  · simp [hm, QrstState.note]

theorem ndf1Qrst_section {σ : Type} (P : NdfPar) (X : QrstExt σ) (st : QrstState σ)
    (hst : st.status = P.SAI__OK) (hi : (qrstImported X st).status = P.SAI__OK)
    (hq : (qrstImported X st).acb.qmap = 0) (hc : (qrstImported X st).acb.cut ≠ 0) :
    ndf1Qrst P X st = qrstImported X st := by
  unfold qrstImported at *
  unfold ndf1Qrst
  simp only [hst, hi, hq, hc, ne_eq, not_true_eq_false, not_false_eq_true, if_true, if_false]

theorem ndf1Qrst_aryStore_invalid (P : NdfPar) (st : QrstState (List (Nat × String)))
    (hst : st.status = P.SAI__OK) (hq : st.acb.qmap = 0) (hc : st.acb.cut = 0)
    (hn : st.dcb.nqmap = 0) (hv : st.dcb.qid.bind st.store.lookup = none) :
    ndf1Qrst P aryStore st
      = { st with log := st.log ++ [Event.ndf1Qimp, Event.aryValid] } := by
  unfold ndf1Qrst
  simp [aryStore, QrstState.note, hst, hq, hc, hn, hv]

theorem ndf1Qrst_aryStore_valid (P : NdfPar) (st : QrstState (List (Nat × String)))
    (form : String)
    (hst : st.status = P.SAI__OK) (hq : st.acb.qmap = 0) (hc : st.acb.cut = 0)
    (hn : st.dcb.nqmap = 0) (hv : st.dcb.qid.bind st.store.lookup = some form) :
    ndf1Qrst P aryStore st
      = { st with
          dcb := { nqmap := st.dcb.nqmap, qid := none, qfrm := form }
          store := st.store.filter (fun e => some e.1 != st.dcb.qid)
          log := st.log ++ [Event.ndf1Qimp, Event.aryValid, Event.aryForm, Event.aryDelet] } := by
  unfold ndf1Qrst
  simp [aryStore, QrstState.note, hst, hq, hc, hn, hv]

theorem lookup_filter_ne (l : List (Nat × String)) (k : Nat) :
    (l.filter (fun e => some e.1 != some k)).lookup k = none := by
  induction l with
  | nil => rfl
  | cons e t ih =>
    obtain ⟨a, b⟩ := e
    by_cases hk : a = k
    · simpa [List.filter_cons, hk] using ih
    · have hka : (k == a) = false := by
        simp only [beq_eq_false_iff_ne, ne_eq]
        exact fun h => hk h.symm
      simpa [List.filter_cons, hk, List.lookup_cons, hka] using ih

theorem ndf1Qrst_aryStore_untouched (P : NdfPar) (st : QrstState (List (Nat × String)))
    (hU : st.status ≠ P.SAI__OK ∨ st.acb.qmap ≠ 0 ∨ st.acb.cut ≠ 0 ∨ st.dcb.nqmap ≠ 0
      ∨ st.dcb.qid.bind st.store.lookup = none) :
    (ndf1Qrst P aryStore st).acb = st.acb ∧
      (ndf1Qrst P aryStore st).dcb = st.dcb ∧
      (ndf1Qrst P aryStore st).store = st.store ∧
      Event.aryForm ∉ newEvents st.log (ndf1Qrst P aryStore st).log ∧
      Event.aryDelet ∉ newEvents st.log (ndf1Qrst P aryStore st).log := by
  by_cases hst : st.status = P.SAI__OK
  · have hi : (qrstImported aryStore st).status = P.SAI__OK := hst
    have hlog : (qrstImported aryStore st).log = st.log ++ [Event.ndf1Qimp] := rfl
    by_cases hq : st.acb.qmap = 0
    · by_cases hc : st.acb.cut = 0
      · by_cases hn : st.dcb.nqmap = 0
        · have hv : st.dcb.qid.bind st.store.lookup = none := by
            rcases hU with h | h | h | h | h
            · exact absurd hst h
            · exact absurd hq h
            · exact absurd hc h
            · exact absurd hn h
            · exact h
          rw [ndf1Qrst_aryStore_invalid P st hst hq hc hn hv]
          refine ⟨rfl, rfl, rfl, ?_, ?_⟩ <;> simp [newEvents_append]
        · rw [ndf1Qrst_other_map P aryStore st hst hi hq hc hn]
          refine ⟨rfl, rfl, rfl, ?_, ?_⟩ <;>
            (simp only [hlog, List.append_assoc, newEvents_append]; split <;> simp)
      · rw [ndf1Qrst_section P aryStore st hst hi hq hc]
        refine ⟨rfl, rfl, rfl, ?_, ?_⟩ <;> simp [hlog, newEvents_append]
    · rw [ndf1Qrst_own_map P aryStore st hst hi hq]
      refine ⟨rfl, rfl, rfl, ?_, ?_⟩ <;>
        (simp only [hlog, List.append_assoc, newEvents_append]; split <;> simp)
  · rw [ndf1Qrst_set P aryStore st hst]
    refine ⟨rfl, rfl, rfl, ?_, ?_⟩ <;> simp [newEvents]

theorem ndf1Qrst_aryStore_settled (P : NdfPar) (st : QrstState (List (Nat × String))) :
    (ndf1Qrst P aryStore st).status ≠ P.SAI__OK ∨ (ndf1Qrst P aryStore st).acb.qmap ≠ 0
      ∨ (ndf1Qrst P aryStore st).acb.cut ≠ 0 ∨ (ndf1Qrst P aryStore st).dcb.nqmap ≠ 0
      ∨ (ndf1Qrst P aryStore st).dcb.qid.bind (ndf1Qrst P aryStore st).store.lookup
        = none := by
  by_cases hst : st.status = P.SAI__OK
  · have hi : (qrstImported aryStore st).status = P.SAI__OK := hst
    by_cases hq : st.acb.qmap = 0
    · by_cases hc : st.acb.cut = 0
      · by_cases hn : st.dcb.nqmap = 0
        · cases hv : st.dcb.qid.bind st.store.lookup with
          | none =>
            rw [ndf1Qrst_aryStore_invalid P st hst hq hc hn hv]
            exact Or.inr (Or.inr (Or.inr (Or.inr hv)))
          | some form =>
            rw [ndf1Qrst_aryStore_valid P st form hst hq hc hn hv]
            exact Or.inr (Or.inr (Or.inr (Or.inr rfl)))
        · rw [ndf1Qrst_other_map P aryStore st hst hi hq hc hn]
          exact Or.inr (Or.inr (Or.inr (Or.inl hn)))
      · rw [ndf1Qrst_section P aryStore st hst hi hq hc]
        exact Or.inr (Or.inr (Or.inl hc))
    · rw [ndf1Qrst_own_map P aryStore st hst hi hq]
      exact Or.inr (Or.inl hq)
  · rw [ndf1Qrst_set P aryStore st hst]
    exact Or.inl hst

theorem ndf1Qrst_aryStore_keeps_status (P : NdfPar) (st : QrstState (List (Nat × String)))
    (hU : st.status ≠ P.SAI__OK ∨ st.acb.qmap ≠ 0 ∨ st.acb.cut ≠ 0 ∨ st.dcb.nqmap ≠ 0
      ∨ st.dcb.qid.bind st.store.lookup = none)
    (hk : st.status = P.SAI__OK → (st.acb.qmap = 0 ∧ (st.acb.cut ≠ 0 ∨ st.dcb.nqmap = 0))
      ∨ P.NDF__ISMAP = P.SAI__OK) :
    (ndf1Qrst P aryStore st).status = st.status := by
  by_cases hst : st.status = P.SAI__OK
  · have hi : (qrstImported aryStore st).status = P.SAI__OK := hst
    by_cases hq : st.acb.qmap = 0
    · by_cases hc : st.acb.cut = 0
      · by_cases hn : st.dcb.nqmap = 0
        · have hv : st.dcb.qid.bind st.store.lookup = none := by
            rcases hU with h | h | h | h | h
            · exact absurd hst h
            · exact absurd hq h
            · exact absurd hc h
            · exact absurd hn h
            · exact h
          rw [ndf1Qrst_aryStore_invalid P st hst hq hc hn hv]
        · rw [ndf1Qrst_other_map P aryStore st hst hi hq hc hn]
          rcases hk hst with h | h
          · rcases h.2 with h2 | h2
            · exact absurd hc h2
            · exact absurd h2 hn
          · exact h.trans hst.symm
      · rw [ndf1Qrst_section P aryStore st hst hi hq hc]
        rfl
    · rw [ndf1Qrst_own_map P aryStore st hst hi hq]
      rcases hk hst with h | h
      · exact absurd h.1 hq
      · exact h.trans hst.symm
  · rw [ndf1Qrst_set P aryStore st hst]

theorem ndf1Qrst_aryStore_settled_status (P : NdfPar) (st : QrstState (List (Nat × String)))
    (h : (ndf1Qrst P aryStore st).status = P.SAI__OK) :
    ((ndf1Qrst P aryStore st).acb.qmap = 0
        ∧ ((ndf1Qrst P aryStore st).acb.cut ≠ 0 ∨ (ndf1Qrst P aryStore st).dcb.nqmap = 0))
      ∨ P.NDF__ISMAP = P.SAI__OK := by
  by_cases hst : st.status = P.SAI__OK
  · have hi : (qrstImported aryStore st).status = P.SAI__OK := hst
    by_cases hq : st.acb.qmap = 0
    · by_cases hc : st.acb.cut = 0
      · by_cases hn : st.dcb.nqmap = 0
        · cases hv : st.dcb.qid.bind st.store.lookup with
          | none =>
            rw [ndf1Qrst_aryStore_invalid P st hst hq hc hn hv]
            exact Or.inl ⟨hq, Or.inr hn⟩
          | some form =>
            rw [ndf1Qrst_aryStore_valid P st form hst hq hc hn hv]
            exact Or.inl ⟨hq, Or.inr hn⟩
        · rw [ndf1Qrst_other_map P aryStore st hst hi hq hc hn] at h
          exact Or.inr h
      · rw [ndf1Qrst_section P aryStore st hst hi hq hc]
        exact Or.inl ⟨hq, Or.inl hc⟩
    · rw [ndf1Qrst_own_map P aryStore st hst hi hq] at h
      exact Or.inr h
  · rw [ndf1Qrst_set P aryStore st hst] at h
    exact absurd h hst

/-! ## Reset of the quality component -/

/-- C18 (as stated, refuted): a section through which the quality component is not
mapped, of an NDF whose quality component is mapped through another identifier
(map count 1).  `ndf1Qrst` does not fail: it returns with good status, having done
nothing after `ndf1Qimp`. -/
theorem ndf1Qrst_section_not_refused :
    exQrstSection.dcb.nqmap ≠ 0 ∧
      (ndf1Qrst stdPar aryStore exQrstSection).status = stdPar.SAI__OK ∧
      (ndf1Qrst stdPar aryStore exQrstSection).status ≠ stdPar.NDF__ISMAP ∧
      newEvents exQrstSection.log (ndf1Qrst stdPar aryStore exQrstSection).log
        = [Event.ndf1Qimp] := by
  decide

/-- C18 (amended): reset is refused while the component is mapped through the
given handle, or, for a base handle, through any handle.  Entered with good status
and with `ndf1Qimp` succeeding: if the quality component is mapped through the
given ACB entry, or the entry is a base NDF and the map count of its DCB is not
zero, `ndf1Qrst` fails with `NDF__ISMAP`, leaves the control blocks and the array
system as `ndf1Qimp` left them and does not call `aryDelet`; for a section that
does not map the component itself, `ndf1Qrst` does nothing more and the status
stays good. -/
theorem ndf1Qrst_refused_when_mapped {σ : Type} (P : NdfPar) (X : QrstExt σ)
    (st : QrstState σ) (hst : st.status = P.SAI__OK)
    (hi : (qrstImported X st).status = P.SAI__OK) :
    (((qrstImported X st).acb.qmap ≠ 0
        ∨ ((qrstImported X st).acb.cut = 0 ∧ (qrstImported X st).dcb.nqmap ≠ 0)) →
      (ndf1Qrst P X st).status = P.NDF__ISMAP ∧
        (ndf1Qrst P X st).acb = (qrstImported X st).acb ∧
        (ndf1Qrst P X st).dcb = (qrstImported X st).dcb ∧
        (ndf1Qrst P X st).store = (qrstImported X st).store ∧
        Event.aryDelet ∉ newEvents (qrstImported X st).log (ndf1Qrst P X st).log) ∧
      (((qrstImported X st).acb.qmap = 0 ∧ (qrstImported X st).acb.cut ≠ 0) →
        ndf1Qrst P X st = qrstImported X st) := by
  constructor
  · intro h
    by_cases hq : (qrstImported X st).acb.qmap = 0
    · have hcn : (qrstImported X st).acb.cut = 0 ∧ (qrstImported X st).dcb.nqmap ≠ 0 := by
        rcases h with h | h
        · exact absurd hq h
        · exact h
      rw [ndf1Qrst_other_map P X st hst hi hq hcn.1 hcn.2]
      refine ⟨rfl, rfl, rfl, rfl, ?_⟩
      simp only [List.append_assoc, newEvents_append]
      split <;> simp
    · rw [ndf1Qrst_own_map P X st hst hi hq]
      refine ⟨rfl, rfl, rfl, rfl, ?_⟩
      simp only [List.append_assoc, newEvents_append]
      split <;> simp
  · intro h
    exact ndf1Qrst_section P X st hst hi h.1 h.2

/-- C19: reset of an undefined component is a silent no-op, hence reset is
idempotent.  On the array system of the specification: when the quality array
identifier is not valid and nothing is mapped, `ndf1Qrst` entered with good status
returns with good status, calls neither `aryForm` nor `aryDelet` and leaves the
control blocks (the stored form among them) and the array system unchanged; and a
second `ndf1Qrst` right after a first one that returned with good status changes
neither the control blocks, the array system nor the status, and calls neither
`aryForm` nor `aryDelet`. -/
theorem ndf1Qrst_undefined_noop (P : NdfPar) (st st2 : QrstState (List (Nat × String)))
    (hst : st.status = P.SAI__OK) (hq : st.acb.qmap = 0) (hn : st.dcb.nqmap = 0)
    (hv : st.dcb.qid.bind st.store.lookup = none)
    (h2 : (ndf1Qrst P aryStore st2).status = P.SAI__OK) :
    ((ndf1Qrst P aryStore st).status = P.SAI__OK ∧
      (ndf1Qrst P aryStore st).acb = st.acb ∧
      (ndf1Qrst P aryStore st).dcb = st.dcb ∧
      (ndf1Qrst P aryStore st).store = st.store ∧
      Event.aryForm ∉ newEvents st.log (ndf1Qrst P aryStore st).log ∧
      Event.aryDelet ∉ newEvents st.log (ndf1Qrst P aryStore st).log) ∧
    ((ndf1Qrst P aryStore (ndf1Qrst P aryStore st2)).acb = (ndf1Qrst P aryStore st2).acb ∧
      (ndf1Qrst P aryStore (ndf1Qrst P aryStore st2)).dcb = (ndf1Qrst P aryStore st2).dcb ∧
      (ndf1Qrst P aryStore (ndf1Qrst P aryStore st2)).store
        = (ndf1Qrst P aryStore st2).store ∧
      (ndf1Qrst P aryStore (ndf1Qrst P aryStore st2)).status = P.SAI__OK ∧
      Event.aryForm ∉ newEvents (ndf1Qrst P aryStore st2).log
        (ndf1Qrst P aryStore (ndf1Qrst P aryStore st2)).log ∧
      Event.aryDelet ∉ newEvents (ndf1Qrst P aryStore st2).log
        (ndf1Qrst P aryStore (ndf1Qrst P aryStore st2)).log) := by
  have hU : st.status ≠ P.SAI__OK ∨ st.acb.qmap ≠ 0 ∨ st.acb.cut ≠ 0 ∨ st.dcb.nqmap ≠ 0
      ∨ st.dcb.qid.bind st.store.lookup = none := Or.inr (Or.inr (Or.inr (Or.inr hv)))
  have h1 := ndf1Qrst_aryStore_untouched P st hU
  have hs1 : (ndf1Qrst P aryStore st).status = P.SAI__OK := by
    rw [ndf1Qrst_aryStore_keeps_status P st hU]
    · exact hst
    · intro _
      refine Or.inl ⟨hq, ?_⟩
      exact Or.inr hn
  have hU2 := ndf1Qrst_aryStore_settled P st2
  have h3 := ndf1Qrst_aryStore_untouched P _ hU2
  have hs2 : (ndf1Qrst P aryStore (ndf1Qrst P aryStore st2)).status = P.SAI__OK := by
    rw [ndf1Qrst_aryStore_keeps_status P _ hU2 (fun _ => ndf1Qrst_aryStore_settled_status P st2 h2)]
    exact h2
  exact ⟨⟨hs1, h1⟩, h3.1, h3.2.1, h3.2.2.1, hs2, h3.2.2.2⟩

/-- C20: the effect of a genuine reset.  On the array system of the specification,
for a base NDF entered with good status, nothing mapped and a valid quality array
of storage form `form`: `ndf1Qrst` calls `ndf1Qimp`, `aryValid`, then `aryForm`
and then `aryDelet`; the form is stored in `dcb->qfrm` as the default for
re-creation; the array is deleted, and afterwards the quality array identifier is
not valid any more (the component is undefined); the status stays good. -/
theorem ndf1Qrst_genuine_reset (P : NdfPar) (st : QrstState (List (Nat × String)))
    (id : Nat) (form : String)
    (hst : st.status = P.SAI__OK) (hq : st.acb.qmap = 0) (hc : st.acb.cut = 0)
    (hn : st.dcb.nqmap = 0) (hid : st.dcb.qid = some id)
    (hf : st.store.lookup id = some form) :
    newEvents st.log (ndf1Qrst P aryStore st).log
        = [Event.ndf1Qimp, Event.aryValid, Event.aryForm, Event.aryDelet] ∧
      (ndf1Qrst P aryStore st).dcb.qfrm = form ∧
      (ndf1Qrst P aryStore st).dcb.qid = none ∧
      (ndf1Qrst P aryStore st).store.lookup id = none ∧
      (aryStore.aryValid st).1 = 1 ∧
      (aryStore.aryValid (ndf1Qrst P aryStore st)).1 = 0 ∧
      (ndf1Qrst P aryStore st).status = P.SAI__OK := by
  have hv : st.dcb.qid.bind st.store.lookup = some form := by
    rw [hid]
    exact hf
  have hv1 : (aryStore.aryValid st).1 = 1 := by
    simp [aryStore, hv]
  rw [ndf1Qrst_aryStore_valid P st form hst hq hc hn hv]
  refine ⟨newEvents_append _ _, rfl, rfl, ?_, hv1, rfl, hst⟩
  simp only [hid]
  exact lookup_filter_ne st.store id

/-! ## The statements on `ndfNew` and `ndf1Qrst` at concrete inputs -/

theorem ndfTables_rejects : RejectsNoPlace stdPar stdIds ndfTables := by
  intro sys h
  have h0 : sys.status = 0 := h
  simp [ndfTables, stdIds, stdPar, h0]

theorem ndfTables_keeps : KeepsError stdPar ndfTables := by
  intro sys h
  constructor
  · intro a
    cases a <;> exact h
  · intro e p
    cases p <;> exact h

/-- C11 at a concrete input: `ndfNew` entered with the status `NDF__ISMAP`. -/
theorem ndfNew_preserves_status_witness :
    (ndfNew stdPar stdIds ndfTables "_REAL" 2 [1, 1] [40, 32] exNewFailed).sys.status
      = exNewFailed.sys.status :=
  ndfNew_preserves_status stdPar stdIds ndfTables "_REAL" 2 [1, 1] [40, 32] exNewFailed
    (by decide) rfl

/-- C12 (amended) at a concrete input: `ndfNew` entered with the status set and a
live placeholder, which is annulled with the erase flag set. -/
theorem ndfNew_status_set_witness :
    Event.ndf1Dcre ∉ newEvents exNewFailed.log
        (ndfNew stdPar stdIds ndfTables "_REAL" 2 [1, 1] [40, 32] exNewFailed).log ∧
      (ndfNew stdPar stdIds ndfTables "_REAL" 2 [1, 1] [40, 32] exNewFailed).indf
        = stdIds.NDF__NOID ∧
      (ndfNew stdPar stdIds ndfTables "_REAL" 2 [1, 1] [40, 32] exNewFailed).place
        = stdIds.NDF__NOPL ∧
      (newEvents exNewFailed.log
        (ndfNew stdPar stdIds ndfTables "_REAL" 2 [1, 1] [40, 32] exNewFailed).log).filter
          isAnnpl = [Event.ndf1Annpl true] :=
  have h := ndfNew_status_set stdPar stdIds ndfTables "_REAL" 2 [1, 1] [40, 32] exNewFailed
    (by decide) rfl
  ⟨h.2.2.1, h.2.2.2.2.1, h.2.2.2.2.2.1, h.2.2.2.2.2.2.trans (by decide)⟩

/-- C13 at a concrete input: a successful creation followed by a second call. -/
theorem ndfNew_consumes_place_witness :
    (ndfNew stdPar stdIds ndfTables "_REAL" 2 [1, 1] [40, 32] exNew).place
        = stdIds.NDF__NOPL ∧
      (ndfNew stdPar stdIds ndfTables "_WORD" 1 [1] [8]
        (ndfNew stdPar stdIds ndfTables "_REAL" 2 [1, 1] [40, 32] exNew)).indf
        = stdIds.NDF__NOID ∧
      (ndfNew stdPar stdIds ndfTables "_WORD" 1 [1] [8]
        (ndfNew stdPar stdIds ndfTables "_REAL" 2 [1, 1] [40, 32] exNew)).sys.status
        ≠ stdPar.SAI__OK :=
  have h := ndfNew_consumes_place stdPar stdIds ndfTables "_REAL" "_WORD" 2 1 [1, 1] [40, 32]
    [1] [8] exNew ndfTables_rejects
  ⟨h.1, h.2.2.1, h.2.2.2.1⟩

/-- C14 at a concrete input: the store refuses to create the object. -/
theorem ndfNew_noid_on_failure_witness :
    (ndfNew stdPar stdIds ndfTables "_REAL" 2 [1, 1] [40, 32] exNewFull).indf
      = stdIds.NDF__NOID :=
  ndfNew_noid_on_failure stdPar stdIds ndfTables "_REAL" 2 [1, 1] [40, 32] exNewFull
    (by decide)

/-- C17 at a concrete input: the store refuses to create the object. -/
theorem ndfNew_failed_creation_witness :
    (ndfNew stdPar stdIds ndfTables "_REAL" 2 [1, 1] [40, 32] exNewFull).indf
        = stdIds.NDF__NOID ∧
      (ndfNew stdPar stdIds ndfTables "_REAL" 2 [1, 1] [40, 32] exNewFull).sys.status
        ≠ stdPar.SAI__OK :=
  (ndfNew_failed_creation stdPar stdIds ndfTables "_REAL" 2 [1, 1] [40, 32] exNewFull 3
    ndfTables_keeps (by decide) rfl (by decide) (by decide) (by decide) (by decide)).2

/-- C18 (amended) at a concrete input: a base NDF whose quality component is mapped
twice through other identifiers. -/
theorem ndf1Qrst_refused_when_mapped_witness :
    (ndf1Qrst stdPar aryStore exQrstMapped).status = stdPar.NDF__ISMAP :=
  ((ndf1Qrst_refused_when_mapped stdPar aryStore exQrstMapped (by decide) (by decide)).1
    (Or.inr ⟨by decide, by decide⟩)).1

/-- C19 at a concrete input: an NDF with no quality array, and a second reset
after the reset of an NDF with one. -/
theorem ndf1Qrst_undefined_noop_witness :
    (ndf1Qrst stdPar aryStore exQrstUndefined).dcb = exQrstUndefined.dcb ∧
      (ndf1Qrst stdPar aryStore (ndf1Qrst stdPar aryStore exQrst)).store
        = (ndf1Qrst stdPar aryStore exQrst).store :=
  have h := ndf1Qrst_undefined_noop stdPar exQrstUndefined exQrst (by decide) (by decide)
    (by decide) (by decide) (by decide)
  ⟨h.1.2.2.1, h.2.2.2.1⟩

/-- C20 at a concrete input: the reset of an NDF with a quality array of form
`SIMPLE`. -/
theorem ndf1Qrst_genuine_reset_witness :
    (ndf1Qrst stdPar aryStore exQrst).dcb.qfrm = "SIMPLE" ∧
      (ndf1Qrst stdPar aryStore exQrst).dcb.qid = none :=
  have h := ndf1Qrst_genuine_reset stdPar exQrst 5 "SIMPLE" (by decide) (by decide)
    (by decide) (by decide) (by decide) (by decide)
  ⟨h.2.1, h.2.2.1⟩

/-! ## Failure and sections in `ndf1Qrst` -/

theorem ndf1Qrst_qimp_failed {σ : Type} (P : NdfPar) (X : QrstExt σ) (st : QrstState σ)
    (hst : st.status = P.SAI__OK) (hi : (qrstImported X st).status ≠ P.SAI__OK) :
    ndf1Qrst P X st = (qrstImported X st).note (Event.ndf1Trace "ndf1Qrst") := by
  unfold qrstImported at *
  unfold ndf1Qrst
  simp only [hst, hi, ne_eq, not_true_eq_false, not_false_eq_true, if_true, if_false]

theorem ndf1Qrst_base {σ : Type} (P : NdfPar) (X : QrstExt σ) (st : QrstState σ)
    (hst : st.status = P.SAI__OK) (hi : (qrstImported X st).status = P.SAI__OK)
    (hq : (qrstImported X st).acb.qmap = 0) (hc : (qrstImported X st).acb.cut = 0)
    (hn : (qrstImported X st).dcb.nqmap = 0) :
    ndf1Qrst P X st
      = (if (if (X.aryValid ((qrstImported X st).note Event.aryValid)).2.status = P.SAI__OK
              then
                if (X.aryValid ((qrstImported X st).note Event.aryValid)).1 ≠ 0 then
                  X.aryDelet ((X.aryForm ((X.aryValid
                    ((qrstImported X st).note Event.aryValid)).2.note Event.aryForm)).note
                      Event.aryDelet)
                else (X.aryValid ((qrstImported X st).note Event.aryValid)).2
              else (X.aryValid ((qrstImported X st).note Event.aryValid)).2).status
            ≠ P.SAI__OK then
          (if (X.aryValid ((qrstImported X st).note Event.aryValid)).2.status = P.SAI__OK
              then
                if (X.aryValid ((qrstImported X st).note Event.aryValid)).1 ≠ 0 then
                  X.aryDelet ((X.aryForm ((X.aryValid
                    ((qrstImported X st).note Event.aryValid)).2.note Event.aryForm)).note
                      Event.aryDelet)
                else (X.aryValid ((qrstImported X st).note Event.aryValid)).2
              else (X.aryValid ((qrstImported X st).note Event.aryValid)).2).note
            (Event.ndf1Trace "ndf1Qrst")
        else
          (if (X.aryValid ((qrstImported X st).note Event.aryValid)).2.status = P.SAI__OK
              then
                if (X.aryValid ((qrstImported X st).note Event.aryValid)).1 ≠ 0 then
                  X.aryDelet ((X.aryForm ((X.aryValid
                    ((qrstImported X st).note Event.aryValid)).2.note Event.aryForm)).note
                      Event.aryDelet)
                else (X.aryValid ((qrstImported X st).note Event.aryValid)).2
              else (X.aryValid ((qrstImported X st).note Event.aryValid)).2)) := by
  unfold qrstImported at *
  unfold ndf1Qrst
  simp only [hst, hi, hq, hc, hn, ne_eq, not_true_eq_false, not_false_eq_true, if_true,
    if_false]

/-- C21 (as stated, refuted): the deletion of the quality array fails after its
storage form has been saved.  `ndf1Qrst` ends with a status other than `SAI__OK`,
and the stored form default, `PRIMITIVE` before the call, is `SIMPLE` after it. -/
theorem ndf1Qrst_failed_delete_changes_form :
    (ndf1Qrst stdPar (aryFaulty stdPar.SAI__OK deletFails) exQrst).status ≠ stdPar.SAI__OK ∧
      exQrst.dcb.qfrm = "PRIMITIVE" ∧
      (ndf1Qrst stdPar (aryFaulty stdPar.SAI__OK deletFails) exQrst).dcb.qfrm = "SIMPLE" := by
  decide

/-- C21 (amended): on the array system of the specification with failures, in
every run of `ndf1Qrst` that ends with a status other than `SAI__OK`, the handle's
flags, the map counts, the quality array identifier and the array system are the
same as before the call; the stored form default is the same too, unless the
failure is that of `aryDelet` after `aryForm` has run, when it holds the storage
form of the array. -/
theorem ndf1Qrst_failed_keeps (P : NdfPar) (F : AryFaults)
    (st : QrstState (List (Nat × String)))
    (hfail : (ndf1Qrst P (aryFaulty P.SAI__OK F) st).status ≠ P.SAI__OK) :
    (ndf1Qrst P (aryFaulty P.SAI__OK F) st).acb = st.acb ∧
      (ndf1Qrst P (aryFaulty P.SAI__OK F) st).dcb.nqmap = st.dcb.nqmap ∧
      (ndf1Qrst P (aryFaulty P.SAI__OK F) st).dcb.qid = st.dcb.qid ∧
      (ndf1Qrst P (aryFaulty P.SAI__OK F) st).store = st.store ∧
      ((ndf1Qrst P (aryFaulty P.SAI__OK F) st).dcb.qfrm = st.dcb.qfrm ∨
        (F.delet.isSome = true ∧
          Event.aryForm ∈ newEvents st.log (ndf1Qrst P (aryFaulty P.SAI__OK F) st).log ∧
          st.dcb.qid.bind st.store.lookup
            = some (ndf1Qrst P (aryFaulty P.SAI__OK F) st).dcb.qfrm)) := by
  have himp : qrstImported (aryFaulty P.SAI__OK F) st
      = { st with status := (qrstImported (aryFaulty P.SAI__OK F) st).status,
                  log := st.log ++ [Event.ndf1Qimp] } := by
    unfold qrstImported aryFaulty
    cases F.qimp <;> rfl
  by_cases hst : st.status = P.SAI__OK
  · by_cases hi : (qrstImported (aryFaulty P.SAI__OK F) st).status = P.SAI__OK
    · have hacb : (qrstImported (aryFaulty P.SAI__OK F) st).acb = st.acb := by rw [himp]
      have hdcb : (qrstImported (aryFaulty P.SAI__OK F) st).dcb = st.dcb := by rw [himp]
      have hsto : (qrstImported (aryFaulty P.SAI__OK F) st).store = st.store := by rw [himp]
      by_cases hq : (qrstImported (aryFaulty P.SAI__OK F) st).acb.qmap = 0
      · by_cases hc : (qrstImported (aryFaulty P.SAI__OK F) st).acb.cut = 0
        · by_cases hn : (qrstImported (aryFaulty P.SAI__OK F) st).dcb.nqmap = 0
          · rw [ndf1Qrst_base P _ st hst hi hq hc hn] at hfail ⊢
            have hlog : (qrstImported (aryFaulty P.SAI__OK F) st).log
                = st.log ++ [Event.ndf1Qimp] := by rw [himp]
            clear himp hq hc hn
            generalize qrstImported (aryFaulty P.SAI__OK F) st = s1 at *
            obtain ⟨a1, d1, t1, u1, l1⟩ := s1
            simp only at hi hacb hdcb hsto hlog
            subst hi hacb hdcb hsto hlog
            obtain ⟨fq, fv, ff, fd⟩ := F
            cases fv <;> cases ff <;> cases fd <;>
              cases hb : st.dcb.qid.bind st.store.lookup <;>
              simp only [aryFaulty, aryStore, QrstState.note, hb, ne_eq, not_true_eq_false,
                not_false_eq_true, if_true, if_false, Option.isSome_some, Option.isSome_none,
                one_ne_zero, Bool.false_eq_true, List.append_assoc, List.singleton_append,
                List.cons_append, List.nil_append] at hfail ⊢ <;>
              (try split_ifs at hfail ⊢) <;>
              simp_all [newEvents_append]
          · rw [ndf1Qrst_other_map P _ st hst hi hq hc hn]
            exact ⟨hacb, congrArg NdfDCB.nqmap hdcb, congrArg NdfDCB.qid hdcb, hsto,
              Or.inl (congrArg NdfDCB.qfrm hdcb)⟩
        · rw [ndf1Qrst_section P _ st hst hi hq hc]
          exact ⟨hacb, congrArg NdfDCB.nqmap hdcb, congrArg NdfDCB.qid hdcb, hsto,
            Or.inl (congrArg NdfDCB.qfrm hdcb)⟩
      · rw [ndf1Qrst_own_map P _ st hst hi hq]
        exact ⟨hacb, congrArg NdfDCB.nqmap hdcb, congrArg NdfDCB.qid hdcb, hsto,
          Or.inl (congrArg NdfDCB.qfrm hdcb)⟩
    · rw [ndf1Qrst_qimp_failed P _ st hst hi, himp]
      exact ⟨rfl, rfl, rfl, rfl, Or.inl rfl⟩
  · rw [ndf1Qrst_set P _ st hst]
    exact ⟨rfl, rfl, rfl, rfl, Or.inl rfl⟩

/-- C22 (as stated, refuted): a section through which the quality component is
mapped.  `ndf1Qrst` does not leave the status at `SAI__OK`: it reports the error
`NDF__ISMAP`. -/
theorem ndf1Qrst_mapped_section_fails :
    exQrstSectionMapped.acb.cut ≠ 0 ∧
      (ndf1Qrst stdPar aryStore exQrstSectionMapped).status = stdPar.NDF__ISMAP ∧
      (ndf1Qrst stdPar aryStore exQrstSectionMapped).status ≠ stdPar.SAI__OK := by
  decide

/-- C22 (amended): for an NDF that is not a base NDF, `ndf1Qrst` deletes nothing
and changes no field of the control blocks.  Entered with good status and with
`ndf1Qimp` succeeding, for every ACB entry with the section flag set: the control
blocks and the array system stay as `ndf1Qimp` left them and `aryDelet` is not
called; the status stays `SAI__OK` when the quality component is not mapped
through the entry, and is `NDF__ISMAP` when it is. -/
theorem ndf1Qrst_section_no_action {σ : Type} (P : NdfPar) (X : QrstExt σ)
    (st : QrstState σ) (hst : st.status = P.SAI__OK)
    (hi : (qrstImported X st).status = P.SAI__OK)
    (hcut : (qrstImported X st).acb.cut ≠ 0) :
    (ndf1Qrst P X st).acb = (qrstImported X st).acb ∧
      (ndf1Qrst P X st).dcb = (qrstImported X st).dcb ∧
      (ndf1Qrst P X st).store = (qrstImported X st).store ∧
      Event.aryDelet ∉ newEvents (qrstImported X st).log (ndf1Qrst P X st).log ∧
      ((qrstImported X st).acb.qmap = 0 →
        ndf1Qrst P X st = qrstImported X st ∧ (ndf1Qrst P X st).status = P.SAI__OK) ∧
      ((qrstImported X st).acb.qmap ≠ 0 → (ndf1Qrst P X st).status = P.NDF__ISMAP) := by
  by_cases hq : (qrstImported X st).acb.qmap = 0
  · rw [ndf1Qrst_section P X st hst hi hq hcut]
    refine ⟨rfl, rfl, rfl, ?_, fun _ => ⟨rfl, hi⟩, fun h => absurd hq h⟩
    simp [newEvents]
  · rw [ndf1Qrst_own_map P X st hst hi hq]
    refine ⟨rfl, rfl, rfl, ?_, fun h => absurd h hq, fun _ => rfl⟩
    simp only [List.append_assoc, newEvents_append]
    split <;> simp

/-- C22 (amended) at a concrete input: a section that does not map the quality
component, of an NDF whose quality component is mapped elsewhere. -/
theorem ndf1Qrst_section_no_action_witness :
    (ndf1Qrst stdPar aryStore exQrstSection).dcb = exQrstSection.dcb ∧
      (ndf1Qrst stdPar aryStore exQrstSection).status = stdPar.SAI__OK :=
  have h := ndf1Qrst_section_no_action stdPar aryStore exQrstSection (by decide) (by decide)
    (by decide)
  ⟨h.2.1, (h.2.2.2.2.1 (by decide)).2⟩

/-- C21 (amended) at a concrete input: the deletion of the array fails. -/
theorem ndf1Qrst_failed_keeps_witness :
    (ndf1Qrst stdPar (aryFaulty stdPar.SAI__OK deletFails) exQrst).dcb.qid = exQrst.dcb.qid ∧
      (ndf1Qrst stdPar (aryFaulty stdPar.SAI__OK deletFails) exQrst).store = exQrst.store :=
  have h := ndf1Qrst_failed_keeps stdPar deletFails exQrst (by decide)
  ⟨h.2.2.1, h.2.2.2.1⟩

/-! ## The array order of a smfData -/

theorem smf_dataOrder_set {A : Type} (P : SmfPar) (X : SmfExt A) (data : SmfChain A)
    (isTordered status : Int) (hst : status ≠ P.SAI__OK) :
    smf_dataOrder P X data isTordered status = (0, data, status) := by
  cases data with
  | nil =>
    unfold smf_dataOrder
    rw [if_pos hst]
  | cons d rest =>
    unfold smf_dataOrder smfOrderBody
    rw [if_pos hst]

theorem valid_order (isTordered : Int) (hv : isTordered = 0 ∨ isTordered = 1) :
    ¬ (isTordered ≠ 0 ∧ isTordered ≠ 1) := by
  rintro ⟨h0, h1⟩
  rcases hv with h | h
  · exact h0 h
  · exact h1 h

theorem smf_dataOrder_same {A : Type} (P : SmfPar) (X : SmfExt A) (d : SmfHead A)
    (rest : SmfChain A) (isTordered status : Int) (hv : isTordered = 0 ∨ isTordered = 1)
    (hsame : d.isTordered = isTordered) :
    smf_dataOrder P X (d :: rest) isTordered status = (0, d :: rest, status) := by
  by_cases hst : status = P.SAI__OK
  · unfold smf_dataOrder smfOrderBody
    rw [if_neg (not_not.mpr hst), if_neg (valid_order isTordered hv), if_pos hsame]
  · exact smf_dataOrder_set P X _ _ _ hst

theorem smf_dataOrder_alone {A : Type} (P : SmfPar) (X : SmfExt A) (d : SmfHead A)
    (isTordered status : Int) (hst : status = P.SAI__OK)
    (hv : isTordered = 0 ∨ isTordered = 1) (hne : d.isTordered ≠ isTordered)
    (h3 : d.ndims = 3) :
    smf_dataOrder P X [d] isTordered status
      = (1, [(smfReorder P X d isTordered status).1], (smfReorder P X d isTordered status).2) := by
  unfold smf_dataOrder smfOrderBody
  rw [if_neg (not_not.mpr hst), if_neg (valid_order isTordered hv), if_neg hne,
    if_neg (not_not.mpr h3)]
  rfl

theorem smf_dataOrder_linked {A : Type} (P : SmfPar) (X : SmfExt A) (d q : SmfHead A)
    (rest : SmfChain A) (isTordered status : Int) (hst : status = P.SAI__OK)
    (hv : isTordered = 0 ∨ isTordered = 1) (hne : d.isTordered ≠ isTordered)
    (h3 : d.ndims = 3) :
    smf_dataOrder P X (d :: q :: rest) isTordered status
      = (if (smf_dataOrder P X (q :: rest) isTordered
            (smfReorder P X d isTordered status).2).1 ≠ 0
          then (smf_dataOrder P X (q :: rest) isTordered
            (smfReorder P X d isTordered status).2).1 else 1,
        (smfReorder P X d isTordered status).1
          :: (smf_dataOrder P X (q :: rest) isTordered
            (smfReorder P X d isTordered status).2).2.1,
        (smf_dataOrder P X (q :: rest) isTordered
          (smfReorder P X d isTordered status).2).2.2) := by
  rw [smf_dataOrder]
  unfold smfOrderBody
  rw [if_neg (not_not.mpr hst), if_neg (valid_order isTordered hv), if_neg hne,
    if_neg (not_not.mpr h3)]
  rfl

theorem order_smfReorder {A : Type} (P : SmfPar) (X : SmfExt A) (d : SmfHead A)
    (isTordered status : Int) :
    ((smfReorder P X d isTordered status).2 = P.SAI__OK →
        (smfReorder P X d isTordered status).1.isTordered = isTordered) ∧
      ((smfReorder P X d isTordered status).2 ≠ P.SAI__OK →
        (smfReorder P X d isTordered status).1.isTordered = d.isTordered) := by
  unfold smfReorder
  simp only []
  split_ifs with h1 h2 h2
  · exact ⟨fun _ => rfl, fun h => absurd h2 h⟩
  · exact ⟨fun h => absurd h h2, fun _ => rfl⟩
  · exact ⟨fun _ => rfl, fun h => absurd h2 h⟩
  · exact ⟨fun h => absurd h h2, fun _ => rfl⟩

/-- C23 (as stated, refuted): the re-ordering of the arrays fails.  `smf_dataOrder`
returns 1 although the `smfData` is left as it was, its flag `isTordered`
unchanged. -/
theorem smf_dataOrder_failed_returns_one :
    (smf_dataOrder stdSmf (smfArrays true) [exSmfB] 1 stdSmf.SAI__OK).1 = 1 ∧
      (smf_dataOrder stdSmf (smfArrays true) [exSmfB] 1 stdSmf.SAI__OK).2.1 = [exSmfB] ∧
      (smf_dataOrder stdSmf (smfArrays true) [exSmfB] 1 stdSmf.SAI__OK).2.2
        ≠ stdSmf.SAI__OK := by
  decide

/-- C23 (amended): the value returned by `smf_dataOrder` tells whether the data
were re-ordered, provided the call ends with good status.  For every input, if the
status on exit is `SAI__OK`, the result is nonzero if and only if the flag
`isTordered` of the `smfData` differs from its value before the call; and when the
result is 0, neither the `smfData` nor its side-quality companion is changed. -/
theorem smf_dataOrder_result {A : Type} (P : SmfPar) (X : SmfExt A) (data : SmfChain A)
    (isTordered status : Int)
    (hexit : (smf_dataOrder P X data isTordered status).2.2 = P.SAI__OK) :
    ((smf_dataOrder P X data isTordered status).1 ≠ 0
        ↔ orderOf (smf_dataOrder P X data isTordered status).2.1 ≠ orderOf data) ∧
      ((smf_dataOrder P X data isTordered status).1 = 0 →
        (smf_dataOrder P X data isTordered status).2.1 = data) := by
  by_cases hst : status = P.SAI__OK
  · cases data with
    | nil =>
      have h : smf_dataOrder P X ([] : SmfChain A) isTordered status
          = (0, [], P.SAI__ERROR) := by
        unfold smf_dataOrder
        rw [if_neg (not_not.mpr hst)]
        split <;> rfl
      rw [h]
      exact ⟨⟨fun h0 => absurd rfl h0, fun h0 => absurd rfl h0⟩, fun _ => rfl⟩
    | cons d rest =>
      by_cases hv : isTordered = 0 ∨ isTordered = 1
      · by_cases hsame : d.isTordered = isTordered
        · rw [smf_dataOrder_same P X d rest isTordered status hv hsame]
          exact ⟨⟨fun h0 => absurd rfl h0, fun h0 => absurd rfl h0⟩, fun _ => rfl⟩
        · by_cases h3 : d.ndims = 3
          · have hord := order_smfReorder P X d isTordered status
            cases rest with
            | nil =>
              rw [smf_dataOrder_alone P X d isTordered status hst hv hsame h3] at hexit ⊢
              have ho := hord.1 hexit
              refine ⟨⟨fun _ => ?_, fun _ => (one_ne_zero : (1 : Int) ≠ 0)⟩,
                fun h0 => absurd h0 (one_ne_zero : (1 : Int) ≠ 0)⟩
              simp only [orderOf, List.head?_cons, Option.map_some', ne_eq, Option.some.injEq,
                ho]
              exact fun h => hsame h.symm
            | cons q qs =>
              rw [smf_dataOrder_linked P X d q qs isTordered status hst hv hsame h3]
                at hexit ⊢
              have hr : (smfReorder P X d isTordered status).2 = P.SAI__OK := by
                by_contra hbad
                rw [smf_dataOrder_set P X _ _ _ hbad] at hexit
                exact hbad hexit
              have ho := hord.1 hr
              have hne : (if (smf_dataOrder P X (q :: qs) isTordered
                    (smfReorder P X d isTordered status).2).1 ≠ 0
                  then (smf_dataOrder P X (q :: qs) isTordered
                    (smfReorder P X d isTordered status).2).1 else 1) ≠ 0 := by
                split
                · assumption
                · decide
              refine ⟨⟨fun _ => ?_, fun _ => hne⟩, fun h0 => absurd h0 hne⟩
              simp only [orderOf, List.head?_cons, Option.map_some', ne_eq, Option.some.injEq,
                ho]
              exact fun h => hsame h.symm
          · have h : smf_dataOrder P X (d :: rest) isTordered status
                = (0, d :: rest, P.SMF__WDIM) := by
              unfold smf_dataOrder smfOrderBody
              rw [if_neg (not_not.mpr hst), if_neg (valid_order isTordered hv), if_neg hsame,
                if_pos h3]
            rw [h]
            exact ⟨⟨fun h0 => absurd rfl h0, fun h0 => absurd rfl h0⟩, fun _ => rfl⟩
      · have h : smf_dataOrder P X (d :: rest) isTordered status
            = (0, d :: rest, P.SAI__ERROR) := by
          have hv2 : isTordered ≠ 0 ∧ isTordered ≠ 1 :=
            ⟨fun h => hv (Or.inl h), fun h => hv (Or.inr h)⟩
          unfold smf_dataOrder smfOrderBody
          rw [if_neg (not_not.mpr hst), if_pos hv2]
        rw [h]
        exact ⟨⟨fun h0 => absurd rfl h0, fun h0 => absurd rfl h0⟩, fun _ => rfl⟩
  · rw [smf_dataOrder_set P X data isTordered status hst]
    exact ⟨⟨fun h0 => absurd rfl h0, fun h0 => absurd rfl h0⟩, fun _ => rfl⟩

/-- C24: the companion's result is merged with the parent's by logical OR.  When
`smf_dataOrder` propagates to `data->sidequal` (good status, a valid `isTordered`
that differs from the current order, three dimensions, a side-quality companion),
the value returned is the companion's result if that is nonzero and 1 otherwise:
it is nonzero if and only if the call on the parent alone or the call on the
companion returns nonzero, so a no-op on the companion does not turn the parent's
result into false. -/
theorem smf_dataOrder_merges_by_or {A : Type} (P : SmfPar) (X : SmfExt A) (d q : SmfHead A)
    (rest : SmfChain A) (isTordered status : Int) (hst : status = P.SAI__OK)
    (hv : isTordered = 0 ∨ isTordered = 1) (hne : d.isTordered ≠ isTordered)
    (h3 : d.ndims = 3) :
    (smf_dataOrder P X (d :: q :: rest) isTordered status).1
        = (if (smf_dataOrder P X (q :: rest) isTordered
              (smfReorder P X d isTordered status).2).1 ≠ 0
            then (smf_dataOrder P X (q :: rest) isTordered
              (smfReorder P X d isTordered status).2).1 else 1) ∧
      ((smf_dataOrder P X (d :: q :: rest) isTordered status).1 ≠ 0
        ↔ ((smf_dataOrder P X [d] isTordered status).1 ≠ 0
          ∨ (smf_dataOrder P X (q :: rest) isTordered
              (smfReorder P X d isTordered status).2).1 ≠ 0)) ∧
      ((smf_dataOrder P X [d] isTordered status).1 ≠ 0 →
        (smf_dataOrder P X (d :: q :: rest) isTordered status).1 ≠ 0) := by
  rw [smf_dataOrder_linked P X d q rest isTordered status hst hv hne h3,
    smf_dataOrder_alone P X d isTordered status hst hv hne h3]
  have hnz : (if (smf_dataOrder P X (q :: rest) isTordered
        (smfReorder P X d isTordered status).2).1 ≠ 0
      then (smf_dataOrder P X (q :: rest) isTordered
        (smfReorder P X d isTordered status).2).1 else 1) ≠ 0 := by
    split
    · assumption
    · decide
  exact ⟨rfl, ⟨fun _ => Or.inl (one_ne_zero : (1 : Int) ≠ 0), fun _ => hnz⟩, fun _ => hnz⟩

/-- C25 (as stated, refuted): a parent that is already time-ordered, with a
side-quality companion that is not.  The operation on the companion alone does
work (returns 1), but the combined call returns 0 and leaves the companion as it
was. -/
theorem smf_dataOrder_companion_skipped :
    (smf_dataOrder stdSmf (smfArrays false) [exSmfB] 1 stdSmf.SAI__OK).1 = 1 ∧
      (smf_dataOrder stdSmf (smfArrays false) [exSmfT, exSmfB] 1 stdSmf.SAI__OK).1 = 0 ∧
      (smf_dataOrder stdSmf (smfArrays false) [exSmfT, exSmfB] 1 stdSmf.SAI__OK).2.1
        = [exSmfT, exSmfB] := by
  decide

/-- C25 (amended): when the parent is already in the requested order,
`smf_dataOrder` returns 0 and does not visit the side-quality companion, which is
left as it was whether or not its own operation would do work; the companion is
visited only when the parent itself is re-ordered, and the call then returns
true. -/
theorem smf_dataOrder_propagation {A : Type} (P : SmfPar) (X : SmfExt A) (d q : SmfHead A)
    (rest : SmfChain A) (isTordered status : Int) (hst : status = P.SAI__OK)
    (hv : isTordered = 0 ∨ isTordered = 1) :
    (d.isTordered = isTordered →
        smf_dataOrder P X (d :: q :: rest) isTordered status = (0, d :: q :: rest, status)) ∧
      (d.isTordered ≠ isTordered → d.ndims = 3 →
        (smf_dataOrder P X (d :: q :: rest) isTordered status).1 ≠ 0 ∧
        (smf_dataOrder P X (d :: q :: rest) isTordered status).2.1.tail
          = (smf_dataOrder P X (q :: rest) isTordered
              (smfReorder P X d isTordered status).2).2.1) := by
  constructor
  · intro hsame
    exact smf_dataOrder_same P X d (q :: rest) isTordered status hv hsame
  · intro hne h3
    rw [smf_dataOrder_linked P X d q rest isTordered status hst hv hne h3]
    refine ⟨?_, rfl⟩
    simp only []
    split
    · assumption
    · decide

/-- C26: a request for the current order simply returns.  For every `smfData`
whose flag `isTordered` equals the requested value (0 or 1), whatever `ndims` and
the entry status are, `smf_dataOrder` returns 0, leaves the status as it was, and
leaves the `smfData` (dimensions, pixel origin, flag and array pointers) and its
side-quality companion unchanged. -/
theorem smf_dataOrder_same_order {A : Type} (P : SmfPar) (X : SmfExt A) (d : SmfHead A)
    (rest : SmfChain A) (isTordered status : Int) (hv : isTordered = 0 ∨ isTordered = 1)
    (hsame : d.isTordered = isTordered) :
    (smf_dataOrder P X (d :: rest) isTordered status).1 = 0 ∧
      (smf_dataOrder P X (d :: rest) isTordered status).2.2 = status ∧
      (smf_dataOrder P X (d :: rest) isTordered status).2.1 = d :: rest := by
  rw [smf_dataOrder_same P X d rest isTordered status hv hsame]
  exact ⟨rfl, rfl, rfl⟩

/-- C23 (amended) at a concrete input: bolometer-ordered data put in time order. -/
theorem smf_dataOrder_result_witness :
    (smf_dataOrder stdSmf (smfArrays false) [exSmfB] 1 0).1 ≠ 0
      ↔ orderOf (smf_dataOrder stdSmf (smfArrays false) [exSmfB] 1 0).2.1
        ≠ orderOf [exSmfB] :=
  (smf_dataOrder_result stdSmf (smfArrays false) [exSmfB] 1 0 (by decide)).1

/-- C24 at a concrete input: a parent and a companion, both bolometer-ordered. -/
theorem smf_dataOrder_merges_by_or_witness :
    (smf_dataOrder stdSmf (smfArrays false) [exSmfB, exSmfB] 1 0).1 ≠ 0
      ↔ ((smf_dataOrder stdSmf (smfArrays false) [exSmfB] 1 0).1 ≠ 0
        ∨ (smf_dataOrder stdSmf (smfArrays false) [exSmfB] 1
            (smfReorder stdSmf (smfArrays false) exSmfB 1 0).2).1 ≠ 0) :=
  (smf_dataOrder_merges_by_or stdSmf (smfArrays false) exSmfB exSmfB [] 1 0 (by decide)
    (by decide) (by decide) (by decide)).2.1

/-- C25 (amended) at a concrete input: a time-ordered parent with a companion in
bolometer order, asked for time order. -/
theorem smf_dataOrder_propagation_witness :
    smf_dataOrder stdSmf (smfArrays false) [exSmfT, exSmfB] 1 0 = (0, [exSmfT, exSmfB], 0) :=
  (smf_dataOrder_propagation stdSmf (smfArrays false) exSmfT exSmfB [] 1 0 (by decide)
    (by decide)).1 (by decide)

/-- C26 at a concrete input: time-ordered data of two dimensions asked for time
order, with the status set. -/
theorem smf_dataOrder_same_order_witness :
    (smf_dataOrder stdSmf (smfArrays false) [{ exSmfT with ndims := 2 }] 1 5).1 = 0 ∧
      (smf_dataOrder stdSmf (smfArrays false) [{ exSmfT with ndims := 2 }] 1 5).2.2 = 5 :=
  have h := smf_dataOrder_same_order stdSmf (smfArrays false) { exSmfT with ndims := 2 } [] 1 5
    (by decide) (by decide)
  ⟨h.1, h.2.1⟩

/-! ## The data type names of `gaiaArrayHDSType` -/

theorem upper_underscore (c : Char) : c = '_' ↔ c.toUpper = '_' := by
  by_cases h : 97 ≤ c.toNat ∧ c.toNat ≤ 122
  · have e : c.toUpper = Char.ofNat (c.toNat - 32) := by
      unfold Char.toUpper
      simp only [ge_iff_le, h, and_self, if_true]
    rw [e]
    have hc : c = Char.ofNat c.toNat := (Char.ofNat_toNat c).symm
    obtain ⟨h1, h2⟩ := h
    generalize c.toNat = n at h1 h2 hc ⊢
    subst hc
    interval_cases n <;> decide
  · have e : c.toUpper = c := by
      unfold Char.toUpper
      simp only [ge_iff_le, h, if_false]
    rw [e]

theorem upper_letter (c lo up : Char) (hlo : 97 ≤ lo.toNat ∧ lo.toNat ≤ 122)
    (hup : lo.toUpper = up) (hfix : up.toUpper = up)
    (hone : ∀ n, 97 ≤ n → n ≤ 122 → Char.ofNat (n - 32) = up → Char.ofNat n = lo) :
    (c = lo ∨ c = up) ↔ c.toUpper = up := by
  constructor
  · rintro (rfl | rfl)
    · exact hup
    · exact hfix
  · intro h
    by_cases hr : 97 ≤ c.toNat ∧ c.toNat ≤ 122
    · have e : c.toUpper = Char.ofNat (c.toNat - 32) := by
        unfold Char.toUpper
        simp only [ge_iff_le, hr, and_self, if_true]
      rw [e] at h
      have := hone c.toNat hr.1 hr.2 h
      rw [Char.ofNat_toNat] at this
      exact Or.inl this
    · have e : c.toUpper = c := by
        unfold Char.toUpper
        simp only [ge_iff_le, hr, if_false]
      rw [e] at h
      exact Or.inr h

theorem upper_B (c : Char) : (c = 'b' ∨ c = 'B') ↔ c.toUpper = 'B' :=
  upper_letter c 'b' 'B' (by decide) (by decide) (by decide)
    (fun n h1 h2 => by interval_cases n <;> decide)

theorem upper_U (c : Char) : (c = 'u' ∨ c = 'U') ↔ c.toUpper = 'U' :=
  upper_letter c 'u' 'U' (by decide) (by decide) (by decide)
    (fun n h1 h2 => by interval_cases n <;> decide)

theorem upper_W (c : Char) : (c = 'w' ∨ c = 'W') ↔ c.toUpper = 'W' :=
  upper_letter c 'w' 'W' (by decide) (by decide) (by decide)
    (fun n h1 h2 => by interval_cases n <;> decide)

theorem upper_I (c : Char) : (c = 'i' ∨ c = 'I') ↔ c.toUpper = 'I' :=
  upper_letter c 'i' 'I' (by decide) (by decide) (by decide)
    (fun n h1 h2 => by interval_cases n <;> decide)

theorem upper_R (c : Char) : (c = 'r' ∨ c = 'R') ↔ c.toUpper = 'R' :=
  upper_letter c 'r' 'R' (by decide) (by decide) (by decide)
    (fun n h1 h2 => by interval_cases n <;> decide)

theorem upper_D (c : Char) : (c = 'd' ∨ c = 'D') ↔ c.toUpper = 'D' :=
  upper_letter c 'd' 'D' (by decide) (by decide) (by decide)
    (fun n h1 h2 => by interval_cases n <;> decide)

theorem gaiaArrayHDSType_upper (s : String) :
    gaiaArrayHDSType s
      = if (cstrAt s 0).toUpper = '_' then
          if (cstrAt s 1).toUpper = 'U' then
            if (cstrAt s 2).toUpper = 'B' then HdsType.HDS_UBYTE
            else if (cstrAt s 2).toUpper = 'W' then HdsType.HDS_UWORD
            else HdsType.HDS_UNKNOWN
          else if (cstrAt s 1).toUpper = 'B' then HdsType.HDS_BYTE
          else if (cstrAt s 1).toUpper = 'W' then HdsType.HDS_WORD
          else if (cstrAt s 1).toUpper = 'I' then HdsType.HDS_INTEGER
          else if (cstrAt s 1).toUpper = 'R' then HdsType.HDS_REAL
          else if (cstrAt s 1).toUpper = 'D' then HdsType.HDS_DOUBLE
          else HdsType.HDS_UNKNOWN
        else HdsType.HDS_UNKNOWN := by
  unfold gaiaArrayHDSType
  simp only [upper_B, upper_U, upper_W, upper_I, upper_R, upper_D,
    upper_underscore (cstrAt s 0)]

theorem key_prefix_cons (k x : Char) (p u : List Char) :
    (k :: p) <+: (x :: u) ↔ x = k ∧ p <+: u := by
  rw [List.cons_prefix_cons]
  constructor <;> rintro ⟨h1, h2⟩ <;> exact ⟨h1.symm, h2⟩

theorem null_upper : (Char.ofNat 0).toUpper = Char.ofNat 0 := by decide

theorem hdsType_key_short (t : HdsType) (ht : t ≠ HdsType.HDS_UNKNOWN) (x : Char) :
    ¬ (hdsKey t).data <+: [] ∧ ¬ (hdsKey t).data <+: [x] := by
  cases t <;> simp [hdsKey, key_prefix_cons, -List.cons_prefix_cons] at ht ⊢

theorem hdsType_key_two (t : HdsType) (ht : t ≠ HdsType.HDS_UNKNOWN) (x y : Char) :
    (if x = '_' then
        if y = 'U' then
          if Char.ofNat 0 = 'B' then HdsType.HDS_UBYTE
          else if Char.ofNat 0 = 'W' then HdsType.HDS_UWORD
          else HdsType.HDS_UNKNOWN
        else if y = 'B' then HdsType.HDS_BYTE
        else if y = 'W' then HdsType.HDS_WORD
        else if y = 'I' then HdsType.HDS_INTEGER
        else if y = 'R' then HdsType.HDS_REAL
        else if y = 'D' then HdsType.HDS_DOUBLE
        else HdsType.HDS_UNKNOWN
      else HdsType.HDS_UNKNOWN) = t ↔ (hdsKey t).data <+: [x, y] := by
  rw [if_neg (show ¬ Char.ofNat 0 = 'B' by decide), if_neg (show ¬ Char.ofNat 0 = 'W' by decide)]
  by_cases hx : x = '_'
  · subst hx
    rw [if_pos rfl]
    cases t <;> simp [hdsKey, key_prefix_cons, -List.cons_prefix_cons] at ht ⊢ <;>
      split_ifs <;> simp_all
  · rw [if_neg hx]
    cases t <;> simp [hdsKey, key_prefix_cons, -List.cons_prefix_cons, hx] at ht ⊢

theorem hdsType_key_three (t : HdsType) (ht : t ≠ HdsType.HDS_UNKNOWN) (x y z : Char)
    (r : List Char) :
    (if x = '_' then
        if y = 'U' then
          if z = 'B' then HdsType.HDS_UBYTE
          else if z = 'W' then HdsType.HDS_UWORD
          else HdsType.HDS_UNKNOWN
        else if y = 'B' then HdsType.HDS_BYTE
        else if y = 'W' then HdsType.HDS_WORD
        else if y = 'I' then HdsType.HDS_INTEGER
        else if y = 'R' then HdsType.HDS_REAL
        else if y = 'D' then HdsType.HDS_DOUBLE
        else HdsType.HDS_UNKNOWN
      else HdsType.HDS_UNKNOWN) = t ↔ (hdsKey t).data <+: x :: y :: z :: r := by
  by_cases hx : x = '_'
  · subst hx
    rw [if_pos rfl]
    by_cases hy : y = 'U'
    · subst hy
      rw [if_pos rfl]
      cases t <;> simp [hdsKey, key_prefix_cons, -List.cons_prefix_cons] at ht ⊢ <;>
        split_ifs <;> simp_all
    · rw [if_neg hy]
      cases t <;> simp [hdsKey, key_prefix_cons, -List.cons_prefix_cons, hy] at ht ⊢ <;>
        split_ifs <;> simp_all
  · rw [if_neg hx]
    cases t <;> simp [hdsKey, key_prefix_cons, -List.cons_prefix_cons, hx] at ht ⊢

theorem gaiaArrayHDSType_key (s : String) (t : HdsType) (ht : t ≠ HdsType.HDS_UNKNOWN) :
    gaiaArrayHDSType s = t ↔ (hdsKey t).data <+: (upperCase s).data := by
  rw [gaiaArrayHDSType_upper]
  obtain ⟨l⟩ := s
  have hu : (upperCase ⟨l⟩).data = l.map Char.toUpper := rfl
  rw [hu]
  match l with
  | [] =>
    simp only [cstrAt, List.getD_nil, null_upper, List.map_nil]
    rw [if_neg (show ¬ Char.ofNat 0 = '_' by decide)]
    exact ⟨fun h => absurd h.symm ht, fun h => absurd h (hdsType_key_short t ht 'x').1⟩
  | [a] =>
    simp only [cstrAt, List.getD_cons_zero, List.getD_cons_succ, List.getD_nil, null_upper,
      List.map_cons, List.map_nil]
    rw [if_neg (show ¬ Char.ofNat 0 = 'U' by decide), if_neg (show ¬ Char.ofNat 0 = 'B' by decide),
      if_neg (show ¬ Char.ofNat 0 = 'W' by decide), if_neg (show ¬ Char.ofNat 0 = 'I' by decide),
      if_neg (show ¬ Char.ofNat 0 = 'R' by decide), if_neg (show ¬ Char.ofNat 0 = 'D' by decide),
      ite_self]
    exact ⟨fun h => absurd h.symm ht, fun h => absurd h (hdsType_key_short t ht _).2⟩
  | [a, b] =>
    simp only [cstrAt, List.getD_cons_zero, List.getD_cons_succ, List.getD_nil, null_upper,
      List.map_cons, List.map_nil]
    exact hdsType_key_two t ht _ _
  | a :: b :: c :: r =>
    simp only [cstrAt, List.getD_cons_zero, List.getD_cons_succ, List.map_cons]
    exact hdsType_key_three t ht _ _ _ _

theorem hdsKey_of_unique (u : List Char) (t : HdsType) (ht : t ≠ HdsType.HDS_UNKNOWN)
    (hp : u <+: (hdsName t).data)
    (huniq : ∀ v, v ≠ HdsType.HDS_UNKNOWN → u <+: (hdsName v).data → v = t) :
    (hdsKey t).data <+: u := by
  have hB := huniq HdsType.HDS_BYTE (by decide)
  have hW := huniq HdsType.HDS_WORD (by decide)
  have hUB := huniq HdsType.HDS_UBYTE (by decide)
  have hUW := huniq HdsType.HDS_UWORD (by decide)
  clear huniq
  match u with
  | [] =>
    exact absurd ((hB (List.nil_prefix)).trans (hW (List.nil_prefix)).symm) (by decide)
  | [x] =>
    have hx : x = '_' := by
      cases t <;> simp [hdsName] at ht hp <;> exact hp
    subst hx
    exact absurd ((hB (by simp [hdsName])).trans (hW (by simp [hdsName])).symm) (by decide)
  | [x, y] =>
    cases t <;> simp [hdsName, hdsKey] at ht hp ⊢ <;>
      obtain ⟨rfl, rfl⟩ := hp <;> simp [hdsName] at hUB hUW ⊢
  | x :: y :: z :: r =>
    cases t <;> simp [hdsName, hdsKey] at ht hp ⊢ <;>
      simp [hp]

/-- C27: `gaiaArrayHDSType` understands the seven names of HDS data types whatever
the case of the letters.  For every string that is an upper or lower case spelling
of `_BYTE`, `_UBYTE`, `_WORD`, `_UWORD`, `_INTEGER`, `_REAL` or `_DOUBLE`, or of a
truncation of one of them that no other of the names begins with, the function
returns the data type of that name. -/
theorem gaiaArrayHDSType_understands (s : String) (t : HdsType) (h : Spells s t) :
    gaiaArrayHDSType s = t :=
  (gaiaArrayHDSType_key s t h.1).mpr (hdsKey_of_unique _ t h.1 h.2.1 h.2.2)

/-- C28 (as stated, refuted): the string `_BOGUS` is a spelling of none of the seven
names nor of a truncation of one, and `gaiaArrayHDSType` returns `HDS_BYTE` for
it. -/
theorem gaiaArrayHDSType_bogus :
    gaiaArrayHDSType "_BOGUS" = HdsType.HDS_BYTE ∧ ∀ t, ¬ Spells "_BOGUS" t := by
  refine ⟨by decide, fun t h => ?_⟩
  have hu : (upperCase "_BOGUS").data = ['_', 'B', 'O', 'G', 'U', 'S'] := by decide
  have hp := h.2.1
  rw [hu] at hp
  cases t <;> simp [hdsName] at hp

/-- C28 (amended): `gaiaArrayHDSType` looks at the first two characters of the
string, and at the third after `_U`, and at nothing that follows.  It returns
`HDS_UNKNOWN` exactly for the strings that, whatever the case of the letters, begin
with none of `_B`, `_UB`, `_W`, `_UW`, `_I`, `_R` and `_D`; a string that begins
with one of them gets the data type of that beginning, whatever follows it. -/
theorem gaiaArrayHDSType_unknown (s : String) :
    (gaiaArrayHDSType s = HdsType.HDS_UNKNOWN
        ↔ ∀ t, t ≠ HdsType.HDS_UNKNOWN → ¬ (hdsKey t).data <+: (upperCase s).data) ∧
      ∀ t, t ≠ HdsType.HDS_UNKNOWN →
        (gaiaArrayHDSType s = t ↔ (hdsKey t).data <+: (upperCase s).data) := by
  refine ⟨⟨fun h t ht hp => ?_, fun h => ?_⟩, fun t ht => gaiaArrayHDSType_key s t ht⟩
  · exact ht (((gaiaArrayHDSType_key s t ht).mpr hp).symm.trans h)
  · by_contra hne
    exact h _ hne ((gaiaArrayHDSType_key s _ hne).mp rfl)

/-- C27 at a concrete input: a truncated mixed-case spelling of `_DOUBLE`. -/
theorem gaiaArrayHDSType_understands_witness :
    gaiaArrayHDSType "_dOuB" = HdsType.HDS_DOUBLE :=
  gaiaArrayHDSType_understands "_dOuB" HdsType.HDS_DOUBLE
    ⟨by decide, by decide, fun u hu hp => by
      have e : (upperCase "_dOuB").data = ['_', 'D', 'O', 'U', 'B'] := by decide
      rw [e] at hp
      cases u <;> simp [hdsName, key_prefix_cons, -List.cons_prefix_cons] at hu hp ⊢⟩

/-- C28 (amended) at a concrete input: a string that begins with `_r`. -/
theorem gaiaArrayHDSType_unknown_witness :
    gaiaArrayHDSType "_rubbish" = HdsType.HDS_REAL ↔
      (hdsKey HdsType.HDS_REAL).data <+: (upperCase "_rubbish").data :=
  (gaiaArrayHDSType_unknown "_rubbish").2 HdsType.HDS_REAL (by decide)

/-! ## Strides and conversion of GAIA arrays -/

theorem wrapInt_of_inInt (x : Int) (h : inInt x) : wrapInt x = x := by
  unfold inInt at h
  unfold wrapInt
  omega

theorem stridesLoop_length (fuel : Nat) :
    ∀ (i : Nat) (count : Int) (dims strides : List Int),
      (stridesLoop fuel i count dims strides).length = strides.length := by
  induction fuel with
  | zero => intro i count dims strides; rfl
  | succ n ih =>
    intro i count dims strides
    rw [stridesLoop, ih, List.length_set]

theorem stridesLoop_before (fuel : Nat) :
    ∀ (i : Nat) (count : Int) (dims strides : List Int) (k : Nat), k < i →
      (stridesLoop fuel i count dims strides)[k]? = strides[k]? := by
  induction fuel with
  | zero => intro i count dims strides k _; rfl
  | succ n ih =>
    intro i count dims strides k hk
    rw [stridesLoop, ih (i + 1) _ dims _ k (by omega), List.getElem?_set_ne (by omega)]

theorem stridesLoop_get (fuel : Nat) :
    ∀ (i : Nat) (count : Int) (dims strides : List Int) (k : Nat), i ≤ k → k < i + fuel →
      k ≤ dims.length → k < strides.length → count = (dims.take i).prod →
      (∀ j, j ≤ k → inInt (dims.take j).prod) →
      (stridesLoop fuel i count dims strides)[k]? = some (dims.take k).prod := by
  induction fuel with
  | zero => intro i count dims strides k h1 h2; omega
  | succ n ih =>
    intro i count dims strides k h1 h2 hd hs hcount hfit
    rw [stridesLoop]
    by_cases hk : k = i
    · subst hk
      rw [stridesLoop_before n (k + 1) _ dims _ k (by omega), List.getElem?_set_eq_of_lt _ hs,
        hcount]
    · have hi : i < dims.length := by omega
      have hprod : (dims.take (i + 1)).prod = (dims.take i).prod * dims.getD i 0 := by
        rw [List.prod_take_succ dims i hi, List.getD_eq_getElem dims 0 hi]
      refine ih (i + 1) _ dims _ k (by omega) (by omega) hd (by rw [List.length_set]; exact hs)
        ?_ hfit
      rw [hcount, ← hprod]
      exact wrapInt_of_inInt _ (hfit (i + 1) (by omega))

/-- C29 (as stated, refuted): an array of 65536 by 65536 by 1 elements.  The
product of the first two dimensions, 4294967296, is not a value of `int`; the
third stride comes out as 0. -/
theorem gaiaArrayGetStrides_overflow :
    gaiaArrayGetStrides 3 [65536, 65536, 1] [0, 0, 0] = [1, 65536, 0] ∧
      (List.take 2 [(65536 : Int), 65536, 1]).prod = 4294967296 := by
  decide

/-- C29 (amended): `gaiaArrayGetStrides` returns column-major strides as long as
the products of the dimensions are values of `int`.  For `dims` and `strides` of at
least `ndims` entries and every `i < ndims` such that each of the products
`dims[0] * ... * dims[j-1]` with `j ≤ i` lies in the range of `int`, `strides[i]`
is `dims[0] * ... * dims[i-1]` (1 for `i = 0`); for three dimensions with `dims[0]`
and `dims[0] * dims[1]` in that range, `strides[0]*i + strides[1]*j + strides[2]*k`
is `i + dims[0]*(j + dims[1]*k)`. -/
theorem gaiaArrayGetStrides_column_major (ndims : Int) (dims strides : List Int)
    (hd : ndims.toNat ≤ dims.length) (hs : ndims.toNat ≤ strides.length) :
    (∀ i : Nat, (i : Int) < ndims → (∀ j, j ≤ i → inInt (dims.take j).prod) →
        (gaiaArrayGetStrides ndims dims strides)[i]? = some (dims.take i).prod) ∧
      (ndims = 3 → inInt (dims.getD 0 0) → inInt (dims.getD 0 0 * dims.getD 1 0) →
        ∀ i j k : Int,
          (gaiaArrayGetStrides ndims dims strides).getD 0 0 * i
              + (gaiaArrayGetStrides ndims dims strides).getD 1 0 * j
              + (gaiaArrayGetStrides ndims dims strides).getD 2 0 * k
            = i + dims.getD 0 0 * (j + dims.getD 1 0 * k)) := by
  have hgen : ∀ i : Nat, (i : Int) < ndims → (∀ j, j ≤ i → inInt (dims.take j).prod) →
      (gaiaArrayGetStrides ndims dims strides)[i]? = some (dims.take i).prod := by
    intro i hi hfit
    have hi2 : i < ndims.toNat := by omega
    unfold gaiaArrayGetStrides
    exact stridesLoop_get ndims.toNat 0 1 dims strides i (Nat.zero_le _) (by omega) (by omega)
      (by omega) (by simp) hfit
  refine ⟨hgen, ?_⟩
  intro h3 h0 h1 i j k
  subst h3
  have hlen : 3 ≤ dims.length := hd
  match dims, hlen with
  | a :: b :: c :: r, _ =>
    simp only [List.getD_cons_zero, List.getD_cons_succ] at h0 h1 ⊢
    have hone : inInt 1 := by unfold inInt; omega
    have e0 := hgen 0 (by decide) (fun j hj => by
      have : j = 0 := by omega
      subst this
      simpa using hone)
    have e1 := hgen 1 (by decide) (fun j hj => by
      have : j = 0 ∨ j = 1 := by omega
      rcases this with rfl | rfl
      · simpa using hone
      · simpa using h0)
    have e2 := hgen 2 (by decide) (fun j hj => by
      have : j = 0 ∨ j = 1 ∨ j = 2 := by omega
      rcases this with rfl | rfl | rfl
      · simpa using hone
      · simpa using h0
      · simpa using h1)
    simp only [List.getD_eq_getElem?_getD, e0, e1, e2, Option.getD_some]
    simp only [List.take, List.prod_cons, List.prod_nil]
    ring

theorem convertLoop_length {R : Type} [DecidableEq R] (badFlag badValue : R) (inPtr : List R)
    (fuel : Nat) :
    ∀ (i : Nat) (outPtr : List R),
      (convertLoop badFlag badValue inPtr fuel i outPtr).length = outPtr.length := by
  induction fuel with
  | zero => intro i outPtr; rfl
  | succ n ih =>
    intro i outPtr
    rw [convertLoop]
    split
    · rw [ih, List.length_set]
    · rw [ih]

theorem convertLoop_before {R : Type} [DecidableEq R] (badFlag badValue : R) (inPtr : List R)
    (fuel : Nat) :
    ∀ (i : Nat) (outPtr : List R) (k : Nat), k < i →
      (convertLoop badFlag badValue inPtr fuel i outPtr)[k]? = outPtr[k]? := by
  induction fuel with
  | zero => intro i outPtr k _; rfl
  | succ n ih =>
    intro i outPtr k hk
    rw [convertLoop]
    split
    · rw [ih (i + 1) _ k (by omega), List.getElem?_set_ne (by omega)]
    · rw [ih (i + 1) _ k (by omega)]

theorem convertLoop_get {R : Type} [DecidableEq R] (badFlag badValue : R) (inPtr : List R)
    (fuel : Nat) :
    ∀ (i : Nat) (outPtr : List R) (k : Nat) (v : R), i ≤ k → k < i + fuel →
      inPtr[k]? = some v → k < outPtr.length →
      (convertLoop badFlag badValue inPtr fuel i outPtr)[k]?
        = some (if v = badFlag then badValue else v) := by
  induction fuel with
  | zero => intro i outPtr k v h1 h2; omega
  | succ n ih =>
    intro i outPtr k v h1 h2 hin hout
    rw [convertLoop]
    by_cases hk : k = i
    · subst hk
      rw [hin]
      simp only []
      rw [convertLoop_before badFlag badValue inPtr n (k + 1) _ k (by omega),
        List.getElem?_set_eq_of_lt _ hout]
    · split
      · exact ih (i + 1) _ k v (by omega) (by omega) hin (by rw [List.length_set]; exact hout)
      · exact ih (i + 1) _ k v (by omega) (by omega) hin hout

/-- C30: `gaiaArrayToDouble` on the data types of integers replaces the bad
values.  For each of `HDS_INTEGER`, `HDS_WORD`, `HDS_UWORD`, `HDS_BYTE` and
`HDS_UBYTE`, every input array and every `i < nel` within the input and the output,
`outPtr[i]` is `badValue` when `inPtr[i]` is the bad value of the data type
(`VAL__BADI`, `VAL__BADW`, `VAL__BADUW`, `VAL__BADB`, `VAL__BADUB`) and the value
of `inPtr[i]` otherwise. -/
theorem gaiaArrayToDouble_integers {R : Type} [DecidableEq R] (V : PrmPar R) (inPtr : List R)
    (nel : Int) (type : HdsType) (badValue : R) (outPtr : List R) (i : Nat) (v : R)
    (htype : type = HdsType.HDS_INTEGER ∨ type = HdsType.HDS_WORD ∨ type = HdsType.HDS_UWORD
      ∨ type = HdsType.HDS_BYTE ∨ type = HdsType.HDS_UBYTE)
    (hi : (i : Int) < nel) (hin : inPtr[i]? = some v) (hout : i < outPtr.length) :
    (gaiaArrayToDouble V inPtr nel type badValue outPtr)[i]?
        = some (if v = badOf V type then badValue else v) ∧
      (gaiaArrayToDouble V inPtr nel type badValue outPtr).length = outPtr.length := by
  have hi2 : i < 0 + nel.toNat := by omega
  rcases htype with rfl | rfl | rfl | rfl | rfl <;>
    exact ⟨convertLoop_get _ badValue inPtr nel.toNat 0 outPtr i v (Nat.zero_le _) hi2 hin hout,
      convertLoop_length _ badValue inPtr nel.toNat 0 outPtr⟩

/-- C29 (amended) at a concrete input: an array of 4 by 5 by 6 elements. -/
theorem gaiaArrayGetStrides_column_major_witness :
    (gaiaArrayGetStrides 3 [4, 5, 6] [0, 0, 0])[2]? = some ([4, 5, 6].take 2).prod :=
  (gaiaArrayGetStrides_column_major 3 [4, 5, 6] [0, 0, 0] (by decide) (by decide)).1 2
    (by decide) (by decide)

/-- C30 at a concrete input: three words, the second one bad. -/
theorem gaiaArrayToDouble_integers_witness :
    (gaiaArrayToDouble stdPrm [1, -32768, 3] 3 HdsType.HDS_WORD 99 [0, 0, 0, 0])[1]?
      = some (if (-32768 : Int) = badOf stdPrm HdsType.HDS_WORD then 99 else -32768) :=
  (gaiaArrayToDouble_integers stdPrm [1, -32768, 3] 3 HdsType.HDS_WORD 99 [0, 0, 0, 0] 1
    (-32768) (by decide) (by decide) (by decide) (by decide)).1

/-! ## Bad values of `_REAL` arrays and the image of a cube -/

/-- C31 (the code on `HDS_REAL`): `gaiaArrayToDouble` compares the elements of a
`_REAL` array with `VAL__BADD`, the bad value of `double`.  When the bad value of
`float`, `VAL__BADR`, is another number, an element equal to `VAL__BADR` is not
replaced by `badValue`: it is written to the output as it is. -/
theorem gaiaArrayToDouble_real_bad_kept {R : Type} [DecidableEq R] (V : PrmPar R)
    (inPtr : List R) (nel : Int) (badValue : R) (outPtr : List R) (i : Nat)
    (hne : V.VAL__BADR ≠ V.VAL__BADD) (hi : (i : Int) < nel)
    (hin : inPtr[i]? = some V.VAL__BADR) (hout : i < outPtr.length) :
    (gaiaArrayToDouble V inPtr nel HdsType.HDS_REAL badValue outPtr)[i]?
      = some V.VAL__BADR := by
  have hi2 : i < 0 + nel.toNat := by omega
  have h := convertLoop_get V.VAL__BADD badValue inPtr nel.toNat 0 outPtr i V.VAL__BADR
    (Nat.zero_le _) hi2 hin hout
  rw [if_neg hne] at h
  exact h

theorem stdPrm_real_ne_double : stdPrm.VAL__BADR ≠ stdPrm.VAL__BADD := by
  norm_num [stdPrm]

theorem foldl_invariant {α β : Type} (P : β → Prop) (f : β → α → β)
    (h : ∀ b a, P b → P (f b a)) : ∀ (l : List α) (b : β), P b → P (l.foldl f b) := by
  intro l
  induction l with
  | nil => intro b hb; exact hb
  | cons a l ih => intro b hb; exact ih (f b a) (h b a hb)

theorem storeElem_first (size : Nat) (toPtr value : List (Option Nat)) :
    (storeElem size toPtr 0 value).length = toPtr.length ∧
      ∀ p, size ≤ p → (storeElem size toPtr 0 value)[p]? = toPtr[p]? := by
  unfold storeElem
  rw [if_neg (by decide)]
  have key : ∀ n, n ≤ size →
      ((List.range n).foldl (fun m b => m.set ((0 : Int).toNat * size + b) (value.getD b none))
          toPtr).length = toPtr.length ∧
        ∀ p, size ≤ p →
          ((List.range n).foldl
            (fun m b => m.set ((0 : Int).toNat * size + b) (value.getD b none)) toPtr)[p]?
            = toPtr[p]? := by
    intro n
    induction n with
    | zero => intro _; exact ⟨rfl, fun _ _ => rfl⟩
    | succ n ih =>
      intro hn
      have ih2 := ih (by omega)
      rw [List.range_succ, List.foldl_append]
      simp only [List.foldl_cons, List.foldl_nil, List.length_set]
      refine ⟨ih2.1, fun p hp => ?_⟩
      rw [List.getElem?_set_ne (by simp; omega)]
      exact ih2.2 p hp
  exact key size (Nat.le_refl _)

theorem extractAndCopy_first (size : Nat) (fromPtr : List Nat) (dims strides : List Int)
    (axis1 axis2 : Nat) (indices : List Int) (toPtr : List (Option Nat)) :
    (extractAndCopy size fromPtr dims strides axis1 axis2 indices toPtr).2.length
        = toPtr.length ∧
      ∀ p, size ≤ p →
        (extractAndCopy size fromPtr dims strides axis1 axis2 indices toPtr).2[p]?
          = toPtr[p]? := by
  unfold extractAndCopy
  refine foldl_invariant
    (fun st : List Int × List (Option Nat) =>
      st.2.length = toPtr.length ∧ ∀ p, size ≤ p → st.2[p]? = toPtr[p]?) _ ?_ _ _
    ⟨rfl, fun _ _ => rfl⟩
  intro st i hst
  refine foldl_invariant
    (fun st : List Int × List (Option Nat) =>
      st.2.length = toPtr.length ∧ ∀ p, size ≤ p → st.2[p]? = toPtr[p]?) _ ?_ _ _ hst
  intro st2 j hst2
  have h := storeElem_first size st2.2
    (loadElem size fromPtr (pixelOffset strides (st2.1.set axis1 (j : Int))))
  exact ⟨h.1.trans hst2.1, fun p hp => (h.2 p hp).trans (hst2.2 p hp)⟩

/-- C32 (the code with the lost axis 0 or 1): `gaiaArrayImageFromCube` stores every
element it picks out of the cube in the first element of the image, the index `k`
of the store being 0 throughout.  For every cube, data type, `dims`, `index` and
`axis` 0 or 1 the function returns a block of `dims[axis1]*dims[axis2]` elements
in which every byte after the first element still is what the allocation left
there: no element of the image but the first is written. -/
theorem gaiaArrayImageFromCube_first_only (inPtr : List Nat) (type : HdsType)
    (dims : List Int) (axis index cnfmalloc : Int) (haxis : axis = 0 ∨ axis = 1) :
    ∃ img, gaiaArrayImageFromCube inPtr type dims axis index cnfmalloc = some img ∧
      img.bytes.length
        = wrapSizeT (wrapSizeT (sizeT (dims.getD (if axis = 0 then 1 else 0) 0)
            * sizeT (dims.getD 2 0)) * gaiaArraySizeOf type) ∧
      ∀ p, gaiaArraySizeOf type ≤ p → p < img.bytes.length → img.bytes[p]? = some none := by
  have h2 : ¬ axis = 2 := by omega
  unfold gaiaArrayImageFromCube
  rw [if_neg h2, if_pos haxis]
  simp only []
  have hrep : ∀ (n p : Nat), p < n →
      (List.replicate n (none : Option Nat))[p]? = some none := by
    intro n p hp
    rw [List.getElem?_replicate, if_pos hp]
  cases type <;>
    first
    | exact ⟨_, rfl, by simp, fun p _ hp => hrep _ p (by simpa using hp)⟩
    | (refine ⟨_, rfl, ?_, fun p hs hp => ?_⟩
       · simp only []
         rw [(extractAndCopy_first _ _ _ _ _ _ _ _).1, List.length_replicate]
       · simp only [] at hp ⊢
         rw [(extractAndCopy_first _ _ _ _ _ _ _ _).1, List.length_replicate] at hp
         rw [(extractAndCopy_first _ _ _ _ _ _ _ _).2 p hs]
         exact hrep _ p hp)

/-- C31 (the code on `HDS_REAL`) at a concrete input: three floats, the second one
bad, with the bad values of `prm_par.h`. -/
theorem gaiaArrayToDouble_real_bad_kept_witness :
    (gaiaArrayToDouble stdPrm [1, stdPrm.VAL__BADR, 3] 3 HdsType.HDS_REAL 99 [0, 0, 0])[1]?
      = some stdPrm.VAL__BADR :=
  gaiaArrayToDouble_real_bad_kept stdPrm [1, stdPrm.VAL__BADR, 3] 3 99 [0, 0, 0] 1
    stdPrm_real_ne_double (by decide) (by simp) (by decide)

/-- C32 (the code with the lost axis 0 or 1) at a concrete input: the plane 0
along axis 0 of a cube of 2 by 2 by 2 bytes numbered 0 to 7.  The image section is
0, 2, 4, 6; the block returned holds 6 in its first byte and nothing in the
others. -/
theorem gaiaArrayImageFromCube_first_only_witness :
    imageSection [0, 1, 2, 3, 4, 5, 6, 7] [2, 2, 2] 0 0 = [some 0, some 2, some 4, some 6] ∧
      gaiaArrayImageFromCube [0, 1, 2, 3, 4, 5, 6, 7] HdsType.HDS_UBYTE [2, 2, 2] 0 0 0
        = some { cnf := false, bytes := [some 6, none, none, none] } ∧
      ∃ img, gaiaArrayImageFromCube [0, 1, 2, 3, 4, 5, 6, 7] HdsType.HDS_UBYTE [2, 2, 2] 0 0 0
          = some img ∧ img.bytes[1]? = some none :=
  ⟨by decide, by decide,
    (gaiaArrayImageFromCube_first_only [0, 1, 2, 3, 4, 5, 6, 7] HdsType.HDS_UBYTE [2, 2, 2] 0 0 0
      (Or.inl rfl)).elim
      (fun img h => ⟨img, h.1, h.2.2 1 (by decide) (by rw [h.2.1]; decide)⟩)⟩

/-! ## The steps of `ndfNew` at concrete inputs -/

/-- C16 at concrete inputs: with a live placeholder, a supported type and valid
bounds all five steps are called, in order; with an upper bound below the lower
bound the steps stop after the bounds check. -/
theorem ndfNew_steps_in_order_witness :
    (newEvents exNew.log
        (ndfNew stdPar stdIds ndfTables "_REAL" 2 [1, 1] [40, 32] exNew).log).filter isStep
        = [Event.ndf1Imppl 3, Event.ndf1Chftp, Event.ndf1Vbnd, Event.ndf1Dcre,
          Event.ndf1Expid] ∧
      (newEvents exNew.log
        (ndfNew stdPar stdIds ndfTables "_REAL" 2 [1, 1] exBadUbnd exNew).log).filter isStep
        = [Event.ndf1Imppl 3, Event.ndf1Chftp, Event.ndf1Vbnd] :=
  ⟨(ndfNew_steps_in_order stdPar stdIds ndfTables "_REAL" 2 [1, 1] [40, 32] exNew).1.trans
      (by decide),
    (ndfNew_steps_in_order stdPar stdIds ndfTables "_REAL" 2 [1, 1] exBadUbnd exNew).1.trans
      (by decide)⟩

end Starlink
